import Mathlib

/-!
# HandyTech braille driver: protocol engine and key decoder

A shallow embedding of `Drivers/HandyTech/braille.c`.  The file-scope
variables of the driver become the fields of `Driver`; every C function that
touches them becomes a function on `Driver`.  The serial line is an explicit
script: bytes received (`Rx`), outcomes of `safe_write` (`wr`), and the
contents of freshly allocated heap blocks are inputs of the model.

Conventions
* bytes, masks, counters and timers are natural numbers; `retryCount`
  (`unsigned int`) and `stateTimer` (`unsigned long`) are not wrapped: a
  wrap needs 2^32 consecutive entries into one state;
* `int` values that may be negative (`column`, `status`, `repeatCounter`,
  commands with `EOF`) are integers;
* the key masks follow the LP64 data model: `int` has 32 bits and
  `unsigned long` has 64, so that an `int` mask with bit 31 set is sign-extended
  when it meets the `unsigned long` field `front`;
* an interpreter that returns 0 yields `none`, one that returns 1 with
  `*command = c` yields `some c`.

The byte specification parser of `Programs/hidtest.c` is embedded in the
namespace `HidTest`.
-/

namespace HandyTech

/-! ## Communication codes -/

def HandyDescribe : List Nat := [0xFF]
def HandyDescription : List Nat := [0xFE]
def HandyBrailleStart : List Nat := [0x01]
def BookwormBrailleEnd : List Nat := [0x16]
def BookwormStop : List Nat := [0x05, 0x07]

/-- The C library constant `EOF`: the value a poll returns for no command. -/
def EOF : Int := -1

/-- Held keys: front-panel mask, routing column and status index (-1 = none). -/
structure Keys where
  front : Nat
  column : Int
  status : Int
deriving DecidableEq, Repr

def repeatDelay : Int := 10
def repeatInterval : Int := 3

/-- The two byte interpreters a model may point to. -/
inductive ByteInterpreter where
  | interpretKeyByte
  | interpretBookwormByte
deriving DecidableEq, Repr

/-- The three keyset interpreters a model may point to. -/
inductive KeysInterpreter where
  | interpretModularKeys
  | interpretBrailleWaveKeys
  | interpretBrailleStarKeys
deriving DecidableEq, Repr

/-- One row of `Models[]`.  A `NULL` name or interpreter is `none`; an
address/length pair is the list of bytes it denotes. -/
structure ModelDescription where
  name : Option String
  identifier : Nat
  columns : Nat
  statusCells : Nat
  helpPage : Nat
  interpretByte : Option ByteInterpreter
  interpretKeys : Option KeysInterpreter
  brailleStart : List Nat
  brailleEnd : List Nat
  stop : List Nat
deriving DecidableEq, Repr

/-- The last row of `Models[]`. -/
def endOfTable : ModelDescription :=
  ⟨none, 0, 0, 0, 0, none, none, [], [], []⟩

/-- The table `Models[]`, terminator included. -/
def Models : List ModelDescription :=
  [ ⟨some "Modular 20+4", 0x80, 20, 4, 0,
      some .interpretKeyByte, some .interpretModularKeys,
      HandyBrailleStart, [], []⟩,
    ⟨some "Modular 40+4", 0x89, 40, 4, 0,
      some .interpretKeyByte, some .interpretModularKeys,
      HandyBrailleStart, [], []⟩,
    ⟨some "Modular 80+4", 0x88, 80, 4, 0,
      some .interpretKeyByte, some .interpretModularKeys,
      HandyBrailleStart, [], []⟩,
    ⟨some "Braille Wave", 0x05, 40, 0, 0,
      some .interpretKeyByte, some .interpretBrailleWaveKeys,
      HandyBrailleStart, [], []⟩,
    ⟨some "Bookworm", 0x90, 8, 0, 1,
      some .interpretBookwormByte, none,
      HandyBrailleStart, BookwormBrailleEnd, BookwormStop⟩,
    ⟨some "Braillino", 0x72, 20, 0, 2,
      some .interpretKeyByte, some .interpretBrailleStarKeys,
      HandyBrailleStart, [], []⟩,
    ⟨some "Braille Star 40", 0x74, 40, 0, 2,
      some .interpretKeyByte, some .interpretBrailleStarKeys,
      HandyBrailleStart, [], []⟩,
    ⟨some "Braille Star 80", 0x78, 80, 0, 2,
      some .interpretKeyByte, some .interpretBrailleStarKeys,
      HandyBrailleStart, [], []⟩,
    endOfTable ]

def BRLROWS : Nat := 1
def MAX_STCELLS : Nat := 4

/-- The brltty standard dot mapping to the Handy mapping. -/
def TransTable : List Nat :=
  [ 0x00, 0x01, 0x08, 0x09, 0x02, 0x03, 0x0A, 0x0B,
    0x10, 0x11, 0x18, 0x19, 0x12, 0x13, 0x1A, 0x1B,
    0x04, 0x05, 0x0C, 0x0D, 0x06, 0x07, 0x0E, 0x0F,
    0x14, 0x15, 0x1C, 0x1D, 0x16, 0x17, 0x1E, 0x1F,
    0x20, 0x21, 0x28, 0x29, 0x22, 0x23, 0x2A, 0x2B,
    0x30, 0x31, 0x38, 0x39, 0x32, 0x33, 0x3A, 0x3B,
    0x24, 0x25, 0x2C, 0x2D, 0x26, 0x27, 0x2E, 0x2F,
    0x34, 0x35, 0x3C, 0x3D, 0x36, 0x37, 0x3E, 0x3F,
    0x40, 0x41, 0x48, 0x49, 0x42, 0x43, 0x4A, 0x4B,
    0x50, 0x51, 0x58, 0x59, 0x52, 0x53, 0x5A, 0x5B,
    0x44, 0x45, 0x4C, 0x4D, 0x46, 0x47, 0x4E, 0x4F,
    0x54, 0x55, 0x5C, 0x5D, 0x56, 0x57, 0x5E, 0x5F,
    0x60, 0x61, 0x68, 0x69, 0x62, 0x63, 0x6A, 0x6B,
    0x70, 0x71, 0x78, 0x79, 0x72, 0x73, 0x7A, 0x7B,
    0x64, 0x65, 0x6C, 0x6D, 0x66, 0x67, 0x6E, 0x6F,
    0x74, 0x75, 0x7C, 0x7D, 0x76, 0x77, 0x7E, 0x7F,
    0x80, 0x81, 0x88, 0x89, 0x82, 0x83, 0x8A, 0x8B,
    0x90, 0x91, 0x98, 0x99, 0x92, 0x93, 0x9A, 0x9B,
    0x84, 0x85, 0x8C, 0x8D, 0x86, 0x87, 0x8E, 0x8F,
    0x94, 0x95, 0x9C, 0x9D, 0x96, 0x97, 0x9E, 0x9F,
    0xA0, 0xA1, 0xA8, 0xA9, 0xA2, 0xA3, 0xAA, 0xAB,
    0xB0, 0xB1, 0xB8, 0xB9, 0xB2, 0xB3, 0xBA, 0xBB,
    0xA4, 0xA5, 0xAC, 0xAD, 0xA6, 0xA7, 0xAE, 0xAF,
    0xB4, 0xB5, 0xBC, 0xBD, 0xB6, 0xB7, 0xBE, 0xBF,
    0xC0, 0xC1, 0xC8, 0xC9, 0xC2, 0xC3, 0xCA, 0xCB,
    0xD0, 0xD1, 0xD8, 0xD9, 0xD2, 0xD3, 0xDA, 0xDB,
    0xC4, 0xC5, 0xCC, 0xCD, 0xC6, 0xC7, 0xCE, 0xCF,
    0xD4, 0xD5, 0xDC, 0xDD, 0xD6, 0xD7, 0xDE, 0xDF,
    0xE0, 0xE1, 0xE8, 0xE9, 0xE2, 0xE3, 0xEA, 0xEB,
    0xF0, 0xF1, 0xF8, 0xF9, 0xF2, 0xF3, 0xFA, 0xFB,
    0xE4, 0xE5, 0xEC, 0xED, 0xE6, 0xE7, 0xEE, 0xEF,
    0xF4, 0xF5, 0xFC, 0xFD, 0xF6, 0xF7, 0xFE, 0xFF ]

/-- The array access `TransTable[b]` for a byte `b`. -/
def trans (b : Nat) : Nat := TransTable.getD b 0

/-- The protocol states. -/
inductive BrailleDisplayState where
  | BDS_OFF
  | BDS_RESETTING
  | BDS_IDENTIFYING
  | BDS_READY
  | BDS_WRITING
deriving DecidableEq, Repr

open BrailleDisplayState

/-- One call of `safe_write`: the bytes handed to it and whether it wrote them
all. -/
structure Tx where
  data : List Nat
  ok : Bool
deriving DecidableEq, Repr

/-- The file-scope variables of the driver, plus `log`, the record of every
write attempted on the serial line (oldest first).  `rawData`/`prevData` are
the heap blocks (`[]` for `NULL`); `rawStatus`/`prevStatus` are the
`MAX_STCELLS`-byte arrays. -/
structure Driver where
  model : ModelDescription
  rawData : List Nat
  prevData : List Nat
  rawStatus : List Nat
  prevStatus : List Nat
  currentKeys : Keys
  pressedKeys : Keys
  nullKeys : Keys
  inputMode : Nat
  repeatCounter : Int
  currentState : BrailleDisplayState
  stateTimer : Nat
  retryCount : Nat
  updateRequired : Bool
  log : List Tx
deriving DecidableEq, Repr

/-- The host side display record: geometry reported by `brl_open` and the
cell buffer handed to `brl_writeWindow`. -/
structure BrailleDisplay where
  x : Nat
  y : Nat
  helpPage : Nat
  buffer : List Nat
deriving DecidableEq, Repr

/-- The variables as the C runtime initialises them before the first open:
statics are zero, `currentState` is `BDS_OFF`, pointers are `NULL`. -/
def Driver.initial : Driver :=
  { model := endOfTable
    rawData := []
    prevData := []
    rawStatus := List.replicate MAX_STCELLS 0
    prevStatus := List.replicate MAX_STCELLS 0
    currentKeys := ⟨0, 0, 0⟩
    pressedKeys := ⟨0, 0, 0⟩
    nullKeys := ⟨0, 0, 0⟩
    inputMode := 0
    repeatCounter := 0
    currentState := BDS_OFF
    stateTimer := 0
    retryCount := 0
    updateRequired := false
    log := [] }

/-! ## Key and command constants -/

def KEY_RELEASE : Nat := 0x80
def KEY_ROUTING : Nat := 0x20
def KEY_STATUS : Nat := 0x70
/-- The conversion of an `int`, given by its 32 bits, to `unsigned long`: the
sign bit is copied into bits 32 to 63. -/
def intToULong (bits : Nat) : Nat :=
  if bits &&& 0x80000000 ≠ 0 then bits ||| 0xFFFFFFFF00000000 else bits

/-- The macro `KEY(code)` where it meets an `unsigned long`: `1 << code` is
an `int`, so `KEY(0x1F)` is 0xFFFFFFFF80000000 and every smaller code gives the
one-bit mask. -/
def KEY (code : Nat) : Nat := intToULong (1 <<< code)

def KEY_B1 : Nat := KEY 0x03
def KEY_B2 : Nat := KEY 0x07
def KEY_B3 : Nat := KEY 0x0B
def KEY_B4 : Nat := KEY 0x0F
def KEY_B5 : Nat := KEY 0x13
def KEY_B6 : Nat := KEY 0x17
def KEY_B7 : Nat := KEY 0x1B
def KEY_B8 : Nat := KEY 0x1F
def KEY_UP : Nat := KEY 0x04
def KEY_DOWN : Nat := KEY 0x08

def KEY_ESCAPE : Nat := KEY 0x0C
def KEY_SPACE : Nat := KEY 0x10
def KEY_RETURN : Nat := KEY 0x14

def KEY_SPACE_LEFT : Nat := KEY_SPACE
def KEY_SPACE_RIGHT : Nat := KEY 0x18
def ROCKER_LEFT_TOP : Nat := KEY_ESCAPE
def ROCKER_LEFT_BOTTOM : Nat := KEY_RETURN
def ROCKER_LEFT_MIDDLE : Nat := ROCKER_LEFT_TOP ||| ROCKER_LEFT_BOTTOM
def ROCKER_RIGHT_TOP : Nat := KEY_UP
def ROCKER_RIGHT_BOTTOM : Nat := KEY_DOWN
def ROCKER_RIGHT_MIDDLE : Nat := ROCKER_RIGHT_TOP ||| ROCKER_RIGHT_BOTTOM

def BWK_BACKWARD : Nat := 0x01
def BWK_ESCAPE : Nat := 0x02
def BWK_ENTER : Nat := 0x04
def BWK_FORWARD : Nat := 0x08

/-- The command codes of `Programs/brl.h` that the driver names.  The header
is not part of the driver, so the codes are a parameter of the model. -/
structure Commands where
  CMD_NOOP : Nat
  CMD_LNUP : Nat
  CMD_LNDN : Nat
  CMD_WINUP : Nat
  CMD_WINDN : Nat
  CMD_PRDIFLN : Nat
  CMD_NXDIFLN : Nat
  CMD_ATTRUP : Nat
  CMD_ATTRDN : Nat
  CMD_TOP : Nat
  CMD_BOT : Nat
  CMD_TOP_LEFT : Nat
  CMD_BOT_LEFT : Nat
  CMD_PRPGRPH : Nat
  CMD_NXPGRPH : Nat
  CMD_PRPROMPT : Nat
  CMD_NXPROMPT : Nat
  CMD_PRSEARCH : Nat
  CMD_NXSEARCH : Nat
  CMD_CHRLT : Nat
  CMD_CHRRT : Nat
  CMD_HWINLT : Nat
  CMD_HWINRT : Nat
  CMD_FWINLT : Nat
  CMD_FWINRT : Nat
  CMD_LNBEG : Nat
  CMD_LNEND : Nat
  CMD_HOME : Nat
  CMD_BACK : Nat
  CMD_FREEZE : Nat
  CMD_DISPMD : Nat
  CMD_SIXDOTS : Nat
  CMD_SLIDEWIN : Nat
  CMD_SKPIDLNS : Nat
  CMD_SKPBLNKWINS : Nat
  CMD_CSRVIS : Nat
  CMD_CSRTRK : Nat
  CMD_CSRSIZE : Nat
  CMD_ATTRVIS : Nat
  CMD_TUNES : Nat
  CMD_HELP : Nat
  CMD_INFO : Nat
  CMD_PREFMENU : Nat
  CMD_PREFSAVE : Nat
  CMD_PREFLOAD : Nat
  CMD_MENU_FIRST_ITEM : Nat
  CMD_MENU_LAST_ITEM : Nat
  CMD_MENU_PREV_ITEM : Nat
  CMD_MENU_NEXT_ITEM : Nat
  CMD_MENU_PREV_SETTING : Nat
  CMD_MENU_NEXT_SETTING : Nat
  CMD_MUTE : Nat
  CMD_SAY_LINE : Nat
  CMD_PASTE : Nat
  CR_ROUTE : Nat
  CR_CUTBEGIN : Nat
  CR_CUTAPPEND : Nat
  CR_CUTRECT : Nat
  CR_CUTLINE : Nat
  CR_SWITCHVT : Nat
  CR_PRINDENT : Nat
  CR_NXINDENT : Nat
  CR_DESCCHAR : Nat
  CR_SETLEFT : Nat
  CR_SETMARK : Nat
  CR_GOTOMARK : Nat
  VAL_PASSKEY : Nat
  VPK_RETURN : Nat
  VPK_CURSOR_UP : Nat
  VPK_CURSOR_DOWN : Nat
  VPK_FUNCTION : Nat
  VAL_PASSDOTS : Nat
  VPC_CONTROL : Nat
  VPC_META : Nat
  B1 : Nat
  B2 : Nat
  B3 : Nat
  B4 : Nat
  B5 : Nat
  B6 : Nat
  B7 : Nat
  B8 : Nat
deriving DecidableEq, Repr

/-- The command contexts of `Programs/brl.h`; the driver tells `CMDS_PREFS`
from the rest. -/
inductive DriverCommandContext where
  | CMDS_SCREEN
  | CMDS_HELP
  | CMDS_STATUS
  | CMDS_PREFS
  | CMDS_MESSAGE
deriving DecidableEq, Repr

/-- A `switch` over constant case labels: the body of the matching label, or
`none` for `default: break`. -/
def switchOn {α β : Type} [BEq α] (x : α) (cases : List (α × β)) : Option β :=
  cases.lookup x

/-- The expression `a & ~b` on `unsigned long`, with `b` already converted.
Where `b` is an `int` expression the source complements it as an `int` and the
result is then sign-extended: that is the 64-bit complement of the converted
`b`. -/
def andNot (a b : Nat) : Nat := a &&& (0xFFFFFFFFFFFFFFFF ^^^ b)

/-! ## State entry and transmission -/

def setState (state : BrailleDisplayState) (s : Driver) : Driver :=
  if state = s.currentState then
    { s with retryCount := s.retryCount + 1, stateTimer := 0 }
  else
    { s with retryCount := 0, currentState := state, stateTimer := 0 }

/-- The function `writeBytes`: `wr n` is the outcome of the `n`-th write
attempted on the line (whether `safe_write` returned the full length). -/
def writeBytes (wr : Nat → Bool) (data : List Nat) (s : Driver) : Bool × Driver :=
  let ok := wr s.log.length
  (ok, { s with log := s.log ++ [⟨data, ok⟩] })

/-- The buffer `updateBrailleCells` assembles: start bytes, status cells,
main cells, end bytes. -/
def frameOf (s : Driver) : List Nat :=
  s.model.brailleStart ++ s.rawStatus.take s.model.statusCells
    ++ s.rawData.take s.model.columns ++ s.model.brailleEnd

def updateBrailleCells (wr : Nat → Bool) (s : Driver) : Bool × Driver :=
  if s.updateRequired && s.currentState == BDS_READY then
    match writeBytes wr (frameOf s) s with
    | (false, s1) => (false, setState BDS_OFF s1)
    | (true, s1) => (true, { setState BDS_WRITING s1 with updateRequired := false })
  else (true, s)

/-- The loop `for (i=0; i<n; ++i) raw[i] = TransTable[(prev[i] = src[i])]`:
the new `prev` array. -/
def storeCells (n : Nat) (src prev : List Nat) : List Nat :=
  src.take n ++ prev.drop n

/-- The same loop: the new `raw` array. -/
def translateCells (n : Nat) (src raw : List Nat) : List Nat :=
  (src.take n).map trans ++ raw.drop n

/-- The test `memcmp(a, b, n) != 0`. -/
def cellsDiffer (n : Nat) (a b : List Nat) : Bool :=
  a.take n != b.take n

/-- The `if (memcmp(brl->buffer, prevData, model->columns) != 0)` block of
`brl_writeWindow`. -/
def markWindow (brl : BrailleDisplay) (s : Driver) : Driver :=
  if cellsDiffer s.model.columns brl.buffer s.prevData then
    { s with
      prevData := storeCells s.model.columns brl.buffer s.prevData
      rawData := translateCells s.model.columns brl.buffer s.rawData
      updateRequired := true }
  else s

def brl_writeWindow (wr : Nat → Bool) (brl : BrailleDisplay) (s : Driver) : Driver :=
  (updateBrailleCells wr (markWindow brl s)).2

def brl_writeStatus (st : List Nat) (s : Driver) : Driver :=
  if cellsDiffer s.model.statusCells st s.prevStatus then
    { s with
      prevStatus := storeCells s.model.statusCells st s.prevStatus
      rawStatus := translateCells s.model.statusCells st s.rawStatus
      updateRequired := true }
  else s

/-! ## Keyset interpreters -/

/-- Routing-column cases of `interpretModularKeys`: front mask and the command
family applied at the column. -/
def modularRoutingCases (K : Commands) : List (Nat × Nat) :=
  [ (0, K.CR_ROUTE),
    (KEY_B1, K.CR_SETLEFT),
    (KEY_B2, K.CR_DESCCHAR),
    (KEY_B3, K.CR_CUTAPPEND),
    (KEY_B4, K.CR_CUTBEGIN),
    (KEY_UP, K.CR_PRINDENT),
    (KEY_DOWN, K.CR_NXINDENT),
    (KEY_B5, K.CR_CUTRECT),
    (KEY_B6, K.CR_CUTLINE),
    (KEY_B7, K.CR_SETMARK),
    (KEY_B8, K.CR_GOTOMARK) ]

/-- Status-index cases of `interpretModularKeys`. -/
def modularStatusCases (K : Commands) : List (Int × Nat) :=
  [ (0, K.CMD_HELP),
    (1, K.CMD_PREFMENU),
    (2, K.CMD_INFO),
    (3, K.CMD_FREEZE) ]

/-- The last `switch` of `interpretModularKeys`: front-only chords. -/
def modularFrontCases (K : Commands) : List (Nat × Nat) :=
  [ (KEY_UP, K.CMD_FWINLT),
    (KEY_DOWN, K.CMD_FWINRT),
    (KEY_B1, K.CMD_HOME),
    (KEY_B1 ||| KEY_UP, K.CMD_LNBEG),
    (KEY_B1 ||| KEY_DOWN, K.CMD_LNEND),
    (KEY_B2, K.CMD_TOP_LEFT),
    (KEY_B2 ||| KEY_UP, K.CMD_TOP),
    (KEY_B2 ||| KEY_DOWN, K.CMD_BOT),
    (KEY_B3, K.CMD_BACK),
    (KEY_B3 ||| KEY_UP, K.CMD_HWINLT),
    (KEY_B3 ||| KEY_DOWN, K.CMD_HWINRT),
    (KEY_B6 ||| KEY_UP, K.CMD_CHRLT),
    (KEY_B6 ||| KEY_DOWN, K.CMD_CHRRT),
    (KEY_B4, K.CMD_LNUP),
    (KEY_B5, K.CMD_LNDN),
    (KEY_B1 ||| KEY_B4, K.CMD_PRPGRPH),
    (KEY_B1 ||| KEY_B5, K.CMD_NXPGRPH),
    (KEY_B2 ||| KEY_B4, K.CMD_PRPROMPT),
    (KEY_B2 ||| KEY_B5, K.CMD_NXPROMPT),
    (KEY_B3 ||| KEY_B4, K.CMD_PRSEARCH),
    (KEY_B3 ||| KEY_B5, K.CMD_NXSEARCH),
    (KEY_B6 ||| KEY_B4, K.CMD_ATTRUP),
    (KEY_B6 ||| KEY_B5, K.CMD_ATTRDN),
    (KEY_B7 ||| KEY_B4, K.CMD_WINUP),
    (KEY_B7 ||| KEY_B5, K.CMD_WINDN),
    (KEY_B8 ||| KEY_B4, K.CMD_PRDIFLN),
    (KEY_B8 ||| KEY_B5, K.CMD_NXDIFLN),
    (KEY_B8, K.CMD_HELP),
    (KEY_B8 ||| KEY_B1, K.CMD_CSRTRK),
    (KEY_B8 ||| KEY_B2, K.CMD_CSRVIS),
    (KEY_B8 ||| KEY_B3, K.CMD_ATTRVIS),
    (KEY_B8 ||| KEY_B6, K.CMD_SIXDOTS),
    (KEY_B8 ||| KEY_B7, K.CMD_TUNES),
    (KEY_B7, K.CMD_FREEZE),
    (KEY_B7 ||| KEY_B1, K.CMD_PREFMENU),
    (KEY_B7 ||| KEY_B2, K.CMD_PREFLOAD),
    (KEY_B7 ||| KEY_B3, K.CMD_PREFSAVE),
    (KEY_B7 ||| KEY_B6, K.CMD_INFO),
    (KEY_B6, K.CMD_DISPMD),
    (KEY_B6 ||| KEY_B1, K.CMD_SKPIDLNS),
    (KEY_B6 ||| KEY_B2, K.CMD_SKPBLNKWINS),
    (KEY_B6 ||| KEY_B3, K.CMD_SLIDEWIN),
    (KEY_B2 ||| KEY_B3 ||| KEY_UP, K.CMD_MUTE),
    (KEY_B2 ||| KEY_B3 ||| KEY_DOWN, K.CMD_SAY_LINE),
    (KEY_UP ||| KEY_DOWN, K.CMD_PASTE) ]

/-- The mask `dots` of `interpretModularKeys`. -/
def modularDots : Nat :=
  KEY_B1 ||| KEY_B2 ||| KEY_B3 ||| KEY_B4 ||| KEY_B5 ||| KEY_B6 ||| KEY_B7 ||| KEY_B8

/-- The statement `if (front & key) *command |= dot`. -/
def orIf (front key dot command : Nat) : Nat :=
  if front &&& key ≠ 0 then command ||| dot else command

/-- The block `if (keys->front & dots) ...` of `interpretModularKeys`: the
pass-dots command when it returns 1, `none` when control leaves the block. -/
def modularPassDots (K : Commands) (front : Nat) : Option Nat :=
  if front &&& modularDots ≠ 0 then
    let modifiers := andNot front modularDots
    let command := K.VAL_PASSDOTS
    let command := orIf front KEY_B1 K.B7 command
    let command := orIf front KEY_B2 K.B3 command
    let command := orIf front KEY_B3 K.B2 command
    let command := orIf front KEY_B4 K.B1 command
    let command := orIf front KEY_B5 K.B4 command
    let command := orIf front KEY_B6 K.B5 command
    let command := orIf front KEY_B7 K.B6 command
    let command := orIf front KEY_B8 K.B8 command
    let command := if modifiers &&& KEY_UP ≠ 0 then command ||| K.VPC_CONTROL else command
    let modifiers := if modifiers &&& KEY_UP ≠ 0 then andNot modifiers KEY_UP else modifiers
    let command := if modifiers &&& KEY_DOWN ≠ 0 then command ||| K.VPC_META else command
    let modifiers := if modifiers &&& KEY_DOWN ≠ 0 then andNot modifiers KEY_DOWN else modifiers
    if modifiers = 0 then some command else none
  else none

/-- The block `if (inputMode) ...` of `interpretModularKeys`. -/
def modularInputCases (K : Commands) (front : Nat) : Option Nat :=
  match modularPassDots K front with
  | some command => some command
  | none =>
    switchOn front
      [ (KEY_UP, K.VAL_PASSDOTS),
        (KEY_DOWN, K.VAL_PASSKEY + K.VPK_RETURN) ]

/-- The function `interpretModularKeys`: the command (if it returns 1) and the
value of `inputMode` afterwards. -/
def interpretModularKeys (K : Commands) (keys : Keys) (inputMode : Nat) :
    Option Int × Nat :=
  if keys.column ≥ 0 then
    match switchOn keys.front (modularRoutingCases K) with
    | some base => (some (base + keys.column), inputMode)
    | none => (none, inputMode)
  else if keys.status ≥ 0 then
    match switchOn keys.status (modularStatusCases K) with
    | some command => (some command, inputMode)
    | none => (none, inputMode)
  else if keys.front = (KEY_B1 ||| KEY_B8 ||| KEY_UP) then (some EOF, 0)
  else if keys.front = (KEY_B1 ||| KEY_B8 ||| KEY_DOWN) then (some EOF, 1)
  else
    match (if inputMode ≠ 0 then modularInputCases K keys.front else none) with
    | some command => (some command, inputMode)
    | none =>
      match switchOn keys.front (modularFrontCases K) with
      | some command => (some command, inputMode)
      | none => (none, inputMode)

def interpretBrailleWaveKeys (K : Commands) (keys : Keys) (inputMode : Nat) :
    Option Int × Nat :=
  interpretModularKeys K keys inputMode

/-- Routing-column cases of `interpretBrailleStarKeys`. -/
def brailleStarRoutingCases (K : Commands) : List (Nat × Nat) :=
  [ (ROCKER_LEFT_TOP, K.CR_CUTBEGIN),
    (ROCKER_LEFT_MIDDLE, K.VAL_PASSKEY + K.VPK_FUNCTION),
    (ROCKER_LEFT_BOTTOM, K.CR_CUTAPPEND),
    (ROCKER_RIGHT_TOP, K.CR_CUTLINE),
    (ROCKER_RIGHT_MIDDLE, K.CR_SWITCHVT),
    (ROCKER_RIGHT_BOTTOM, K.CR_CUTRECT) ]

/-- Front-only cases of `interpretBrailleStarKeys`. -/
def brailleStarFrontCases (K : Commands) : List (Nat × Nat) :=
  [ (ROCKER_LEFT_TOP, K.VAL_PASSKEY + K.VPK_CURSOR_UP),
    (ROCKER_RIGHT_TOP, K.CMD_LNUP),
    (ROCKER_LEFT_BOTTOM, K.VAL_PASSKEY + K.VPK_CURSOR_DOWN),
    (ROCKER_RIGHT_BOTTOM, K.CMD_LNDN),
    (ROCKER_LEFT_MIDDLE, K.CMD_FWINLT),
    (ROCKER_RIGHT_MIDDLE, K.CMD_FWINRT),
    (ROCKER_LEFT_MIDDLE ||| ROCKER_RIGHT_MIDDLE, K.CMD_HOME),
    (ROCKER_RIGHT_MIDDLE ||| ROCKER_LEFT_TOP, K.CMD_TOP_LEFT),
    (ROCKER_RIGHT_MIDDLE ||| ROCKER_LEFT_BOTTOM, K.CMD_BOT_LEFT),
    (ROCKER_LEFT_MIDDLE ||| ROCKER_RIGHT_TOP, K.CMD_TOP),
    (ROCKER_LEFT_MIDDLE ||| ROCKER_RIGHT_BOTTOM, K.CMD_BOT),
    (ROCKER_LEFT_TOP ||| ROCKER_RIGHT_TOP, K.CMD_PRDIFLN),
    (ROCKER_LEFT_TOP ||| ROCKER_RIGHT_BOTTOM, K.CMD_NXDIFLN),
    (ROCKER_LEFT_BOTTOM ||| ROCKER_RIGHT_TOP, K.CMD_ATTRUP),
    (ROCKER_LEFT_BOTTOM ||| ROCKER_RIGHT_BOTTOM, K.CMD_ATTRDN) ]

/-- The keys `interpretBrailleStarKeys` hands on to the Modular keyset. -/
def brailleStarModularMask : Nat :=
  KEY_B1 ||| KEY_B2 ||| KEY_B3 ||| KEY_B4 ||| KEY_B5 ||| KEY_B6 ||| KEY_B7 ||| KEY_B8
    ||| KEY_SPACE_LEFT ||| KEY_SPACE_RIGHT

/-- The local `modularKeys` of `interpretBrailleStarKeys`: the space keys
replaced by UP and DOWN. -/
def brailleStarModularKeys (keys : Keys) : Keys :=
  let front := keys.front
  let front :=
    if front &&& KEY_SPACE_LEFT ≠ 0 then andNot front KEY_SPACE_LEFT ||| KEY_UP else front
  let front :=
    if front &&& KEY_SPACE_RIGHT ≠ 0 then andNot front KEY_SPACE_RIGHT ||| KEY_DOWN else front
  { keys with front := front }

/-- The three-way `switch` at the head of `interpretBrailleStarKeys`. -/
def brailleStarOwnCases (K : Commands) (keys : Keys) : Option Int :=
  if keys.column ≥ 0 then
    match switchOn keys.front (brailleStarRoutingCases K) with
    | some base => some (base + keys.column)
    | none => none
  else if keys.status ≥ 0 then
    none
  else
    match switchOn keys.front (brailleStarFrontCases K) with
    | some command => some command
    | none => none

def interpretBrailleStarKeys (K : Commands) (keys : Keys) (inputMode : Nat) :
    Option Int × Nat :=
  match brailleStarOwnCases K keys with
  | some command => (some command, inputMode)
  | none =>
    if andNot keys.front brailleStarModularMask = 0 then
      match interpretModularKeys K (brailleStarModularKeys keys) inputMode with
      | (some command, mode) => (some command, mode)
      | (none, mode) => (none, mode)
    else (none, inputMode)

/-- The call `model->interpretKeys(context, keys, command)`: the command, if
the keyset recognises the chord, and the driver with `inputMode` updated.  A
`NULL` pointer (Bookworm) is never called by the driver: its front mask stays
0; the model answers `none` there. -/
def callInterpretKeys (K : Commands) (keys : Keys) (s : Driver) : Option Int × Driver :=
  match s.model.interpretKeys with
  | none => (none, s)
  | some .interpretModularKeys =>
    let r := interpretModularKeys K keys s.inputMode
    (r.1, { s with inputMode := r.2 })
  | some .interpretBrailleWaveKeys =>
    let r := interpretBrailleWaveKeys K keys s.inputMode
    (r.1, { s with inputMode := r.2 })
  | some .interpretBrailleStarKeys =>
    let r := interpretBrailleStarKeys K keys s.inputMode
    (r.1, { s with inputMode := r.2 })

/-! ## Byte interpreters -/

/-- The routing and status branches of `interpretKeyByte` once the index is
stored in `currentKeys`: a release reports `EOF`; a press is resolved by the
keyset, `CMD_NOOP` standing in for an unrecognised combination. -/
def interpretIndexedKey (K : Commands) (release : Bool) (keys : Keys) (s : Driver) :
    Option Int × Driver :=
  if release then (some EOF, s)
  else
    match callInterpretKeys K keys { s with currentKeys := keys } with
    | (some command, s1) => (some command, { s1 with pressedKeys := s1.nullKeys })
    | (none, s1) => (some (K.CMD_NOOP : Int), s1)

/-- The release branch of a front-panel key in `interpretKeyByte`. -/
def releaseFrontKey (K : Commands) (key : Nat) (s : Driver) : Option Int × Driver :=
  if s.pressedKeys.front ≠ 0 then
    match callInterpretKeys K s.pressedKeys
        { s with currentKeys := { s.currentKeys with front := andNot s.currentKeys.front key } } with
    | (some command, s1) => (some command, { s1 with pressedKeys := s1.nullKeys })
    | (none, s1) => (some EOF, { s1 with pressedKeys := s1.nullKeys })
  else
    (some EOF,
      { s with currentKeys := { s.currentKeys with front := andNot s.currentKeys.front key } })

/-- The press branch of a front-panel key in `interpretKeyByte`. -/
def pressFrontKey (K : Commands) (key : Nat) (s : Driver) : Option Int × Driver :=
  (some (K.CMD_NOOP : Int),
    { s with
      currentKeys := { s.currentKeys with front := s.currentKeys.front ||| key }
      pressedKeys := { s.currentKeys with front := s.currentKeys.front ||| key } })

/-- The classification of `interpretKeyByte`, applied to the byte with the
release flag stripped, after `currentKeys.column` and `currentKeys.status`
have been set to -1. -/
def interpretKeyCode (K : Commands) (release : Bool) (byte : Nat) (s : Driver) :
    Option Int × Driver :=
  if byte ≥ KEY_ROUTING ∧ byte < KEY_ROUTING + s.model.columns then
    interpretIndexedKey K release
      { s.currentKeys with column := ((byte - KEY_ROUTING : Nat) : Int) } s
  else if byte ≥ KEY_STATUS ∧ byte < KEY_STATUS + s.model.statusCells then
    interpretIndexedKey K release
      { s.currentKeys with status := ((byte - KEY_STATUS : Nat) : Int) } s
  else if byte < 0x20 then
    if release then releaseFrontKey K (KEY byte) s else pressFrontKey K (KEY byte) s
  else (none, s)

def interpretKeyByte (K : Commands) (_context : DriverCommandContext) (byte : Nat)
    (s : Driver) : Option Int × Driver :=
  interpretKeyCode K (decide (byte &&& KEY_RELEASE ≠ 0))
    (if byte &&& KEY_RELEASE ≠ 0 then byte &&& 0x7F else byte)
    { s with currentKeys := { s.currentKeys with column := -1, status := -1 } }

/-- The `CMDS_PREFS` cases of `interpretBookwormByte`. -/
def bookwormPrefsCases (K : Commands) : List (Nat × Nat) :=
  [ (BWK_BACKWARD, K.CMD_FWINLT),
    (BWK_FORWARD, K.CMD_FWINRT),
    (BWK_ESCAPE, K.CMD_PREFLOAD),
    (BWK_ESCAPE ||| BWK_BACKWARD, K.CMD_MENU_PREV_SETTING),
    (BWK_ESCAPE ||| BWK_FORWARD, K.CMD_MENU_NEXT_SETTING),
    (BWK_ENTER, K.CMD_PREFMENU),
    (BWK_ENTER ||| BWK_BACKWARD, K.CMD_MENU_PREV_ITEM),
    (BWK_ENTER ||| BWK_FORWARD, K.CMD_MENU_NEXT_ITEM),
    (BWK_ESCAPE ||| BWK_ENTER, K.CMD_PREFSAVE),
    (BWK_ESCAPE ||| BWK_ENTER ||| BWK_BACKWARD, K.CMD_MENU_FIRST_ITEM),
    (BWK_ESCAPE ||| BWK_ENTER ||| BWK_FORWARD, K.CMD_MENU_LAST_ITEM),
    (BWK_BACKWARD ||| BWK_FORWARD, K.CMD_NOOP),
    (BWK_BACKWARD ||| BWK_FORWARD ||| BWK_ESCAPE, K.CMD_NOOP),
    (BWK_BACKWARD ||| BWK_FORWARD ||| BWK_ENTER, K.CMD_NOOP) ]

/-- The `default` context cases of `interpretBookwormByte`. -/
def bookwormDefaultCases (K : Commands) : List (Nat × Nat) :=
  [ (BWK_BACKWARD, K.CMD_FWINLT),
    (BWK_FORWARD, K.CMD_FWINRT),
    (BWK_ESCAPE, K.CMD_CSRTRK),
    (BWK_ESCAPE ||| BWK_BACKWARD, K.CMD_BACK),
    (BWK_ESCAPE ||| BWK_FORWARD, K.CMD_DISPMD),
    (BWK_ENTER, K.CR_ROUTE),
    (BWK_ENTER ||| BWK_BACKWARD, K.CMD_LNUP),
    (BWK_ENTER ||| BWK_FORWARD, K.CMD_LNDN),
    (BWK_ESCAPE ||| BWK_ENTER, K.CMD_PREFMENU),
    (BWK_ESCAPE ||| BWK_ENTER ||| BWK_BACKWARD, K.CMD_LNBEG),
    (BWK_ESCAPE ||| BWK_ENTER ||| BWK_FORWARD, K.CMD_LNEND),
    (BWK_BACKWARD ||| BWK_FORWARD, K.CMD_HELP),
    (BWK_BACKWARD ||| BWK_FORWARD ||| BWK_ESCAPE, K.CMD_CSRSIZE),
    (BWK_BACKWARD ||| BWK_FORWARD ||| BWK_ENTER, K.CMD_FREEZE) ]

def interpretBookwormByte (K : Commands) (context : DriverCommandContext) (byte : Nat)
    (s : Driver) : Option Int × Driver :=
  match context with
  | .CMDS_PREFS =>
    match switchOn byte (bookwormPrefsCases K) with
    | some command => (some command, s)
    | none => (none, s)
  | _ =>
    match switchOn byte (bookwormDefaultCases K) with
    | some command => (some command, s)
    | none => (none, s)

/-- The call `model->interpretByte(context, byte, &command)`.  Every model of
the table has a byte interpreter; `none` stands for the `NULL` of the
terminator row. -/
def callInterpretByte (K : Commands) (context : DriverCommandContext) (byte : Nat)
    (s : Driver) : Option Int × Driver :=
  match s.model.interpretByte with
  | none => (none, s)
  | some .interpretKeyByte => interpretKeyByte K context byte s
  | some .interpretBookwormByte => interpretBookwormByte K context byte s

/-! ## Polling -/

/-- One byte delivered by `readByte`, with the answer `awaitData(10)` gives
when it is asked right after that byte: whether more data became readable
within 10 ms. -/
structure Rx where
  byte : Nat
  more : Bool
deriving DecidableEq, Repr

/-- What one call of `brl_readCommand` yields: the command returned (`EOF`
for none), the driver afterwards, and the received bytes it left unread. -/
structure Poll where
  command : Int
  driver : Driver
  unread : List Rx
deriving DecidableEq, Repr

/-- The `case BDS_READY` block, also reached from `BDS_WRITING` by
fall-through: `some` when the byte produced a command and the function
returns, `none` (with the driver after interpretation) when the byte is
unexpected. -/
def readyByte (K : Commands) (wr : Nat → Bool) (context : DriverCommandContext)
    (byte : Nat) (s : Driver) : Option Int × Driver :=
  match callInterpretByte K context byte s with
  | (some command, s1) =>
    (some command, (updateBrailleCells wr { s1 with repeatCounter := repeatDelay }).2)
  | (none, s1) => (none, s1)

/-- The body of the `while (readByte(&byte))` loop for one byte: `some c` when
the function returns `c`, `none` when the loop goes on. -/
def handleByte (K : Commands) (wr : Nat → Bool) (context : DriverCommandContext)
    (r : Rx) (s : Driver) : Option Int × Driver :=
  if r.byte = 0x06 ∧ s.currentState ≠ BDS_OFF ∧ r.more = true then
    (none, setState BDS_OFF s)
  else if r.byte = 0xFE then
    (none, setState BDS_IDENTIFYING s)
  else
    match s.currentState with
    | BDS_OFF => (none, s)
    | BDS_RESETTING => (none, s)
    | BDS_IDENTIFYING =>
      if r.byte = s.model.identifier then
        let s1 := setState BDS_READY s
        (none, { s1 with
                 updateRequired := true
                 currentKeys := s1.nullKeys
                 pressedKeys := s1.nullKeys })
      else (none, s)
    | BDS_WRITING =>
      if r.byte = 0x7D then (none, setState BDS_READY { s with updateRequired := true })
      else if r.byte = 0x7E then (none, setState BDS_READY s)
      else readyByte K wr context r.byte s
    | BDS_READY => readyByte K wr context r.byte s

/-- The `while (readByte(&byte))` loop over the bytes readable during this
call: the command returned from inside the loop, if any, the driver, and the
bytes left unread. -/
def readLoop (K : Commands) (wr : Nat → Bool) (context : DriverCommandContext) :
    List Rx → Driver → Option Int × Driver × List Rx
  | [], s => (none, s, [])
  | r :: rest, s =>
    match handleByte K wr context r s with
    | (some command, s1) => (some command, s1, rest)
    | (none, s1) => readLoop K wr context rest s1

/-- The `if (timeout)` block: recovery by state when no byte was read. -/
def timeoutRecovery (wr : Nat → Bool) (s : Driver) : Driver :=
  match s.currentState with
  | BDS_OFF => s
  | BDS_RESETTING =>
    if s.stateTimer > 3000 then
      if s.retryCount > 3 then setState BDS_OFF s
      else
        match writeBytes wr HandyDescribe s with
        | (true, s1) => setState BDS_RESETTING s1
        | (false, s1) => setState BDS_OFF s1
    else s
  | BDS_IDENTIFYING =>
    if s.stateTimer > 1000 then
      match writeBytes wr HandyDescribe s with
      | (true, s1) => setState BDS_RESETTING s1
      | (false, s1) => setState BDS_OFF s1
    else s
  | BDS_READY => s
  | BDS_WRITING =>
    if s.stateTimer > 1000 then
      if s.retryCount > 3 then
        match writeBytes wr HandyDescribe s with
        | (true, s1) => setState BDS_RESETTING s1
        | (false, s1) => setState BDS_OFF s1
      else { s with updateRequired := true }
    else s

/-- The tail of `brl_readCommand` from `if (!--repeatCounter)` on: the
autorepeat countdown. -/
def autorepeat (K : Commands) (s : Driver) : Int × Driver :=
  if s.repeatCounter - 1 = 0 then
    if s.currentState = BDS_READY ∨ s.currentState = BDS_WRITING then
      if s.currentKeys.front ≠ 0 ∧ s.currentKeys.column < 0 ∧ s.currentKeys.status < 0 then
        match callInterpretKeys K s.currentKeys { s with repeatCounter := repeatInterval } with
        | (some command, s1) => (command, { s1 with pressedKeys := s1.nullKeys })
        | (none, s1) => (EOF, s1)
      else (EOF, { s with repeatCounter := repeatInterval })
    else (EOF, { s with repeatCounter := 1 })
  else (EOF, { s with repeatCounter := s.repeatCounter - 1 })

/-- The part of `brl_readCommand` after the read loop: recovery when
`timeout` is still set, the frame flush, and the autorepeat countdown. -/
def afterLoop (K : Commands) (wr : Nat → Bool) (timeout : Bool) (s : Driver) : Int × Driver :=
  autorepeat K (updateBrailleCells wr (if timeout then timeoutRecovery wr s else s)).2

/-- The function `brl_readCommand`.  `refreshInterval` is the tick the host
adds to the state timer, `rx` the bytes `readByte` can deliver during this
call; `timeout` stays set exactly when no byte was read. -/
def brl_readCommand (K : Commands) (wr : Nat → Bool) (refreshInterval : Nat)
    (context : DriverCommandContext) (rx : List Rx) (s : Driver) : Poll :=
  match readLoop K wr context rx { s with stateTimer := s.stateTimer + refreshInterval } with
  | (some command, s1, rest) => ⟨command, s1, rest⟩
  | (none, s1, rest) =>
    ⟨(afterLoop K wr rx.isEmpty s1).1, (afterLoop K wr rx.isEmpty s1).2, rest⟩

/-! ## Opening the device -/

/-- One pass of the detection loop of `brl_open`: whether
`resetSerialDevice` succeeds, and the bytes the device delivers after the
describe probe of this pass. -/
structure Probe where
  resetOk : Bool
  reply : List Nat
deriving DecidableEq, Repr

/-- What `brl_open` meets outside the driver: whether `openSerialDevice`
succeeds, the passes of the detection loop, and the two `malloc` results
(`none` for `NULL`, otherwise the bytes the fresh block happens to hold). -/
structure OpenEnv where
  deviceOk : Bool
  probes : List Probe
  rawBlock : Option (List Nat)
  prevBlock : Option (List Nat)
deriving DecidableEq, Repr

/-- Modelled from the spec: `readChunk` of `Programs/misc.c`, which
`readBytes` calls, is not part of the driver; the transport contract is a
timed read.  The read of `count` bytes succeeds when that many bytes are
readable and takes them from the front; otherwise it fails. -/
def readBytes (avail : List Nat) (count : Nat) : Option (List Nat) :=
  if count ≤ avail.length then some (avail.take count) else none

/-- The `while (1)` loop of `brl_open` over the scripted passes.
`some (some id, _)`: the loop left by `break` with `modelIdentifier = id`;
`some (none, _)`: `return 0` after a failed reset; `none`: the loop is still
running when the script ends. -/
def detectModel (wr : Nat → Bool) : List Probe → Driver → Option (Option Nat × Driver)
  | [], _ => none
  | p :: rest, s =>
    if !p.resetOk then some (none, s)
    else
      match writeBytes wr HandyDescribe s with
      | (true, s1) =>
        if !p.reply.isEmpty then
          match readBytes p.reply (HandyDescription.length + 1) with
          | some buffer =>
            if buffer.take HandyDescription.length = HandyDescription then
              some (some (buffer.getD HandyDescription.length 0), s1)
            else detectModel wr rest s1
          | none => detectModel wr rest s1
        else detectModel wr rest s1
      | (false, s1) => detectModel wr rest s1

/-- The scan `for (model = Models; model->name && model->identifier !=
modelIdentifier; model++)`: the row at which it stops. -/
def scanModels (modelIdentifier : Nat) : List ModelDescription → ModelDescription
  | [] => endOfTable
  | m :: rest =>
    if m.name.isSome && m.identifier != modelIdentifier then scanModels modelIdentifier rest
    else m

/-- The registry lookup of `brl_open`: the row found, or `none` when the scan
stops at the row without a name (the `goto failure`). -/
def lookupModel (modelIdentifier : Nat) : Option ModelDescription :=
  let m := scanModels modelIdentifier Models
  if m.name.isSome then some m else none

/-- The label `failure:` of `brl_open`: both blocks freed. -/
def openFailure (s : Driver) : Driver :=
  { s with rawData := [], prevData := [] }

/-- The function `brl_open`.  The result is `none` while the detection loop
is still running at the end of the script; otherwise the return value (true
for 1), the driver variables and the display record. -/
def brl_open (wr : Nat → Bool) (env : OpenEnv) (brl : BrailleDisplay) (s : Driver) :
    Option (Bool × Driver × BrailleDisplay) :=
  let s : Driver := { s with rawData := [], prevData := [] }
  if !env.deviceOk then some (false, openFailure s, brl)
  else
    match detectModel wr env.probes s with
    | none => none
    | some (none, s1) => some (false, s1, brl)
    | some (some modelIdentifier, s1) =>
      let s2 : Driver := { s1 with model := scanModels modelIdentifier Models }
      if s2.model.name.isNone then some (false, openFailure s2, brl)
      else
        let brl1 : BrailleDisplay :=
          { brl with helpPage := s2.model.helpPage, x := s2.model.columns, y := BRLROWS }
        match env.rawBlock, env.prevBlock with
        | some raw, some prev =>
          let nullKeys : Keys := ⟨0, -1, -1⟩
          let s3 : Driver :=
            { s2 with
              rawData := List.replicate s2.model.columns 0 ++ raw.drop s2.model.columns
              prevData := prev
              nullKeys := nullKeys
              currentKeys := nullKeys
              pressedKeys := nullKeys
              inputMode := 0
              repeatCounter := repeatDelay
              rawStatus :=
                List.replicate s2.model.statusCells 0 ++ s2.rawStatus.drop s2.model.statusCells
              currentState := BDS_OFF
              stateTimer := 0
              retryCount := 0
              updateRequired := false }
          some (true, setState BDS_READY s3, brl1)
        | _, _ => some (false, openFailure s2, brl1)

/-- The function `brl_close`: the stop bytes are written when the model has
any, and both blocks are freed. -/
def brl_close (wr : Nat → Bool) (s : Driver) : Driver :=
  let s1 := if s.model.stop.length ≠ 0 then (writeBytes wr s.model.stop s).2 else s
  { s1 with rawData := [], prevData := [] }

/-- The driver variables that the key decoder does not own: everything but
`currentKeys`, `pressedKeys` and `inputMode`. -/
def Driver.protocol (s : Driver) :
    ModelDescription × List Nat × List Nat × List Nat × List Nat × Keys × Int
      × BrailleDisplayState × Nat × Nat × Bool × List Tx :=
  (s.model, s.rawData, s.prevData, s.rawStatus, s.prevStatus, s.nullKeys, s.repeatCounter,
    s.currentState, s.stateTimer, s.retryCount, s.updateRequired, s.log)

/-- The two assignments `currentKeys.column = -1; currentKeys.status = -1`
at the head of `interpretKeyByte`. -/
def clearIndices (s : Driver) : Driver :=
  { s with currentKeys := { s.currentKeys with column := -1, status := -1 } }

/-! ## Concrete sessions used to evaluate statements -/

/-- A sample assignment of command codes.  The values are placeholders for
those of `Programs/brl.h`; every general statement below is for all
`Commands`. -/
def Commands.sample : Commands :=
  { CMD_NOOP := 0, CMD_LNUP := 1, CMD_LNDN := 2, CMD_WINUP := 3, CMD_WINDN := 4,
    CMD_PRDIFLN := 5, CMD_NXDIFLN := 6, CMD_ATTRUP := 7, CMD_ATTRDN := 8,
    CMD_TOP := 9, CMD_BOT := 10, CMD_TOP_LEFT := 11, CMD_BOT_LEFT := 12,
    CMD_PRPGRPH := 13, CMD_NXPGRPH := 14, CMD_PRPROMPT := 15, CMD_NXPROMPT := 16,
    CMD_PRSEARCH := 17, CMD_NXSEARCH := 18, CMD_CHRLT := 19, CMD_CHRRT := 20,
    CMD_HWINLT := 21, CMD_HWINRT := 22, CMD_FWINLT := 23, CMD_FWINRT := 24,
    CMD_LNBEG := 25, CMD_LNEND := 26, CMD_HOME := 27, CMD_BACK := 28,
    CMD_FREEZE := 29, CMD_DISPMD := 30, CMD_SIXDOTS := 31, CMD_SLIDEWIN := 32,
    CMD_SKPIDLNS := 33, CMD_SKPBLNKWINS := 34, CMD_CSRVIS := 35, CMD_CSRTRK := 36,
    CMD_CSRSIZE := 37, CMD_ATTRVIS := 38, CMD_TUNES := 39, CMD_HELP := 40,
    CMD_INFO := 41, CMD_PREFMENU := 42, CMD_PREFSAVE := 43, CMD_PREFLOAD := 44,
    CMD_MENU_FIRST_ITEM := 45, CMD_MENU_LAST_ITEM := 46, CMD_MENU_PREV_ITEM := 47,
    CMD_MENU_NEXT_ITEM := 48, CMD_MENU_PREV_SETTING := 49, CMD_MENU_NEXT_SETTING := 50,
    CMD_MUTE := 51, CMD_SAY_LINE := 52, CMD_PASTE := 53,
    CR_ROUTE := 0x100, CR_CUTBEGIN := 0x200, CR_CUTAPPEND := 0x300, CR_CUTRECT := 0x400,
    CR_CUTLINE := 0x500, CR_SWITCHVT := 0x600, CR_PRINDENT := 0x700, CR_NXINDENT := 0x800,
    CR_DESCCHAR := 0x900, CR_SETLEFT := 0xA00, CR_SETMARK := 0xB00, CR_GOTOMARK := 0xC00,
    VAL_PASSKEY := 0xD00, VPK_RETURN := 1, VPK_CURSOR_UP := 2, VPK_CURSOR_DOWN := 3,
    VPK_FUNCTION := 0x80,
    VAL_PASSDOTS := 0xF00, VPC_CONTROL := 0x4000, VPC_META := 0x8000,
    B1 := 0x01, B2 := 0x04, B3 := 0x10, B4 := 0x02, B5 := 0x08, B6 := 0x20,
    B7 := 0x40, B8 := 0x80 }

/-- A line on which every write succeeds. -/
def wrOk : Nat → Bool := fun _ => true

/-- A line on which every write fails. -/
def wrFail : Nat → Bool := fun _ => false

/-- An empty display record, before `brl_open` fills in the geometry. -/
def BrailleDisplay.blank : BrailleDisplay := ⟨0, 0, 0, []⟩

/-- The surroundings of an open in which the device answers the first probe
with `reply` and the fresh block for `prevData` holds `prev`. -/
def OpenEnv.answering (reply prev : List Nat) : OpenEnv :=
  { deviceOk := true
    probes := [⟨true, reply⟩]
    rawBlock := some (List.replicate prev.length 0)
    prevBlock := some prev }

/-- The driver after `brl_open` from the initial variables on a good line,
the device answering `reply`; the initial variables when the open does not
succeed. -/
def openedWith (reply prev : List Nat) : Driver :=
  match brl_open wrOk (OpenEnv.answering reply prev) BrailleDisplay.blank Driver.initial with
  | some (true, s, _) => s
  | _ => Driver.initial

/-- The Modular 20+4 session right after a successful open, `prevData`
holding `prev`. -/
def modular20 (prev : List Nat) : Driver := openedWith [0xFE, 0x80] prev

/-- Polls in a row during which no byte is readable, one per tick. -/
def silentPolls (K : Commands) (wr : Nat → Bool) (context : DriverCommandContext) :
    List Nat → Driver → Driver
  | [], s => s
  | tick :: ticks, s =>
    silentPolls K wr context ticks (brl_readCommand K wr tick context [] s).driver

/-- The contribution of one key to a command word: `value` when `key` is in
the chord `front`, nothing otherwise. -/
def keyFlag (front key value : Nat) : Nat :=
  if front &&& key ≠ 0 then value else 0

/-- The key bytes `bytes` handed to `interpretKeyByte` one after the other. -/
def feedKeyBytes (K : Commands) (context : DriverCommandContext) :
    List Nat → Driver → Driver
  | [], s => s
  | byte :: bytes, s => feedKeyBytes K context bytes (interpretKeyByte K context byte s).2

/-- The display record whose window holds `cells`. -/
def window (cells : List Nat) : BrailleDisplay := { BrailleDisplay.blank with buffer := cells }

/-- Two calls of `brl_writeWindow` in a row with the same window `cells`. -/
def writeTwice (wr : Nat → Bool) (cells : List Nat) (s : Driver) : Driver :=
  brl_writeWindow wr (window cells) (brl_writeWindow wr (window cells) s)

/-! ## Variant for the recovery states -/

/-- Variant of the recovery automaton on a silent line: 0 in `BDS_OFF`, and in
`BDS_RESETTING` and `BDS_IDENTIFYING` an upper bound on the number of polls
with a positive tick that the driver can still spend before `BDS_OFF`. -/
def recoveryRank (s : Driver) : Nat :=
  match s.currentState with
  | BDS_OFF => 0
  | BDS_RESETTING => (4 - s.retryCount) * 3002 + (3001 - s.stateTimer) + 1
  | BDS_IDENTIFYING => 15010 + (1001 - s.stateTimer) + 1
  | BDS_READY => 0
  | BDS_WRITING => 0

/-! ## Dot bits, chords and sessions -/

/-- The number of raised dots of a cell: the bits set among the eight. -/
def raisedDots (cell : Nat) : Nat :=
  ((List.range 8).filter (fun i => cell.testBit i)).length

/-- The byte obtained from `cell` by moving each dot bit: bits 0, 5, 6 and 7
stay, bit 1 goes to 3, bit 2 to 1, bit 3 to 4 and bit 4 to 2. -/
def moveDots (cell : Nat) : Nat :=
  (cell &&& 0xE1) ||| ((cell &&& 0x02) <<< 2) ||| ((cell &&& 0x04) >>> 1)
    ||| ((cell &&& 0x08) <<< 1) ||| ((cell &&& 0x10) >>> 2)

/-- The front mask after the keys `codes` have been pressed one after the
other on top of the mask `front`. -/
def chordMask (codes : List Nat) (front : Nat) : Nat :=
  codes.foldl (fun mask code => mask ||| KEY code) front

/-! ## Sessions -/

/-- One call the host makes on an open session, with what the call meets on
the line: the outcomes of the writes, and for a poll the tick and the bytes
readable during the call. -/
inductive HostCall where
  | readCommand (K : Commands) (wr : Nat → Bool) (refreshInterval : Nat)
      (context : DriverCommandContext) (rx : List Rx)
  | writeWindow (wr : Nat → Bool) (brl : BrailleDisplay)
  | writeStatus (st : List Nat)

/-- The driver after one call of the host. -/
def hostCall : HostCall → Driver → Driver
  | .readCommand K wr refreshInterval context rx, s =>
    (brl_readCommand K wr refreshInterval context rx s).driver
  | .writeWindow wr brl, s => brl_writeWindow wr brl s
  | .writeStatus st, s => brl_writeStatus st s

/-- The driver after the calls `calls`, made one after the other. -/
def runCalls : List HostCall → Driver → Driver
  | [], s => s
  | call :: calls, s => runCalls calls (hostCall call s)

/-- The bounds on the two counters of a session: the retry count is 0 in
`BDS_OFF`, `BDS_READY` and `BDS_WRITING` and at most 4 in `BDS_RESETTING`; the
autorepeat countdown is between 1 and `repeatDelay`. -/
def countersBounded (s : Driver) : Prop :=
  ((s.currentState = BDS_OFF ∨ s.currentState = BDS_READY ∨ s.currentState = BDS_WRITING) →
    s.retryCount = 0) ∧
  (s.currentState = BDS_RESETTING → s.retryCount ≤ 4) ∧
  1 ≤ s.repeatCounter ∧ s.repeatCounter ≤ repeatDelay

end HandyTech

namespace HidTest

/-! # hidtest: the byte specification of `Programs/hidtest.c`

Characters are their codes.  The string handed to `parseBytes` is the list of
its characters before the terminating NUL. -/

/-- The `enum {NEXT, HEX, DOTS, COUNT}` of `parseBytes`. -/
inductive ParseState where
  | NEXT
  | HEX
  | DOTS
  | COUNT
  deriving DecidableEq, Repr

open ParseState

/-- The `iswspace` of the C library in the "C" locale: space, and the
characters from horizontal tab to carriage return. -/
def iswspace (character : Nat) : Bool :=
  character = 0x20 || (0x09 ≤ character && character ≤ 0x0D)

/-- The value `strtol` gives a character as a digit, 36 when it is neither a
decimal digit nor a letter. -/
def digitValue (character : Nat) : Nat :=
  if 0x30 ≤ character ∧ character ≤ 0x39 then character - 0x30
  else if 0x61 ≤ character ∧ character ≤ 0x7A then character - 0x61 + 10
  else if 0x41 ≤ character ∧ character ≤ 0x5A then character - 0x41 + 10
  else 36

/-- `isHexadecimal`: `strtol` in base 16 on the one-character string; `some
digit` is a return of 1 with `*digit` set, `none` a return of 0.  On a single
character `strtol` consumes it exactly when it is a digit of base 16: white
space, a sign or the `0` of a `0x` lead cannot be followed by a digit. -/
def isHexadecimal (character : Nat) : Option Nat :=
  if digitValue character < 0x10 then some (digitValue character) else none

/-- The loop `while (count--)` of `parseBytes`: `count` copies of `byte` go to
the end of `out`, and the loop stops with `false` ("buffer too small") as soon
as `out` fills the `bufferSize` bytes of the buffer. -/
def writeCopies (bufferSize byte : Nat) : Nat → List Nat → Bool × List Nat
  | 0, out => (true, out)
  | count + 1, out =>
    if out.length = bufferSize then (false, out)
    else writeCopies bufferSize byte count (out ++ [byte])

/-- The `switch (state)` of `parseBytes` on one character; `atEnd` is `!*in`
after the character was taken.  `none` is `return 0`; `some (false, ..)` is
`continue` and `some (true, ..)` is `break`, each with the new `state`, `byte`
and `count`. -/
def switchStep (character : Nat) (atEnd : Bool) (state : ParseState) (byte count : Nat) :
    Option (Bool × ParseState × Nat × Nat) :=
  match state with
  | NEXT =>
    if iswspace character then some (false, NEXT, byte, count)
    else if character = 0x5B then some (false, DOTS, byte, count)
    else
      match isHexadecimal character with
      | none => none
      | some digit => some (false, HEX, (digit <<< 4) % 256, count)
  | HEX =>
    match isHexadecimal character with
    | none => none
    | some digit => some (true, NEXT, byte ||| digit, count)
  | DOTS =>
    if character = 0x5D then some (true, NEXT, byte, count)
    else if character < 0x31 ∨ character > 0x38 then none
    else if byte &&& (1 <<< (character - 0x31)) ≠ 0 then none
    else some (false, DOTS, byte ||| (1 <<< (character - 0x31)), count)
  | COUNT =>
    if iswspace character then some (true, COUNT, byte, count)
    else if character < 0x30 ∨ character - 0x30 > 9 then none
    else if character - 0x30 = 0 ∧ count = 0 then none
    else some (atEnd, COUNT, byte, (count * 10 + (character - 0x30)) % 2 ^ 32)

/-- The loop `while (*in)` of `parseBytes` and the check that follows it, on
the characters not yet taken.  The result is the return value and the bytes
stored in the buffer so far.  After a `break`, `0x2A :: rest1` is the test
`*in == '*'` with `in += 1`, and `rest2` is `rest` when no asterisk follows. -/
def parseLoop (bufferSize : Nat) :
    List Nat → ParseState → Nat → Nat → List Nat → Bool × List Nat
  | [], state, _, _, out => (decide (state = NEXT), out)
  | character :: rest, state, byte, count, out =>
    match switchStep character rest.isEmpty state byte count with
    | none => (false, out)
    | some (false, state1, byte1, count1) =>
      parseLoop bufferSize rest state1 byte1 count1 out
    | some (true, state1, byte1, count1) =>
      if state1 = COUNT then
        if count1 = 0 then (false, out)
        else
          match writeCopies bufferSize byte1 count1 out with
          | (false, out1) => (false, out1)
          | (true, out1) => parseLoop bufferSize rest NEXT 0 1 out1
      else
        match rest with
        | 0x2A :: rest1 => parseLoop bufferSize rest1 COUNT byte1 0 out
        | rest2 =>
          match writeCopies bufferSize byte1 count1 out with
          | (false, out1) => (false, out1)
          | (true, out1) => parseLoop bufferSize rest2 state1 0 1 out1

/-- `parseBytes`: the return value (`true` for 1) and the bytes stored in the
buffer; on a return of 1 `*bufferUsed` is the length of that list. -/
def parseBytes (bytes : List Nat) (bufferSize : Nat) : Bool × List Nat :=
  if bytes ≠ [] then parseLoop bufferSize bytes NEXT 0 1 [] else (true, [])

/-! ## The byte tokens of `parseBytesHelp` -/

/-- The hexadecimal digits and their values. -/
def hexDigits : List (Nat × Nat) :=
  [(0x30, 0), (0x31, 1), (0x32, 2), (0x33, 3), (0x34, 4), (0x35, 5), (0x36, 6), (0x37, 7),
   (0x38, 8), (0x39, 9),
   (0x61, 10), (0x62, 11), (0x63, 12), (0x64, 13), (0x65, 14), (0x66, 15),
   (0x41, 10), (0x42, 11), (0x43, 12), (0x44, 13), (0x45, 14), (0x46, 15)]

/-- A byte token: two hexadecimal digits, or dot numbers within brackets. -/
inductive ByteToken where
  | hex (h1 h2 : Nat)
  | dots (ds : List Nat)
  deriving DecidableEq, Repr

/-- The characters of a token. -/
def ByteToken.text : ByteToken → List Nat
  | .hex h1 h2 => [h1, h2]
  | .dots ds => [0x5B] ++ ds ++ [0x5D]

/-- A token is well formed when its hexadecimal digits are hexadecimal digits,
or when its dot numbers are distinct digits from 1 to 8. -/
def ByteToken.valid : ByteToken → Bool
  | .hex h1 h2 => (hexDigits.lookup h1).isSome && (hexDigits.lookup h2).isSome
  | .dots ds => ds.all (fun d => 0x31 ≤ d && d ≤ 0x38) && decide ds.Nodup

/-- The byte a token stands for: `16 * h1 + h2` for the digit values `h1` and
`h2` of a hexadecimal token, the union of `1 << (d - 1)` over the dot numbers
`d` of a dot token. -/
def ByteToken.value : ByteToken → Nat
  | .hex h1 h2 => 16 * ((hexDigits.lookup h1).getD 0) + (hexDigits.lookup h2).getD 0
  | .dots ds => ds.foldl (fun byte d => byte ||| (1 <<< ((d - 0x30) - 1))) 0

/-- The text of a list of tokens, each after its own (possibly empty) run of
separating characters. -/
def renderTokens : List (List Nat × ByteToken) → List Nat
  | [] => []
  | (ws, t) :: items => ws ++ t.text ++ renderTokens items

/-! ## Repeat counts -/

/-- The number a string of decimal digits denotes; `digits` holds the digit
values, most significant first. -/
def decimalValue (digits : List Nat) : Nat :=
  digits.foldl (fun count d => count * 10 + d) 0

/-- A byte token after its separating characters, with the decimal digits of
the count that follows its asterisk, if it has one. -/
structure CountedToken where
  ws : List Nat
  token : ByteToken
  count : Option (List Nat)

/-- A counted token is well formed when its separating characters are white
space, its byte token is well formed, and its count, if any, is a non-empty
string of decimal digits that does not start with 0. -/
def CountedToken.valid (it : CountedToken) : Bool :=
  it.ws.all iswspace && it.token.valid &&
    match it.count with
    | none => true
    | some digits => digits.all (fun d => d ≤ 9) && digits.head?.any (fun d => d ≠ 0)

/-- The number of copies a counted token asks for: its count, 1 without one. -/
def CountedToken.copies (it : CountedToken) : Nat :=
  match it.count with
  | none => 1
  | some digits => decimalValue digits

/-- The characters of a counted token. -/
def CountedToken.text (it : CountedToken) : List Nat :=
  it.ws ++ it.token.text ++
    match it.count with
    | none => []
    | some digits => 0x2A :: digits.map (fun d => 0x30 + d)

/-- The bytes a counted token stands for. -/
def CountedToken.bytes (it : CountedToken) : List Nat :=
  List.replicate it.copies it.token.value

/-- The text of a list of counted tokens. -/
def renderCounted : List CountedToken → List Nat
  | [] => []
  | it :: items => it.text ++ renderCounted items

/-- The bytes a list of counted tokens stands for. -/
def countedBytes : List CountedToken → List Nat
  | [] => []
  | it :: items => it.bytes ++ countedBytes items

/-- Every count is ended by white space before the next token: a token that
follows a count has at least one separating character. -/
def separated : List CountedToken → Bool
  | [] => true
  | [_] => true
  | a :: b :: items => (a.count.isNone || !b.ws.isEmpty) && separated (b :: items)

end HidTest

namespace HandyTech

open BrailleDisplayState

/-! # Theorems -/

/-! ## Transmission lemmas -/

theorem updateBrailleCells_idle (wr : Nat → Bool) (s : Driver)
    (h : ¬(s.updateRequired = true ∧ s.currentState = BDS_READY)) :
    updateBrailleCells wr s = (true, s) := by
  unfold updateBrailleCells
  have : (s.updateRequired && s.currentState == BDS_READY) = false := by
    cases hu : s.updateRequired <;> simp_all
  simp [this]

theorem updateBrailleCells_sent (wr : Nat → Bool) (s : Driver)
    (hu : s.updateRequired = true) (hr : s.currentState = BDS_READY)
    (hw : wr s.log.length = true) :
    updateBrailleCells wr s =
      (true, { s with
        log := s.log ++ [⟨frameOf s, true⟩]
        currentState := BDS_WRITING
        retryCount := 0
        stateTimer := 0
        updateRequired := false }) := by
  simp [updateBrailleCells, writeBytes, setState, hu, hr, hw]

theorem updateBrailleCells_failed (wr : Nat → Bool) (s : Driver)
    (hu : s.updateRequired = true) (hr : s.currentState = BDS_READY)
    (hw : wr s.log.length = false) :
    updateBrailleCells wr s =
      (false, { s with
        log := s.log ++ [⟨frameOf s, false⟩]
        currentState := BDS_OFF
        retryCount := 0
        stateTimer := 0 }) := by
  simp [updateBrailleCells, writeBytes, setState, hu, hr, hw]

/-! ## Cell writes -/

theorem markWindow_log (brl : BrailleDisplay) (s : Driver) :
    (markWindow brl s).log = s.log ∧ (markWindow brl s).currentState = s.currentState := by
  unfold markWindow
  split <;> exact ⟨rfl, rfl⟩

theorem brl_writeWindow_log (wr : Nat → Bool) (brl : BrailleDisplay) (s : Driver) :
    (brl_writeWindow wr brl s).log = s.log ∨
    (∃ tx, (brl_writeWindow wr brl s).log = s.log ++ [tx] ∧
      (brl_writeWindow wr brl s).currentState ≠ BDS_READY) := by
  unfold brl_writeWindow
  have hlog := (markWindow_log brl s).1
  generalize markWindow brl s = s1 at hlog ⊢
  by_cases h : s1.updateRequired = true ∧ s1.currentState = BDS_READY
  · right
    cases hw : wr s1.log.length
    · refine ⟨⟨frameOf s1, false⟩, ?_, ?_⟩
      · rw [updateBrailleCells_failed wr s1 h.1 h.2 hw]; simp [hlog]
      · rw [updateBrailleCells_failed wr s1 h.1 h.2 hw]; simp
    · refine ⟨⟨frameOf s1, true⟩, ?_, ?_⟩
      · rw [updateBrailleCells_sent wr s1 h.1 h.2 hw]; simp [hlog]
      · rw [updateBrailleCells_sent wr s1 h.1 h.2 hw]; simp
  · left
    rw [updateBrailleCells_idle wr s1 h]; exact hlog

theorem brl_writeWindow_not_ready (wr : Nat → Bool) (brl : BrailleDisplay) (s : Driver)
    (h : s.currentState ≠ BDS_READY) :
    (brl_writeWindow wr brl s).log = s.log := by
  unfold brl_writeWindow
  rw [updateBrailleCells_idle]
  · exact (markWindow_log brl s).1
  · rw [(markWindow_log brl s).2]; simp [h]

theorem brl_writeStatus_log (st : List Nat) (s : Driver) :
    (brl_writeStatus st s).log = s.log := by
  unfold brl_writeStatus
  split <;> rfl

/-- C8: two calls of `brl_writeWindow` with the same window, made one after
the other from any driver state and on any line, add at most one write to the
serial line; two calls of `brl_writeStatus` add none. -/
theorem cell_writes_idempotent (wr : Nat → Bool) (brl : BrailleDisplay) (st : List Nat)
    (s : Driver) :
    (∃ extra, (brl_writeWindow wr brl (brl_writeWindow wr brl s)).log = s.log ++ extra
        ∧ extra.length ≤ 1) ∧
    (brl_writeStatus st (brl_writeStatus st s)).log = s.log := by
  constructor
  · rcases brl_writeWindow_log wr brl s with h1 | ⟨tx, h1, hne⟩
    · rcases brl_writeWindow_log wr brl (brl_writeWindow wr brl s) with h2 | ⟨tx, h2, _⟩
      · exact ⟨[], by simp [h2, h1], by simp⟩
      · exact ⟨[tx], by simp [h2, h1], by simp⟩
    · exact ⟨[tx], by rw [brl_writeWindow_not_ready wr brl _ hne, h1], by simp⟩
  · rw [brl_writeStatus_log, brl_writeStatus_log]

theorem updateBrailleCells_cells (wr : Nat → Bool) (s : Driver) :
    (updateBrailleCells wr s).2.prevData = s.prevData ∧
    (updateBrailleCells wr s).2.rawData = s.rawData ∧
    (updateBrailleCells wr s).2.prevStatus = s.prevStatus ∧
    (updateBrailleCells wr s).2.rawStatus = s.rawStatus ∧
    (updateBrailleCells wr s).2.model = s.model := by
  by_cases h : s.updateRequired = true ∧ s.currentState = BDS_READY
  · cases hw : wr s.log.length
    · rw [updateBrailleCells_failed wr s h.1 h.2 hw]; simp
    · rw [updateBrailleCells_sent wr s h.1 h.2 hw]; simp
  · rw [updateBrailleCells_idle wr s h]; simp

/-- C9 (as amended): when the window equals the stored previous main image,
`brl_writeWindow` leaves all four cell buffers unchanged; it transmits nothing
and changes no driver variable unless the dirty flag was already set while the
state was `BDS_READY`, and in that case it writes the pending frame once and
moves to `BDS_WRITING` with the flag cleared (to `BDS_OFF`, the flag still
set, when the write fails). -/
theorem writeWindow_same_content (wr : Nat → Bool) (brl : BrailleDisplay) (s : Driver)
    (h : cellsDiffer s.model.columns brl.buffer s.prevData = false) :
    (brl_writeWindow wr brl s).prevData = s.prevData ∧
    (brl_writeWindow wr brl s).rawData = s.rawData ∧
    (brl_writeWindow wr brl s).prevStatus = s.prevStatus ∧
    (brl_writeWindow wr brl s).rawStatus = s.rawStatus ∧
    (¬(s.updateRequired = true ∧ s.currentState = BDS_READY) →
      brl_writeWindow wr brl s = s) ∧
    (s.updateRequired = true ∧ s.currentState = BDS_READY →
      (brl_writeWindow wr brl s).log = s.log ++ [⟨frameOf s, wr s.log.length⟩] ∧
      (brl_writeWindow wr brl s).currentState =
        (if wr s.log.length = true then BDS_WRITING else BDS_OFF) ∧
      (brl_writeWindow wr brl s).updateRequired = !(wr s.log.length)) := by
  have hm : markWindow brl s = s := by simp [markWindow, h]
  unfold brl_writeWindow
  rw [hm]
  have hc := updateBrailleCells_cells wr s
  refine ⟨hc.1, hc.2.1, hc.2.2.1, hc.2.2.2.1, ?_, ?_⟩
  · intro hn
    rw [updateBrailleCells_idle wr s hn]
  · intro hd
    cases hw : wr s.log.length
    · rw [updateBrailleCells_failed wr s hd.1 hd.2 hw]; simp [hd.1]
    · rw [updateBrailleCells_sent wr s hd.1 hd.2 hw]; simp

theorem writeWindow_same_content_witness :
    cellsDiffer (modular20 (List.replicate 20 0)).model.columns
        (window (List.replicate 20 0)).buffer (modular20 (List.replicate 20 0)).prevData = false ∧
    brl_writeWindow wrOk (window (List.replicate 20 0)) (modular20 (List.replicate 20 0))
      = modular20 (List.replicate 20 0) :=
  ⟨by decide,
   (writeWindow_same_content wrOk (window (List.replicate 20 0))
      (modular20 (List.replicate 20 0)) (by decide)).2.2.2.2.1 (by decide)⟩

/-- C10: when the window differs from the stored previous main image within
the model's columns, then after `brl_writeWindow` the previous image holds the
window, every native main byte is the translation of the window byte, and
either the dirty flag is set or the state was `BDS_READY` and the call wrote
one frame made of the start bytes, the status cells, those native bytes and
the end bytes. -/
theorem writeWindow_changed_content (wr : Nat → Bool) (brl : BrailleDisplay) (s : Driver)
    (hlen : s.model.columns ≤ brl.buffer.length)
    (h : cellsDiffer s.model.columns brl.buffer s.prevData = true) :
    (brl_writeWindow wr brl s).prevData.take s.model.columns
        = brl.buffer.take s.model.columns ∧
    (∀ i, i < s.model.columns →
      (brl_writeWindow wr brl s).rawData.getD i 0 = trans (brl.buffer.getD i 0)) ∧
    ((brl_writeWindow wr brl s).updateRequired = true ∨
      (s.currentState = BDS_READY ∧
        (brl_writeWindow wr brl s).log =
          s.log ++ [⟨s.model.brailleStart ++ s.rawStatus.take s.model.statusCells
              ++ (brl.buffer.take s.model.columns).map trans ++ s.model.brailleEnd, true⟩])) := by
  have hm : markWindow brl s =
      { s with
        prevData := storeCells s.model.columns brl.buffer s.prevData
        rawData := translateCells s.model.columns brl.buffer s.rawData
        updateRequired := true } := by simp [markWindow, h]
  have hc := updateBrailleCells_cells wr (markWindow brl s)
  have htake : (brl.buffer.take s.model.columns).length = s.model.columns := by
    simp [List.length_take, hlen]
  unfold brl_writeWindow
  refine ⟨?_, ?_, ?_⟩
  · rw [hc.1, hm]
    simp [storeCells, List.take_append_eq_append_take, htake]
  · intro i hi
    rw [hc.2.1, hm]
    have hi2 : i < brl.buffer.length := lt_of_lt_of_le hi hlen
    simp [translateCells, List.getD_eq_getElem?_getD, List.getElem?_append_left, htake, hi,
      List.getElem?_take, hi2]
  · by_cases hr : s.currentState = BDS_READY
    · cases hw : wr s.log.length
      · left
        rw [updateBrailleCells_failed wr (markWindow brl s)] <;> simp [hm, hr, hw]
      · right
        refine ⟨hr, ?_⟩
        have hraw : (translateCells s.model.columns brl.buffer s.rawData).take s.model.columns
            = (brl.buffer.take s.model.columns).map trans := by
          have hl : ((brl.buffer.take s.model.columns).map trans).length = s.model.columns := by
            simp [hlen]
          unfold translateCells
          rw [List.take_append_eq_append_take, hl, Nat.sub_self, List.take_zero,
            List.append_nil, List.take_of_length_le (le_of_eq hl)]
        rw [updateBrailleCells_sent wr (markWindow brl s)] <;>
          simp [hm, hr, hw, frameOf, hraw]
    · left
      rw [updateBrailleCells_idle wr (markWindow brl s)] <;> simp [hm, hr]

theorem writeWindow_changed_content_witness :
    (modular20 (List.replicate 20 0xFF)).model.columns
        ≤ (window (List.replicate 20 0)).buffer.length ∧
    ((brl_writeWindow wrOk (window (List.replicate 20 0))
        (modular20 (List.replicate 20 0xFF))).updateRequired = true ∨
      ((modular20 (List.replicate 20 0xFF)).currentState = BDS_READY ∧
        (brl_writeWindow wrOk (window (List.replicate 20 0))
            (modular20 (List.replicate 20 0xFF))).log =
          (modular20 (List.replicate 20 0xFF)).log ++
            [⟨(modular20 (List.replicate 20 0xFF)).model.brailleStart
              ++ (modular20 (List.replicate 20 0xFF)).rawStatus.take
                  (modular20 (List.replicate 20 0xFF)).model.statusCells
              ++ ((window (List.replicate 20 0)).buffer.take
                  (modular20 (List.replicate 20 0xFF)).model.columns).map trans
              ++ (modular20 (List.replicate 20 0xFF)).model.brailleEnd, true⟩])) :=
  ⟨by decide,
   (writeWindow_changed_content wrOk (window (List.replicate 20 0))
      (modular20 (List.replicate 20 0xFF)) (by decide) (by decide)).2.2⟩

/-- C9 (as stated) fails: on the Modular 20+4 session right after open, with a
status write pending, a window equal to the previous main image makes
`brl_writeWindow` write a frame and leave `BDS_READY`. -/
theorem writeWindow_same_content_flushes :
    cellsDiffer (brl_writeStatus [1, 0, 0, 0] (modular20 (List.replicate 20 0))).model.columns
        (List.replicate 20 0)
        (brl_writeStatus [1, 0, 0, 0] (modular20 (List.replicate 20 0))).prevData = false ∧
    (brl_writeStatus [1, 0, 0, 0] (modular20 (List.replicate 20 0))).currentState = BDS_READY ∧
    (brl_writeWindow wrOk (window (List.replicate 20 0))
        (brl_writeStatus [1, 0, 0, 0] (modular20 (List.replicate 20 0)))).currentState
      = BDS_WRITING ∧
    (brl_writeWindow wrOk (window (List.replicate 20 0))
        (brl_writeStatus [1, 0, 0, 0] (modular20 (List.replicate 20 0)))).log
      = (brl_writeStatus [1, 0, 0, 0] (modular20 (List.replicate 20 0))).log
          ++ [⟨1 :: 1 :: 0 :: 0 :: 0 :: List.replicate 20 0, true⟩] := by
  decide

/-! ## Opening -/

theorem detectModel_answer (wr : Nat → Bool) (id : Nat) (tail : List Nat) (rest : List Probe)
    (s : Driver) (hw : wr s.log.length = true) :
    detectModel wr (⟨true, 0xFE :: id :: tail⟩ :: rest) s =
      some (some id, { s with log := s.log ++ [⟨HandyDescribe, true⟩] }) := by
  simp [detectModel, writeBytes, hw, readBytes, HandyDescription]

theorem scanModels_row (m : ModelDescription) (hm : m ∈ Models) :
    scanModels m.identifier Models = m := by
  simp only [Models, List.mem_cons, List.mem_singleton, List.not_mem_nil, or_false] at hm
  rcases hm with rfl | rfl | rfl | rfl | rfl | rfl | rfl | rfl | rfl
  all_goals rfl

theorem scanModels_unknown (id : Nat)
    (h : id ∉ [0x80, 0x89, 0x88, 0x05, 0x90, 0x72, 0x74, 0x78]) :
    scanModels id Models = endOfTable := by
  simp only [List.mem_cons, List.mem_singleton, List.not_mem_nil, or_false, not_or] at h
  obtain ⟨h1, h2, h3, h4, h5, h6, h7, h8⟩ := h
  simp [scanModels, Models, Ne.symm h1, Ne.symm h2, Ne.symm h3, Ne.symm h4, Ne.symm h5,
    Ne.symm h6, Ne.symm h7, Ne.symm h8, endOfTable]

/-- C4 (as amended): for every named row `m` of the registry, when the device
answers the first describe probe with the header byte 0xFE followed by
`m.identifier`, `brl_open` returns 1 with the state `BDS_READY`, retry count 0,
dirty flag clear, both key slots null, the model set to `m`, and the reported
geometry that of `m`. -/
theorem open_handshake (wr : Nat → Bool) (env : OpenEnv) (brl : BrailleDisplay) (s : Driver)
    (m : ModelDescription) (tail : List Nat) (rest : List Probe) (raw prev : List Nat)
    (hm : m ∈ Models) (hn : m.name.isSome = true)
    (hdev : env.deviceOk = true)
    (hp : env.probes = ⟨true, 0xFE :: m.identifier :: tail⟩ :: rest)
    (hraw : env.rawBlock = some raw) (hprev : env.prevBlock = some prev)
    (hw : wr s.log.length = true) :
    ∃ s1 brl1, brl_open wr env brl s = some (true, s1, brl1) ∧
      s1.currentState = BDS_READY ∧ s1.retryCount = 0 ∧ s1.updateRequired = false ∧
      s1.currentKeys = ⟨0, -1, -1⟩ ∧ s1.pressedKeys = ⟨0, -1, -1⟩ ∧
      s1.model = m ∧ brl1.x = m.columns ∧ brl1.y = 1 ∧
      s1.model.statusCells = m.statusCells ∧ s1.prevData = prev := by
  have hd := detectModel_answer wr m.identifier tail rest
    ({ s with rawData := [], prevData := [] } : Driver) hw
  have hs := scanModels_row m hm
  have hn2 : m.name.isNone = false := by
    cases hx : m.name <;> simp_all
  simp [brl_open, hdev, hp, hd, hs, hn2, hraw, hprev, setState, BRLROWS]
  exact ⟨_, _, ⟨rfl, rfl⟩, rfl, rfl, rfl, rfl, rfl, rfl, rfl, rfl, rfl, rfl⟩

/-- C4 (as stated) fails: with the reply 0xFE, 0xFE, 0x80 to the first probe
the driver takes the second 0xFE as the identifier, and `brl_open` returns 0
for the Modular 20+4. -/
theorem open_double_header_fails :
    (brl_open wrOk (OpenEnv.answering [0xFE, 0xFE, 0x80] (List.replicate 20 0))
        BrailleDisplay.blank Driver.initial).map (fun r => r.1) = some false := by
  decide

theorem open_handshake_witness :
    (⟨some "Modular 20+4", 0x80, 20, 4, 0, some .interpretKeyByte,
        some .interpretModularKeys, HandyBrailleStart, [], []⟩ : ModelDescription) ∈ Models ∧
    ∃ s1 brl1,
      brl_open wrOk (OpenEnv.answering [0xFE, 0x80] (List.replicate 20 0xFF))
        BrailleDisplay.blank Driver.initial = some (true, s1, brl1) ∧
      s1.currentState = BDS_READY ∧ brl1.x = 20 ∧ s1.model.statusCells = 4 :=
  ⟨by decide,
   by
    obtain ⟨s1, brl1, h1, h2, _, _, _, _, h7, h8, _, h10, _⟩ :=
      open_handshake wrOk (OpenEnv.answering [0xFE, 0x80] (List.replicate 20 0xFF))
        BrailleDisplay.blank Driver.initial
        ⟨some "Modular 20+4", 0x80, 20, 4, 0, some .interpretKeyByte,
          some .interpretModularKeys, HandyBrailleStart, [], []⟩
        [] [] (List.replicate 20 0) (List.replicate 20 0xFF)
        (by decide) (by decide) rfl rfl (by decide) rfl rfl
    exact ⟨s1, brl1, h1, h2, h8, h10⟩⟩

/-- C5: the registry lookup finds a row exactly for the identifiers 0x80,
0x89, 0x88, 0x05, 0x90, 0x72, 0x74 and 0x78, the row found carries that
identifier and the geometry 20+4, 40+4, 80+4, 40+0, 8+0, 20+0, 40+0, 80+0
respectively; for every other value (0 included) nothing is found, and an open
in which the device reports that value returns 0 and leaves the protocol state
as it was. -/
theorem registry_lookup (id : Nat) :
    (lookupModel id).map (fun m => (m.identifier, m.columns, m.statusCells)) =
      (if id = 0x80 then some (0x80, 20, 4)
       else if id = 0x89 then some (0x89, 40, 4)
       else if id = 0x88 then some (0x88, 80, 4)
       else if id = 0x05 then some (0x05, 40, 0)
       else if id = 0x90 then some (0x90, 8, 0)
       else if id = 0x72 then some (0x72, 20, 0)
       else if id = 0x74 then some (0x74, 40, 0)
       else if id = 0x78 then some (0x78, 80, 0)
       else none) ∧
    (id ∉ [0x80, 0x89, 0x88, 0x05, 0x90, 0x72, 0x74, 0x78] →
      lookupModel id = none ∧
      ∀ (wr : Nat → Bool) (env : OpenEnv) (brl : BrailleDisplay) (s : Driver)
        (tail : List Nat) (rest : List Probe),
        env.deviceOk = true → env.probes = ⟨true, 0xFE :: id :: tail⟩ :: rest →
        wr s.log.length = true →
        ∃ s1 brl1, brl_open wr env brl s = some (false, s1, brl1) ∧
          s1.currentState = s.currentState) := by
  by_cases h : id ∈ [0x80, 0x89, 0x88, 0x05, 0x90, 0x72, 0x74, 0x78]
  · refine ⟨?_, fun hn => absurd h hn⟩
    simp only [List.mem_cons, List.mem_singleton, List.not_mem_nil, or_false] at h
    rcases h with rfl | rfl | rfl | rfl | rfl | rfl | rfl | rfl <;> rfl
  · have hs := scanModels_unknown id h
    have hl : lookupModel id = none := by
      simp [lookupModel, hs, endOfTable]
    refine ⟨?_, fun _ => ⟨hl, ?_⟩⟩
    · rw [hl]
      simp only [List.mem_cons, List.mem_singleton, List.not_mem_nil, or_false, not_or] at h
      obtain ⟨h1, h2, h3, h4, h5, h6, h7, h8⟩ := h
      simp [h1, h2, h3, h4, h5, h6, h7, h8]
    · intro wr env brl s tail rest hdev hp hw
      have hd := detectModel_answer wr id tail rest
        ({ s with rawData := [], prevData := [] } : Driver) hw
      simp [brl_open, hdev, hp, hd, hs, endOfTable, openFailure]

theorem registry_lookup_witness :
    (0 : Nat) ∉ [0x80, 0x89, 0x88, 0x05, 0x90, 0x72, 0x74, 0x78] ∧
    lookupModel 0 = none ∧
    ∃ s1 brl1,
      brl_open wrOk (OpenEnv.answering [0xFE, 0x00] []) BrailleDisplay.blank Driver.initial
        = some (false, s1, brl1) ∧ s1.currentState = BDS_OFF :=
  ⟨by decide, ((registry_lookup 0).2 (by decide)).1,
   ((registry_lookup 0).2 (by decide)).2 wrOk (OpenEnv.answering [0xFE, 0x00] [])
      BrailleDisplay.blank Driver.initial [] [] rfl rfl rfl⟩

/-! ## Interpreters touch the key variables only -/

theorem callInterpretKeys_protocol (K : Commands) (keys : Keys) (s : Driver) :
    (callInterpretKeys K keys s).2.protocol = s.protocol := by
  unfold callInterpretKeys
  split <;> rfl

theorem interpretIndexedKey_protocol (K : Commands) (release : Bool) (keys : Keys)
    (s : Driver) :
    (interpretIndexedKey K release keys s).2.protocol = s.protocol := by
  unfold interpretIndexedKey
  split
  · rfl
  · have h := callInterpretKeys_protocol K keys ({ s with currentKeys := keys } : Driver)
    split
    · next c s1 heq =>
      rw [heq] at h
      exact h
    · next s1 heq =>
      rw [heq] at h
      exact h

theorem releaseFrontKey_protocol (K : Commands) (key : Nat) (s : Driver) :
    (releaseFrontKey K key s).2.protocol = s.protocol := by
  unfold releaseFrontKey
  split
  · have h := callInterpretKeys_protocol K s.pressedKeys
      ({ s with currentKeys :=
          { s.currentKeys with front := andNot s.currentKeys.front key } } : Driver)
    split
    · next c s1 heq =>
      rw [heq] at h
      exact h
    · next s1 heq =>
      rw [heq] at h
      exact h
  · rfl

theorem interpretKeyCode_protocol (K : Commands) (release : Bool) (byte : Nat) (s : Driver) :
    (interpretKeyCode K release byte s).2.protocol = s.protocol := by
  unfold interpretKeyCode
  split
  · exact interpretIndexedKey_protocol K _ _ _
  · split
    · exact interpretIndexedKey_protocol K _ _ _
    · split
      · split
        · exact releaseFrontKey_protocol K _ _
        · rfl
      · rfl

theorem interpretKeyByte_protocol (K : Commands) (context : DriverCommandContext) (byte : Nat)
    (s : Driver) :
    (interpretKeyByte K context byte s).2.protocol = s.protocol :=
  interpretKeyCode_protocol K _ _ _

theorem interpretBookwormByte_driver (K : Commands) (context : DriverCommandContext)
    (byte : Nat) (s : Driver) :
    (interpretBookwormByte K context byte s).2 = s := by
  unfold interpretBookwormByte
  split <;> split <;> rfl

theorem callInterpretByte_protocol (K : Commands) (context : DriverCommandContext) (byte : Nat)
    (s : Driver) :
    (callInterpretByte K context byte s).2.protocol = s.protocol := by
  unfold callInterpretByte
  split
  · rfl
  · exact interpretKeyByte_protocol K context byte s
  · rw [interpretBookwormByte_driver]

/-! ## One byte, one poll -/

theorem protocol_fields {a b : Driver} (h : a.protocol = b.protocol) :
    a.model = b.model ∧ a.rawData = b.rawData ∧ a.prevData = b.prevData ∧
    a.rawStatus = b.rawStatus ∧ a.prevStatus = b.prevStatus ∧ a.nullKeys = b.nullKeys ∧
    a.repeatCounter = b.repeatCounter ∧ a.currentState = b.currentState ∧
    a.stateTimer = b.stateTimer ∧ a.retryCount = b.retryCount ∧
    a.updateRequired = b.updateRequired ∧ a.log = b.log := by
  simpa [Driver.protocol] using h

theorem updateBrailleCells_off (wr : Nat → Bool) (s : Driver)
    (h : (updateBrailleCells wr s).2.currentState = BDS_OFF) :
    s.currentState = BDS_OFF ∨
      (s.currentState = BDS_READY ∧ s.updateRequired = true ∧ wr s.log.length = false) := by
  by_cases hd : s.updateRequired = true ∧ s.currentState = BDS_READY
  · cases hw : wr s.log.length
    · exact Or.inr ⟨hd.2, hd.1, rfl⟩
    · rw [updateBrailleCells_sent wr s hd.1 hd.2 hw] at h
      simp at h
  · rw [updateBrailleCells_idle wr s hd] at h
    exact Or.inl h

theorem readyByte_off (K : Commands) (wr : Nat → Bool) (context : DriverCommandContext)
    (byte : Nat) (s : Driver)
    (h : (readyByte K wr context byte s).2.currentState = BDS_OFF) :
    s.currentState = BDS_OFF ∨
      (s.currentState = BDS_READY ∧ s.updateRequired = true ∧ wr s.log.length = false) := by
  have hp := callInterpretByte_protocol K context byte s
  unfold readyByte at h
  split at h
  · next c s1 heq =>
    rw [heq] at hp
    obtain ⟨_, _, _, _, _, _, _, hst, _, _, hup, hlog⟩ := protocol_fields hp
    have := updateBrailleCells_off wr _ h
    simp only [] at hst hup hlog this
    rw [hst, hup, hlog] at this
    exact this
  · next s1 heq =>
    rw [heq] at hp
    have hst := (protocol_fields hp).2.2.2.2.2.2.2.1
    simp only [] at hst h
    exact Or.inl (hst ▸ h)

/-- C1 (as amended): in every state but `BDS_OFF`, a 0x06 byte after which more
data is readable within 10 ms is consumed and moves the driver to `BDS_OFF`; a
0x06 byte after which nothing is readable within 10 ms is dispatched like any
other byte, in `BDS_READY` and `BDS_WRITING` by the byte interpreter, and can
leave the driver in `BDS_OFF` only when the state was `BDS_READY` with an
update pending and the write of that frame failed. -/
theorem disconnect_byte (K : Commands) (wr : Nat → Bool) (context : DriverCommandContext)
    (s : Driver) (h : s.currentState ≠ BDS_OFF) :
    handleByte K wr context ⟨0x06, true⟩ s = (none, setState BDS_OFF s) ∧
    (setState BDS_OFF s).currentState = BDS_OFF ∧
    ((s.currentState = BDS_READY ∨ s.currentState = BDS_WRITING) →
      handleByte K wr context ⟨0x06, false⟩ s = readyByte K wr context 0x06 s) ∧
    ((handleByte K wr context ⟨0x06, false⟩ s).2.currentState = BDS_OFF →
      s.currentState = BDS_READY ∧ s.updateRequired = true ∧ wr s.log.length = false) := by
  refine ⟨by simp [handleByte, h], by simp [setState, Ne.symm h], ?_, ?_⟩
  · rintro (hs | hs) <;> simp [handleByte, hs]
  · intro hoff
    cases hs : s.currentState
    · exact absurd hs h
    · simp [handleByte, hs] at hoff
    · simp only [handleByte, hs] at hoff
      simp at hoff
      split at hoff
      · simp [setState, hs] at hoff
      · simp [hs] at hoff
    · have hb : handleByte K wr context ⟨0x06, false⟩ s = readyByte K wr context 0x06 s := by
        simp [handleByte, hs]
      rw [hb] at hoff
      rcases readyByte_off K wr context _ s hoff with h1 | h1
      · exact absurd h1 h
      · exact ⟨rfl, h1.2⟩
    · have hb : handleByte K wr context ⟨0x06, false⟩ s = readyByte K wr context 0x06 s := by
        simp [handleByte, hs]
      rw [hb] at hoff
      rcases readyByte_off K wr context _ s hoff with h1 | h1
      · exact absurd h1 h
      · rw [hs] at h1; exact absurd h1.1 (by decide)

theorem disconnect_byte_witness :
    (modular20 (List.replicate 20 0xFF)).currentState ≠ BDS_OFF ∧
    handleByte Commands.sample wrOk .CMDS_SCREEN ⟨0x06, true⟩ (modular20 (List.replicate 20 0xFF))
      = (none, setState BDS_OFF (modular20 (List.replicate 20 0xFF))) :=
  ⟨by decide,
   (disconnect_byte Commands.sample wrOk .CMDS_SCREEN (modular20 (List.replicate 20 0xFF))
      (by decide)).1⟩

/-- C1 (as stated) fails: on the Modular 20+4 session in `BDS_READY`, a poll
that reads 0x06 with nothing readable in the next 10 ms leaves the state
`BDS_READY` (the byte is a front key press), and a poll that reads 0x06 with a
further byte readable at once ends in `BDS_OFF`. -/
theorem disconnect_inverted :
    (modular20 (List.replicate 20 0xFF)).currentState = BDS_READY ∧
    (brl_readCommand Commands.sample wrOk 40 .CMDS_SCREEN [⟨0x06, false⟩]
        (modular20 (List.replicate 20 0xFF))).driver.currentState = BDS_READY ∧
    (brl_readCommand Commands.sample wrOk 40 .CMDS_SCREEN [⟨0x06, true⟩, ⟨0x01, false⟩]
        (modular20 (List.replicate 20 0xFF))).driver.currentState = BDS_OFF := by
  decide

/-! ## Silent polls -/

theorem autorepeat_fields (K : Commands) (s : Driver) :
    (autorepeat K s).2.currentState = s.currentState ∧
    (autorepeat K s).2.retryCount = s.retryCount ∧
    (autorepeat K s).2.stateTimer = s.stateTimer ∧
    (autorepeat K s).2.updateRequired = s.updateRequired ∧
    (autorepeat K s).2.log = s.log ∧
    (autorepeat K s).2.model = s.model ∧
    (autorepeat K s).2.rawData = s.rawData ∧
    (autorepeat K s).2.prevData = s.prevData ∧
    (autorepeat K s).2.rawStatus = s.rawStatus ∧
    (autorepeat K s).2.prevStatus = s.prevStatus := by
  unfold autorepeat
  split
  · split
    · split
      · have hp := callInterpretKeys_protocol K s.currentKeys
          ({ s with repeatCounter := repeatInterval } : Driver)
        split
        · next c s1 heq =>
          rw [heq] at hp
          obtain ⟨h1, h2, h3, h4, h5, _, _, h8, h9, h10, h11, h12⟩ := protocol_fields hp
          exact ⟨h8, h10, h9, h11, h12, h1, h2, h3, h4, h5⟩
        · next s1 heq =>
          rw [heq] at hp
          obtain ⟨h1, h2, h3, h4, h5, _, _, h8, h9, h10, h11, h12⟩ := protocol_fields hp
          exact ⟨h8, h10, h9, h11, h12, h1, h2, h3, h4, h5⟩
      · simp
    · simp
  · simp

theorem silent_poll_writing (K : Commands) (wr : Nat → Bool) (tick : Nat)
    (context : DriverCommandContext) (s : Driver)
    (hs : s.currentState = BDS_WRITING) (hr : s.retryCount ≤ 3) :
    (brl_readCommand K wr tick context [] s).driver.currentState = BDS_WRITING ∧
    (brl_readCommand K wr tick context [] s).driver.retryCount = s.retryCount ∧
    (brl_readCommand K wr tick context [] s).driver.log = s.log ∧
    (brl_readCommand K wr tick context [] s).driver.stateTimer = s.stateTimer + tick ∧
    (1000 < s.stateTimer + tick →
      (brl_readCommand K wr tick context [] s).driver.updateRequired = true) := by
  have hnr : ¬ s.retryCount > 3 := by omega
  have hrec : ∃ u, timeoutRecovery wr ({ s with stateTimer := s.stateTimer + tick } : Driver)
        = { s with stateTimer := s.stateTimer + tick, updateRequired := u } ∧
        (1000 < s.stateTimer + tick → u = true) := by
    by_cases ht : 1000 < s.stateTimer + tick
    · exact ⟨true, by simp [timeoutRecovery, hs, ht, hnr], fun _ => rfl⟩
    · exact ⟨s.updateRequired, by simp [timeoutRecovery, hs, ht], fun h => absurd h ht⟩
  obtain ⟨u, hu, hut⟩ := hrec
  have hidle : updateBrailleCells wr
      ({ s with stateTimer := s.stateTimer + tick, updateRequired := u } : Driver)
      = (true, { s with stateTimer := s.stateTimer + tick, updateRequired := u }) :=
    updateBrailleCells_idle wr _ (by simp [hs])
  have ha := autorepeat_fields K
    ({ s with stateTimer := s.stateTimer + tick, updateRequired := u } : Driver)
  simp only [brl_readCommand, readLoop, afterLoop, List.isEmpty_nil, if_true, hu, hidle]
  obtain ⟨a1, a2, a3, a4, a5, _⟩ := ha
  refine ⟨a1.trans hs, a2, a5, a3, fun ht => ?_⟩
  rw [a4]
  exact hut ht

/-- C2 (what the code does): from any driver in `BDS_WRITING` with a retry
count of at most 3, however many polls in a row read nothing and whatever the
ticks, the state stays `BDS_WRITING`, the retry count stays as it was and
nothing is written: a timeout in `BDS_WRITING` never re-enters the state, so
the count never passes the bound and `BDS_RESETTING` is never reached. -/
theorem writing_timeouts_never_reset (K : Commands) (wr : Nat → Bool)
    (context : DriverCommandContext) (ticks : List Nat) (s : Driver)
    (hs : s.currentState = BDS_WRITING) (hr : s.retryCount ≤ 3) :
    (silentPolls K wr context ticks s).currentState = BDS_WRITING ∧
    (silentPolls K wr context ticks s).retryCount = s.retryCount ∧
    (silentPolls K wr context ticks s).log = s.log := by
  induction ticks generalizing s with
  | nil => exact ⟨hs, rfl, rfl⟩
  | cons tick ticks ih =>
    obtain ⟨h1, h2, h3, _, _⟩ := silent_poll_writing K wr tick context s hs hr
    have := ih (brl_readCommand K wr tick context [] s).driver h1 (h2 ▸ hr)
    simp only [silentPolls]
    exact ⟨this.1, this.2.1.trans h2, this.2.2.trans h3⟩

theorem writing_timeouts_never_reset_witness :
    (brl_writeWindow wrOk (window (List.replicate 20 0))
        (modular20 (List.replicate 20 0xFF))).currentState = BDS_WRITING ∧
    (brl_writeWindow wrOk (window (List.replicate 20 0))
        (modular20 (List.replicate 20 0xFF))).retryCount = 0 ∧
    (silentPolls Commands.sample wrOk .CMDS_SCREEN [1001, 1001, 1001, 1001, 1001]
      (brl_writeWindow wrOk (window (List.replicate 20 0))
        (modular20 (List.replicate 20 0xFF)))).currentState = BDS_WRITING :=
  ⟨by decide, by decide,
   (writing_timeouts_never_reset Commands.sample wrOk .CMDS_SCREEN
      [1001, 1001, 1001, 1001, 1001]
      (brl_writeWindow wrOk (window (List.replicate 20 0))
        (modular20 (List.replicate 20 0xFF))) (by decide) (by decide)).1⟩

/-- C3 (what the code does): a poll in `BDS_WRITING` that reads nothing with
more than 1000 ms on the state timer and a retry count of at most 3 sets the
dirty flag, but writes nothing and stays in `BDS_WRITING` with the same retry
count: the frame is not transmitted again by that poll. -/
theorem writing_timeout_marks_only (K : Commands) (wr : Nat → Bool) (tick : Nat)
    (context : DriverCommandContext) (s : Driver)
    (hs : s.currentState = BDS_WRITING) (hr : s.retryCount ≤ 3)
    (ht : 1000 < s.stateTimer + tick) :
    (brl_readCommand K wr tick context [] s).driver.updateRequired = true ∧
    (brl_readCommand K wr tick context [] s).driver.log = s.log ∧
    (brl_readCommand K wr tick context [] s).driver.currentState = BDS_WRITING ∧
    (brl_readCommand K wr tick context [] s).driver.retryCount = s.retryCount := by
  obtain ⟨h1, h2, h3, _, h5⟩ := silent_poll_writing K wr tick context s hs hr
  exact ⟨h5 ht, h3, h1, h2⟩

theorem writing_timeout_marks_only_witness :
    1000 < (brl_writeWindow wrOk (window (List.replicate 20 0))
        (modular20 (List.replicate 20 0xFF))).stateTimer + 1001 ∧
    (brl_readCommand Commands.sample wrOk 1001 .CMDS_SCREEN []
      (brl_writeWindow wrOk (window (List.replicate 20 0))
        (modular20 (List.replicate 20 0xFF)))).driver.log =
      (brl_writeWindow wrOk (window (List.replicate 20 0))
        (modular20 (List.replicate 20 0xFF))).log :=
  ⟨by decide,
   (writing_timeout_marks_only Commands.sample wrOk 1001 .CMDS_SCREEN
      (brl_writeWindow wrOk (window (List.replicate 20 0))
        (modular20 (List.replicate 20 0xFF))) (by decide) (by decide) (by decide)).2.1⟩

/-! ## The 20+4 scenario -/

theorem modular20_eq (prev : List Nat) (hprev : prev.length = 20) :
    modular20 prev =
      { model := ⟨some "Modular 20+4", 0x80, 20, 4, 0, some .interpretKeyByte,
          some .interpretModularKeys, HandyBrailleStart, [], []⟩
        rawData := List.replicate 20 0
        prevData := prev
        rawStatus := [0, 0, 0, 0]
        prevStatus := [0, 0, 0, 0]
        currentKeys := ⟨0, -1, -1⟩
        pressedKeys := ⟨0, -1, -1⟩
        nullKeys := ⟨0, -1, -1⟩
        inputMode := 0
        repeatCounter := 10
        currentState := BDS_READY
        stateTimer := 0
        retryCount := 0
        updateRequired := false
        log := [⟨[0xFF], true⟩] } := by
  simp [modular20, openedWith, brl_open, OpenEnv.answering, detectModel, writeBytes, wrOk,
    readBytes, HandyDescription, HandyDescribe, scanModels, Models, setState, Driver.initial,
    BrailleDisplay.blank, hprev, repeatDelay, MAX_STCELLS, BRLROWS]

theorem brl_writeWindow_sent (wr : Nat → Bool) (brl : BrailleDisplay) (s : Driver)
    (hd : cellsDiffer s.model.columns brl.buffer s.prevData = true)
    (hr : s.currentState = BDS_READY) (hw : wr s.log.length = true) :
    brl_writeWindow wr brl s =
      { s with
        prevData := storeCells s.model.columns brl.buffer s.prevData
        rawData := translateCells s.model.columns brl.buffer s.rawData
        updateRequired := false
        log := s.log ++ [⟨s.model.brailleStart ++ s.rawStatus.take s.model.statusCells
            ++ (translateCells s.model.columns brl.buffer s.rawData).take s.model.columns
            ++ s.model.brailleEnd, true⟩]
        currentState := BDS_WRITING
        retryCount := 0
        stateTimer := 0 } := by
  unfold brl_writeWindow
  rw [updateBrailleCells_sent] <;> simp [markWindow, hd, hr, hw, frameOf]

theorem brl_writeWindow_pending (wr : Nat → Bool) (brl : BrailleDisplay) (s : Driver)
    (hd : cellsDiffer s.model.columns brl.buffer s.prevData = true)
    (hr : s.currentState ≠ BDS_READY) :
    brl_writeWindow wr brl s =
      { s with
        prevData := storeCells s.model.columns brl.buffer s.prevData
        rawData := translateCells s.model.columns brl.buffer s.rawData
        updateRequired := true } := by
  unfold brl_writeWindow
  rw [updateBrailleCells_idle] <;> simp [markWindow, hd, hr]

theorem brl_writeWindow_unchanged (wr : Nat → Bool) (brl : BrailleDisplay) (s : Driver)
    (hd : cellsDiffer s.model.columns brl.buffer s.prevData = false)
    (hn : ¬(s.updateRequired = true ∧ s.currentState = BDS_READY)) :
    brl_writeWindow wr brl s = s := by
  unfold brl_writeWindow
  have hm : markWindow brl s = s := by simp [markWindow, hd]
  rw [hm, updateBrailleCells_idle wr s hn]

/-- A poll that reads the acknowledgement 0x7E while a frame is outstanding
and an update is pending writes the pending frame. -/
theorem ack_poll_flushes (K : Commands) (wr : Nat → Bool) (tick : Nat)
    (context : DriverCommandContext) (more : Bool) (s : Driver)
    (hs : s.currentState = BDS_WRITING) (hd : s.updateRequired = true)
    (hw : wr s.log.length = true) :
    (brl_readCommand K wr tick context [⟨0x7E, more⟩] s).driver.log
      = s.log ++ [⟨frameOf s, true⟩] ∧
    (brl_readCommand K wr tick context [⟨0x7E, more⟩] s).driver.currentState = BDS_WRITING := by
  have hb : handleByte K wr context ⟨0x7E, more⟩
      ({ s with stateTimer := s.stateTimer + tick } : Driver)
      = (none, { s with currentState := BDS_READY, retryCount := 0, stateTimer := 0 }) := by
    simp [handleByte, hs, setState]
  have hu := updateBrailleCells_sent wr
    ({ s with currentState := BDS_READY, retryCount := 0, stateTimer := 0 } : Driver) hd rfl hw
  have ha := autorepeat_fields K
    ({ s with
        log := s.log ++ [⟨frameOf s, true⟩]
        currentState := BDS_WRITING
        retryCount := 0
        stateTimer := 0
        updateRequired := false } : Driver)
  have hf : frameOf ({ s with currentState := BDS_READY, retryCount := 0, stateTimer := 0 } : Driver)
      = frameOf s := rfl
  rw [hf] at hu
  simp only [brl_readCommand, readLoop, hb, afterLoop, List.isEmpty_cons, Bool.false_eq_true,
    if_false, hu]
  exact ⟨ha.2.2.2.2.1, ha.1⟩

theorem cells_full (n : Nat) (src old : List Nat) (hs : src.length = n) (ho : old.length = n) :
    storeCells n src old = src ∧ translateCells n src old = src.map trans ∧
    cellsDiffer n src old = (src != old) := by
  have h1 : src.take n = src := List.take_of_length_le (le_of_eq hs)
  have h2 : old.drop n = [] := List.drop_of_length_le (le_of_eq ho)
  have h3 : old.take n = old := List.take_of_length_le (le_of_eq ho)
  simp only [storeCells, translateCells, cellsDiffer, h1, h2, h3, List.append_nil, and_self]

theorem scenario_first (prev b : List Nat) (hprev : prev.length = 20) (hb : b.length = 20)
    (hne : prev ≠ b) :
    brl_writeWindow wrOk (window b) (modular20 prev) =
      { model := ⟨some "Modular 20+4", 0x80, 20, 4, 0, some .interpretKeyByte,
          some .interpretModularKeys, HandyBrailleStart, [], []⟩
        rawData := b.map trans
        prevData := b
        rawStatus := [0, 0, 0, 0]
        prevStatus := [0, 0, 0, 0]
        currentKeys := ⟨0, -1, -1⟩
        pressedKeys := ⟨0, -1, -1⟩
        nullKeys := ⟨0, -1, -1⟩
        inputMode := 0
        repeatCounter := 10
        currentState := BDS_WRITING
        stateTimer := 0
        retryCount := 0
        updateRequired := false
        log := [⟨[0xFF], true⟩, ⟨1 :: 0 :: 0 :: 0 :: 0 :: b.map trans, true⟩] } := by
  rw [modular20_eq prev hprev]
  have hc := cells_full 20 b prev hb hprev
  have hc2 := cells_full 20 b (List.replicate 20 0) hb (by simp)
  have hrep : List.replicate 20 (0 : Nat)
      = [0, 0, 0, 0, 0, 0, 0, 0, 0, 0, 0, 0, 0, 0, 0, 0, 0, 0, 0, 0] := rfl
  rw [hrep] at hc2
  have hlen : (b.map trans).length ≤ 20 := by simp [hb]
  have hd : (b != prev) = true := by
    simp only [bne_iff_ne, ne_eq]
    exact fun h => hne h.symm
  rw [brl_writeWindow_sent]
  · simp [window, BrailleDisplay.blank, hc.1, hc2.2.1, HandyBrailleStart,
      List.take_of_length_le hlen]
  · simp only [window, BrailleDisplay.blank]
    rw [hc.2.2]; exact hd
  · rfl
  · rfl

theorem scenario_twice (prev b : List Nat) (hprev : prev.length = 20) (hb : b.length = 20)
    (hne : prev ≠ b) :
    writeTwice wrOk b (modular20 prev) = brl_writeWindow wrOk (window b) (modular20 prev) := by
  unfold writeTwice
  rw [scenario_first prev b hprev hb hne]
  apply brl_writeWindow_unchanged
  · have hc := cells_full 20 b b hb hb
    simp only [window, BrailleDisplay.blank]
    rw [hc.2.2]; simp
  · simp

/-- C6 (what the code does at the failing input): when the block allocated for
`prevData`, which `brl_open` never initialises, happens to hold the very 20
bytes the host then writes, two calls of `brl_writeWindow` after an open of the
Modular 20+4 send no frame at all: the only write on the line is the describe
probe of the open. -/
theorem stale_block_suppresses_frame (b : List Nat) (hb : b.length = 20) :
    (modular20 b).currentState = BDS_READY ∧
    (modular20 b).log = [⟨[0xFF], true⟩] ∧
    (writeTwice wrOk b (modular20 b)).log = [⟨[0xFF], true⟩] := by
  have hc := cells_full 20 b b hb hb
  have h1 : brl_writeWindow wrOk (window b) (modular20 b) = modular20 b := by
    apply brl_writeWindow_unchanged
    · rw [modular20_eq b hb]
      simp only [window, BrailleDisplay.blank]
      rw [hc.2.2]; simp
    · rw [modular20_eq b hb]; simp
  unfold writeTwice
  rw [h1, h1, modular20_eq b hb]
  simp

theorem stale_block_suppresses_frame_witness :
    (List.replicate 20 0).length = 20 ∧
    (writeTwice wrOk (List.replicate 20 0) (modular20 (List.replicate 20 0))).log
      = [⟨[0xFF], true⟩] :=
  ⟨by decide, (stale_block_suppresses_frame (List.replicate 20 0) (by decide)).2.2⟩

theorem set_cell_changes (b : List Nat) (v : Nat) (hb : b.length = 20)
    (hv : v ≠ b.getD 5 0) : b.set 5 v ≠ b := by
  intro h
  have h5 : (b.set 5 v).getD 5 0 = b.getD 5 0 := by rw [h]
  have hlt : 5 < b.length := by omega
  simp [List.getD_eq_getElem?_getD, List.getElem?_set, hlt] at h5
  exact hv (by simp [List.getD_eq_getElem?_getD, hlt, h5])

/-- C7 (as amended): on the Modular 20+4, after an open and two writes of the
same 20 bytes of which the first was transmitted, a further `brl_writeWindow`
whose window differs at main cell 5 only sends nothing while that frame is
unacknowledged and leaves the update pending; the poll that then reads the
acknowledgement 0x7E sends exactly one new frame of 25 bytes, and its byte 10
is the translation of the new value of cell 5. -/
theorem scenario_changed_cell (K : Commands) (context : DriverCommandContext) (tick : Nat)
    (more : Bool) (prev b : List Nat) (v : Nat)
    (hprev : prev.length = 20) (hb : b.length = 20) (hne : prev ≠ b)
    (hv : v ≠ b.getD 5 0) :
    (writeTwice wrOk b (modular20 prev)).log
      = [⟨[0xFF], true⟩, ⟨1 :: 0 :: 0 :: 0 :: 0 :: b.map trans, true⟩] ∧
    (brl_writeWindow wrOk (window (b.set 5 v)) (writeTwice wrOk b (modular20 prev))).log
      = (writeTwice wrOk b (modular20 prev)).log ∧
    (brl_writeWindow wrOk (window (b.set 5 v))
      (writeTwice wrOk b (modular20 prev))).updateRequired = true ∧
    ∃ frame,
      (brl_readCommand K wrOk tick context [⟨0x7E, more⟩]
        (brl_writeWindow wrOk (window (b.set 5 v))
          (writeTwice wrOk b (modular20 prev)))).driver.log
        = (writeTwice wrOk b (modular20 prev)).log ++ [⟨frame, true⟩] ∧
      frame.length = 25 ∧ frame.getD 10 0 = trans v ∧
      frame = 1 :: 0 :: 0 :: 0 :: 0 :: (b.set 5 v).map trans := by
  have hb2 : (b.set 5 v).length = 20 := by simp [hb]
  have hc := cells_full 20 (b.set 5 v) b hb2 hb
  have hc2 := cells_full 20 (b.set 5 v) (b.map trans) hb2 (by simp [hb])
  have hd : ((b.set 5 v) != b) = true := by
    simp only [bne_iff_ne, ne_eq]
    exact set_cell_changes b v hb hv
  have h3 : brl_writeWindow wrOk (window (b.set 5 v)) (writeTwice wrOk b (modular20 prev)) =
      { model := ⟨some "Modular 20+4", 0x80, 20, 4, 0, some .interpretKeyByte,
          some .interpretModularKeys, HandyBrailleStart, [], []⟩
        rawData := (b.set 5 v).map trans
        prevData := b.set 5 v
        rawStatus := [0, 0, 0, 0]
        prevStatus := [0, 0, 0, 0]
        currentKeys := ⟨0, -1, -1⟩
        pressedKeys := ⟨0, -1, -1⟩
        nullKeys := ⟨0, -1, -1⟩
        inputMode := 0
        repeatCounter := 10
        currentState := BDS_WRITING
        stateTimer := 0
        retryCount := 0
        updateRequired := true
        log := [⟨[0xFF], true⟩, ⟨1 :: 0 :: 0 :: 0 :: 0 :: b.map trans, true⟩] } := by
    rw [scenario_twice prev b hprev hb hne, scenario_first prev b hprev hb hne]
    rw [brl_writeWindow_pending]
    · simp [window, BrailleDisplay.blank, hc.1, hc2.2.1]
    · simp only [window, BrailleDisplay.blank]
      rw [hc.2.2]; exact hd
    · simp
  have h2 : (writeTwice wrOk b (modular20 prev)).log
      = [⟨[0xFF], true⟩, ⟨1 :: 0 :: 0 :: 0 :: 0 :: b.map trans, true⟩] := by
    rw [scenario_twice prev b hprev hb hne, scenario_first prev b hprev hb hne]
  have hlen : ((b.set 5 v).map trans).length ≤ 20 := by simp [hb]
  have hs3 : (brl_writeWindow wrOk (window (b.set 5 v))
      (writeTwice wrOk b (modular20 prev))).currentState = BDS_WRITING := by rw [h3]
  have hd3 : (brl_writeWindow wrOk (window (b.set 5 v))
      (writeTwice wrOk b (modular20 prev))).updateRequired = true := by rw [h3]
  have hl3 : (brl_writeWindow wrOk (window (b.set 5 v))
      (writeTwice wrOk b (modular20 prev))).log = (writeTwice wrOk b (modular20 prev)).log := by
    rw [h3, h2]
  have hf3 : frameOf (brl_writeWindow wrOk (window (b.set 5 v))
      (writeTwice wrOk b (modular20 prev))) = 1 :: 0 :: 0 :: 0 :: 0 :: (b.set 5 v).map trans := by
    rw [h3]
    simp [frameOf, HandyBrailleStart, List.take_of_length_le hlen, hb]
  have ha := (ack_poll_flushes K wrOk tick context more _ hs3 hd3 rfl).1
  rw [hf3, hl3] at ha
  refine ⟨h2, hl3, hd3, 1 :: 0 :: 0 :: 0 :: 0 :: (b.set 5 v).map trans, ha, ?_, ?_, rfl⟩
  · simp [hb]
  · have hlt : 5 < b.length := by omega
    simp [List.getD_eq_getElem?_getD, List.getElem?_set, hlt]

theorem scenario_changed_cell_witness :
    (List.replicate 20 0xFF).length = 20 ∧ (List.replicate 20 0).length = 20 ∧
    List.replicate 20 0xFF ≠ List.replicate 20 0 ∧
    (brl_writeWindow wrOk (window ((List.replicate 20 0).set 5 1))
      (writeTwice wrOk (List.replicate 20 0) (modular20 (List.replicate 20 0xFF)))).updateRequired
      = true :=
  ⟨by decide, by decide, by decide,
   (scenario_changed_cell Commands.sample .CMDS_SCREEN 40 false (List.replicate 20 0xFF)
      (List.replicate 20 0) 1 (by decide) (by decide) (by decide) (by decide)).2.2.1⟩

/-- C7 (as stated) fails: after the open and the two writes of 20 zero bytes,
the frame of the first write is still unacknowledged, and the
`brl_writeWindow` that changes main cell 5 sends no frame: the record of
writes is as before the call and the state is still `BDS_WRITING`. -/
theorem changed_cell_not_sent_at_once :
    (brl_writeWindow wrOk (window ((List.replicate 20 0).set 5 1))
      (writeTwice wrOk (List.replicate 20 0) (modular20 (List.replicate 20 0xFF)))).log
      = (writeTwice wrOk (List.replicate 20 0) (modular20 (List.replicate 20 0xFF))).log ∧
    (brl_writeWindow wrOk (window ((List.replicate 20 0).set 5 1))
      (writeTwice wrOk (List.replicate 20 0)
        (modular20 (List.replicate 20 0xFF)))).currentState = BDS_WRITING := by
  decide

/-! ## Status cells and frame layout -/

/-- C11: `brl_writeStatus` on content that differs from the previous status
image within the model's status cells stores the content as the previous
image, makes every native status byte the translation of the content byte and
sets the dirty flag; on identical content it changes nothing.  Either way it
writes nothing to the line and leaves the main-cell buffers, the protocol
state, the retry count and the state timer as they were. -/
theorem writeStatus_effect (st : List Nat) (s : Driver)
    (hlen : s.model.statusCells ≤ st.length) :
    (cellsDiffer s.model.statusCells st s.prevStatus = true →
      (brl_writeStatus st s).prevStatus.take s.model.statusCells
          = st.take s.model.statusCells ∧
      (∀ j, j < s.model.statusCells →
        (brl_writeStatus st s).rawStatus.getD j 0 = trans (st.getD j 0)) ∧
      (brl_writeStatus st s).updateRequired = true) ∧
    (cellsDiffer s.model.statusCells st s.prevStatus = false → brl_writeStatus st s = s) ∧
    (brl_writeStatus st s).log = s.log ∧
    (brl_writeStatus st s).rawData = s.rawData ∧
    (brl_writeStatus st s).prevData = s.prevData ∧
    (brl_writeStatus st s).currentState = s.currentState ∧
    (brl_writeStatus st s).retryCount = s.retryCount ∧
    (brl_writeStatus st s).stateTimer = s.stateTimer := by
  have htake : (st.take s.model.statusCells).length = s.model.statusCells := by
    simp [List.length_take, hlen]
  refine ⟨?_, ?_, ?_⟩
  · intro h
    have hw : brl_writeStatus st s =
        { s with
          prevStatus := storeCells s.model.statusCells st s.prevStatus
          rawStatus := translateCells s.model.statusCells st s.rawStatus
          updateRequired := true } := by simp [brl_writeStatus, h]
    rw [hw]
    refine ⟨?_, ?_, rfl⟩
    · simp [storeCells, List.take_append_eq_append_take, htake]
    · intro j hj
      have hj2 : j < st.length := lt_of_lt_of_le hj hlen
      simp [translateCells, List.getD_eq_getElem?_getD, List.getElem?_append_left, htake, hj,
        List.getElem?_take, hj2]
  · intro h
    simp [brl_writeStatus, h]
  · unfold brl_writeStatus
    split <;> exact ⟨rfl, rfl, rfl, rfl, rfl, rfl⟩

theorem writeStatus_effect_witness :
    (modular20 (List.replicate 20 0)).model.statusCells ≤ [1, 0, 0, 0].length ∧
    (brl_writeStatus [1, 0, 0, 0] (modular20 (List.replicate 20 0))).log
      = (modular20 (List.replicate 20 0)).log ∧
    (brl_writeStatus [1, 0, 0, 0] (modular20 (List.replicate 20 0))).updateRequired = true :=
  ⟨by decide,
   (writeStatus_effect [1, 0, 0, 0] (modular20 (List.replicate 20 0)) (by decide)).2.2.1,
   ((writeStatus_effect [1, 0, 0, 0] (modular20 (List.replicate 20 0)) (by decide)).1
      (by decide)).2.2⟩

theorem frameOf_length (s : Driver) (hs : s.model.statusCells ≤ s.rawStatus.length)
    (hd : s.model.columns ≤ s.rawData.length) :
    (frameOf s).length
      = s.model.brailleStart.length + s.model.statusCells + s.model.columns
          + s.model.brailleEnd.length := by
  simp [frameOf, List.length_take, hs, hd]
  omega

theorem frameOf_main_cell (s : Driver) (hs : s.model.statusCells ≤ s.rawStatus.length)
    (hd : s.model.columns ≤ s.rawData.length) (i : Nat) (hi : i < s.model.columns) :
    (frameOf s).getD (s.model.brailleStart.length + s.model.statusCells + i) 0
      = s.rawData.getD i 0 := by
  have h1 : (s.model.brailleStart ++ s.rawStatus.take s.model.statusCells).length
      = s.model.brailleStart.length + s.model.statusCells := by
    simp [List.length_take, hs]
  have h2 : (s.rawData.take s.model.columns).length = s.model.columns := by
    simp [List.length_take, hd]
  have hi2 : i < s.rawData.length := lt_of_lt_of_le hi hd
  unfold frameOf
  rw [List.getD_eq_getElem?_getD, List.getD_eq_getElem?_getD, List.append_assoc,
    List.getElem?_append_right (by omega), h1, Nat.add_sub_cancel_left,
    List.getElem?_append_left (by omega), List.getElem?_take_of_lt hi]

/-- C12: whatever `updateBrailleCells` writes is the model's start bytes, then
the first `statusCells` native status bytes, then the first `columns` native
main bytes, then the model's end bytes; its length is the sum of the four
lengths, and native main cell `i` sits at offset start length + `statusCells`
+ `i`.  For the Modular 20+4 that is 25 bytes beginning 0x01, for the
Bookworm 0x01, eight cells, 0x16. -/
theorem frame_layout (wr : Nat → Bool) (s : Driver)
    (hs : s.model.statusCells ≤ s.rawStatus.length)
    (hd : s.model.columns ≤ s.rawData.length) :
    ((updateBrailleCells wr s).2.log = s.log ∨
      (updateBrailleCells wr s).2.log = s.log ++
        [⟨s.model.brailleStart ++ s.rawStatus.take s.model.statusCells
            ++ s.rawData.take s.model.columns ++ s.model.brailleEnd, wr s.log.length⟩]) ∧
    (frameOf s).length
      = s.model.brailleStart.length + s.model.statusCells + s.model.columns
          + s.model.brailleEnd.length ∧
    (∀ i, i < s.model.columns →
      (frameOf s).getD (s.model.brailleStart.length + s.model.statusCells + i) 0
        = s.rawData.getD i 0) ∧
    (s.model = ⟨some "Modular 20+4", 0x80, 20, 4, 0, some .interpretKeyByte,
        some .interpretModularKeys, HandyBrailleStart, [], []⟩ →
      (frameOf s).length = 25 ∧ (frameOf s).head? = some 0x01) ∧
    (s.model = ⟨some "Bookworm", 0x90, 8, 0, 1, some .interpretBookwormByte, none,
        HandyBrailleStart, BookwormBrailleEnd, BookwormStop⟩ →
      frameOf s = 0x01 :: s.rawData.take 8 ++ [0x16]) := by
  refine ⟨?_, frameOf_length s hs hd, frameOf_main_cell s hs hd, ?_, ?_⟩
  · by_cases h : s.updateRequired = true ∧ s.currentState = BDS_READY
    · right
      cases hw : wr s.log.length
      · rw [updateBrailleCells_failed wr s h.1 h.2 hw]; rfl
      · rw [updateBrailleCells_sent wr s h.1 h.2 hw]; rfl
    · left
      rw [updateBrailleCells_idle wr s h]
  · intro hm
    have hl := frameOf_length s hs hd
    rw [hm] at hl
    refine ⟨by simpa [HandyBrailleStart] using hl, ?_⟩
    simp [frameOf, hm, HandyBrailleStart]
  · intro hm
    simp [frameOf, hm, HandyBrailleStart, BookwormBrailleEnd]

theorem frame_layout_witness :
    (modular20 (List.replicate 20 0)).model.statusCells
        ≤ (modular20 (List.replicate 20 0)).rawStatus.length ∧
    (modular20 (List.replicate 20 0)).model.columns
        ≤ (modular20 (List.replicate 20 0)).rawData.length ∧
    (frameOf (modular20 (List.replicate 20 0))).length = 25 :=
  ⟨by decide, by decide,
   ((frame_layout wrOk (modular20 (List.replicate 20 0)) (by decide) (by decide)).2.2.2.1
      (by decide)).1⟩

/-! ## The translation table -/

set_option maxRecDepth 100000 in
theorem trans_lt (a : Nat) (h : a < 256) : trans a < 256 := by
  revert a
  decide

set_option maxRecDepth 100000 in
theorem trans_four (a : Nat) (h : a < 256) : trans (trans (trans (trans a))) = a := by
  revert a
  decide

set_option maxRecDepth 100000 in
theorem transTable_length : TransTable.length = 256 := by
  decide

/-- C13: the translation table has 256 entries and is a permutation of the
byte values: no two bytes translate to the same native byte, and every byte
value is the translation of some byte. -/
theorem transTable_permutation :
    TransTable.length = 256 ∧
    (∀ a b, a < 256 → b < 256 → trans a = trans b → a = b) ∧
    (∀ y, y < 256 → ∃ a, a < 256 ∧ trans a = y) := by
  refine ⟨transTable_length, ?_, ?_⟩
  · intro a b ha hb h
    rw [← trans_four a ha, ← trans_four b hb, h]
  · intro y hy
    refine ⟨trans (trans (trans y)), ?_, trans_four y hy⟩
    exact trans_lt _ (trans_lt _ (trans_lt _ hy))

theorem transTable_permutation_witness :
    (2 : Nat) < 256 ∧ (∃ a, a < 256 ∧ trans a = 2) ∧ (trans 4 = trans 4 → (4 : Nat) = 4) :=
  ⟨by decide, transTable_permutation.2.2 2 (by decide),
   transTable_permutation.2.1 4 4 (by decide) (by decide)⟩

/-! ## Key byte classification -/

set_option maxRecDepth 100000 in
theorem release_flag (b : Nat) (hb : b < 256) :
    (b &&& KEY_RELEASE ≠ 0 ↔ 128 ≤ b) ∧
    (if b &&& KEY_RELEASE ≠ 0 then b &&& 0x7F else b) = b % 128 := by
  revert b
  decide

theorem interpretKeyByte_code (K : Commands) (context : DriverCommandContext) (byte : Nat)
    (s : Driver) (hb : byte < 256) :
    interpretKeyByte K context byte s =
      interpretKeyCode K (decide (128 ≤ byte)) (byte % 128) (clearIndices s) := by
  obtain ⟨h1, h2⟩ := release_flag byte hb
  unfold interpretKeyByte
  rw [h2]
  have : decide (byte &&& KEY_RELEASE ≠ 0) = decide (128 ≤ byte) := by
    simp only [h1]
  rw [this]
  rfl

theorem interpretIndexedKey_handled (K : Commands) (release : Bool) (keys : Keys)
    (s : Driver) : (interpretIndexedKey K release keys s).1 ≠ none := by
  unfold interpretIndexedKey
  split
  · simp
  · split <;> simp

theorem releaseFrontKey_handled (K : Commands) (key : Nat) (s : Driver) :
    (releaseFrontKey K key s).1 ≠ none := by
  unfold releaseFrontKey
  split
  · split <;> simp
  · simp

theorem sign_mask_testBit (j : Nat) :
    (0xFFFFFFFF80000000 : Nat).testBit j = decide (31 ≤ j ∧ j < 64) := by
  have h : (0xFFFFFFFF80000000 : Nat) = (2 ^ 33 - 1) <<< 31 := by decide
  rw [h, Nat.testBit_shiftLeft, Nat.testBit_two_pow_sub_one]
  by_cases h1 : 31 ≤ j
  · by_cases h2 : j < 64
    · have : j - 31 < 33 := by omega
      simp [h1, h2, this]
    · have : ¬ j - 31 < 33 := by omega
      simp [h1, h2, this]
  · simp [h1]

theorem interpretKeyCode_unhandled (K : Commands) (release : Bool) (byte : Nat) (s : Driver)
    (hn : (interpretKeyCode K release byte s).1 = none) :
    interpretKeyCode K release byte s = (none, s) ∧ ¬ byte < 0x20 := by
  unfold interpretKeyCode at hn ⊢
  by_cases hr : byte ≥ KEY_ROUTING ∧ byte < KEY_ROUTING + s.model.columns
  · rw [if_pos hr] at hn
    exact absurd hn (interpretIndexedKey_handled K _ _ _)
  · rw [if_neg hr] at hn ⊢
    by_cases hst : byte ≥ KEY_STATUS ∧ byte < KEY_STATUS + s.model.statusCells
    · rw [if_pos hst] at hn
      exact absurd hn (interpretIndexedKey_handled K _ _ _)
    · rw [if_neg hst] at hn ⊢
      by_cases hf : byte < 0x20
      · rw [if_pos hf] at hn
        exfalso
        revert hn
        split
        · exact releaseFrontKey_handled K _ _
        · simp [pressFrontKey]
      · rw [if_neg hf]
        exact ⟨rfl, hf⟩

/-- C15 (as amended): a byte that `interpretKeyByte` does not handle leaves
the driver as it was except that `currentKeys.column` and
`currentKeys.status` are set to -1: in `BDS_READY`, and in `BDS_WRITING` for a
byte that is no acknowledgement, the byte is discarded with the front mask,
the committed chord, the input mode and every protocol variable unchanged, and
with the driver wholly unchanged when both indices were -1 already. -/
theorem unrecognised_byte_effect (K : Commands) (wr : Nat → Bool)
    (context : DriverCommandContext) (r : Rx) (s : Driver)
    (hm : s.model.interpretByte = some .interpretKeyByte) (hb : r.byte < 256)
    (hn : (interpretKeyByte K context r.byte s).1 = none) (hfe : r.byte ≠ 0xFE)
    (hs : s.currentState = BDS_READY ∨
      (s.currentState = BDS_WRITING ∧ r.byte ≠ 0x7D ∧ r.byte ≠ 0x7E)) :
    handleByte K wr context r s
      = (none, { s with currentKeys := ⟨s.currentKeys.front, -1, -1⟩ }) ∧
    (s.currentKeys.column = -1 → s.currentKeys.status = -1 →
      handleByte K wr context r s = (none, s)) := by
  have hcode := interpretKeyByte_code K context r.byte s hb
  rw [hcode] at hn
  obtain ⟨hu, hf⟩ := interpretKeyCode_unhandled K _ _ _ hn
  have h6 : r.byte ≠ 0x06 := by
    intro h
    rw [h] at hf
    exact hf (by decide)
  have hk : interpretKeyByte K context r.byte s = (none, clearIndices s) := by
    rw [hcode, hu]
  have hrb : readyByte K wr context r.byte s = (none, clearIndices s) := by
    simp [readyByte, callInterpretByte, hm, hk]
  have hh : handleByte K wr context r s = (none, clearIndices s) := by
    rcases hs with hs | ⟨hs, h7d, h7e⟩
    · simp [handleByte, h6, hfe, hs, hrb]
    · simp [handleByte, h6, hfe, hs, hrb, h7d, h7e]
  refine ⟨hh, fun hc hst => ?_⟩
  rw [hh]
  have hk2 : ({ s.currentKeys with column := -1, status := -1 } : Keys) = s.currentKeys := by
    rcases hck : s.currentKeys with ⟨f, c, t⟩
    rw [hck] at hc hst
    simp only at hc hst
    subst hc hst
    rfl
  have : clearIndices s = s := by
    unfold clearIndices
    rw [hk2]
  rw [this]

theorem unrecognised_byte_effect_witness :
    (modular20 (List.replicate 20 0)).model.interpretByte = some .interpretKeyByte ∧
    (interpretKeyByte Commands.sample .CMDS_SCREEN 0x7F (modular20 (List.replicate 20 0))).1
      = none ∧
    handleByte Commands.sample wrOk .CMDS_SCREEN ⟨0x7F, false⟩ (modular20 (List.replicate 20 0))
      = (none, modular20 (List.replicate 20 0)) :=
  ⟨by decide, by decide,
   (unrecognised_byte_effect Commands.sample wrOk .CMDS_SCREEN ⟨0x7F, false⟩
      (modular20 (List.replicate 20 0)) (by decide) (by decide) (by decide) (by decide)
      (Or.inl (by decide))).2 (by decide) (by decide)⟩

/-- C15 (as stated) fails: on the Modular 20+4, after the routing key of
column 2 has been pressed, the byte 0x7F is not handled, yet discarding it
changes the key state: the current column index goes from 2 to -1. -/
theorem unrecognised_byte_clears_column :
    (feedKeyBytes Commands.sample .CMDS_SCREEN [0x22]
      (modular20 (List.replicate 20 0))).currentKeys.column = 2 ∧
    (interpretKeyByte Commands.sample .CMDS_SCREEN 0x7F
      (feedKeyBytes Commands.sample .CMDS_SCREEN [0x22] (modular20 (List.replicate 20 0)))).1
      = none ∧
    (handleByte Commands.sample wrOk .CMDS_SCREEN ⟨0x7F, false⟩
      (feedKeyBytes Commands.sample .CMDS_SCREEN [0x22]
        (modular20 (List.replicate 20 0)))).2.currentKeys.column = -1 ∧
    (handleByte Commands.sample wrOk .CMDS_SCREEN ⟨0x7F, false⟩
      (feedKeyBytes Commands.sample .CMDS_SCREEN [0x22] (modular20 (List.replicate 20 0)))).2
      ≠ feedKeyBytes Commands.sample .CMDS_SCREEN [0x22] (modular20 (List.replicate 20 0)) := by
  decide

/-! ## Chords -/

set_option maxRecDepth 100000 in
theorem front_key_facts (k : Nat) (hk : k < 0x20) :
    KEY k ≠ 0 ∧ andNot (KEY k) (KEY k) = 0 ∧ k ||| 0x80 = k + 128 ∧
    KEY k ≠ (KEY_B1 ||| KEY_B8 ||| KEY_UP) ∧ KEY k ≠ (KEY_B1 ||| KEY_B8 ||| KEY_DOWN) := by
  revert k
  decide

theorem callInterpretKeys_congr (K : Commands) (keys : Keys) (s t : Driver)
    (hm : t.model = s.model) (hi : t.inputMode = s.inputMode) :
    callInterpretKeys K keys t
      = ((callInterpretKeys K keys s).1,
          { t with inputMode := (callInterpretKeys K keys s).2.inputMode }) := by
  cases t
  cases s
  simp only at hm hi
  subst hm hi
  simp only [callInterpretKeys]
  split <;> rfl

theorem modular_single_key (K : Commands) (k : Nat) (hk : k < 0x20) :
    interpretModularKeys K ⟨KEY k, -1, -1⟩ 0
      = ((switchOn (KEY k) (modularFrontCases K)).map (fun c => (c : Int)), 0) := by
  obtain ⟨_, _, _, h1, h2⟩ := front_key_facts k hk
  unfold interpretModularKeys
  simp only [h1, h2, if_false, ne_eq, not_true_eq_false]
  have hc : ¬ ((-1 : Int) ≥ 0) := by decide
  simp only [hc, if_false]
  cases switchOn (KEY k) (modularFrontCases K) <;> rfl

/-- C16: starting with no key held (whatever the committed chord slot holds,
null included), for every front key code `k` below 0x20 the press byte `k`
reports `CMD_NOOP`, and the release byte `k | 0x80`
reports what the model's keyset returns for the chord holding key `k` alone,
or `EOF` when the keyset does not recognise it; both key slots are null again
afterwards.  The chord holding key `k` alone is the one the press byte
commits: front mask `KEY(k)`, no column, no status index.  On the Modular
keyset in normal input mode that result is the entry of the front-chord table
for this mask. -/
theorem single_key_chord (K : Commands) (context : DriverCommandContext) (k : Nat)
    (s : Driver) (hk : k < 0x20)
    (hnull : s.nullKeys = ⟨0, -1, -1⟩) (hc : s.currentKeys = ⟨0, -1, -1⟩) :
    (interpretKeyByte K context k s).1 = some (K.CMD_NOOP : Int) ∧
    (interpretKeyByte K context (k ||| 0x80) (interpretKeyByte K context k s).2).1
      = some ((callInterpretKeys K ⟨KEY k, -1, -1⟩ s).1.getD EOF) ∧
    (interpretKeyByte K context (k ||| 0x80) (interpretKeyByte K context k s).2).2.currentKeys
      = ⟨0, -1, -1⟩ ∧
    (interpretKeyByte K context (k ||| 0x80) (interpretKeyByte K context k s).2).2.pressedKeys
      = ⟨0, -1, -1⟩ ∧
    (s.model.interpretKeys = some .interpretModularKeys → s.inputMode = 0 →
      (callInterpretKeys K ⟨KEY k, -1, -1⟩ s).1
        = (switchOn (KEY k) (modularFrontCases K)).map (fun c => (c : Int))) ∧
    (interpretKeyByte K context k s).2.pressedKeys = ⟨KEY k, -1, -1⟩ := by
  obtain ⟨hne, hclr, hrel, _, _⟩ := front_key_facts k hk
  have hr : ¬(k ≥ KEY_ROUTING ∧ k < KEY_ROUTING + s.model.columns) := by
    simp only [KEY_ROUTING]; omega
  have hst : ¬(k ≥ KEY_STATUS ∧ k < KEY_STATUS + s.model.statusCells) := by
    simp only [KEY_STATUS]; omega
  have hmod : k % 128 = k := Nat.mod_eq_of_lt (by omega)
  have hpress : interpretKeyByte K context k s =
      (some (K.CMD_NOOP : Int),
        { s with currentKeys := ⟨KEY k, -1, -1⟩, pressedKeys := ⟨KEY k, -1, -1⟩ }) := by
    rw [interpretKeyByte_code K context k s (by omega), hmod]
    have h128 : ¬ 128 ≤ k := by omega
    simp [interpretKeyCode, clearIndices, hr, hst, hk, h128, pressFrontKey, hc]
  have hmod2 : (k + 128) % 128 = k := by omega
  have hcall := callInterpretKeys_congr K ⟨KEY k, -1, -1⟩ s
    ({ s with currentKeys := ⟨andNot (KEY k) (KEY k), -1, -1⟩,
              pressedKeys := ⟨KEY k, -1, -1⟩ } : Driver) rfl rfl
  have hrelease : interpretKeyByte K context (k ||| 0x80)
      ({ s with currentKeys := ⟨KEY k, -1, -1⟩, pressedKeys := ⟨KEY k, -1, -1⟩ } : Driver) =
      (some ((callInterpretKeys K ⟨KEY k, -1, -1⟩ s).1.getD EOF),
        { s with
          currentKeys := ⟨0, -1, -1⟩
          pressedKeys := ⟨0, -1, -1⟩
          inputMode := (callInterpretKeys K ⟨KEY k, -1, -1⟩ s).2.inputMode }) := by
    rw [hrel, interpretKeyByte_code K context (k + 128) _ (by omega), hmod2]
    have h128 : 128 ≤ k + 128 := by omega
    simp only [interpretKeyCode, clearIndices, hr, hst, hk, h128, if_false, if_true,
      decide_True, releaseFrontKey, ne_eq, hne, not_false_eq_true]
    rw [hcall]
    cases hres : (callInterpretKeys K ⟨KEY k, -1, -1⟩ s).1 <;>
      simp [hclr, hnull]
  refine ⟨by rw [hpress], ?_, ?_, ?_, ?_, by rw [hpress]⟩
  · rw [hpress, hrelease]
  · rw [hpress, hrelease]
  · rw [hpress, hrelease]
  · intro hm hi
    simp only [callInterpretKeys, hm, hi]
    rw [modular_single_key K k hk]

theorem single_key_chord_witness :
    (3 : Nat) < 0x20 ∧
    (modular20 (List.replicate 20 0)).nullKeys = ⟨0, -1, -1⟩ ∧
    (interpretKeyByte Commands.sample .CMDS_SCREEN (3 ||| 0x80)
      (interpretKeyByte Commands.sample .CMDS_SCREEN 3 (modular20 (List.replicate 20 0))).2).1
      = some ((callInterpretKeys Commands.sample ⟨KEY 3, -1, -1⟩
          (modular20 (List.replicate 20 0))).1.getD EOF) ∧
    (0x1F : Nat) < 0x20 ∧
    (interpretKeyByte Commands.sample .CMDS_SCREEN 0x1F
      (modular20 (List.replicate 20 0))).2.pressedKeys = ⟨0xFFFFFFFF80000000, -1, -1⟩ ∧
    (interpretKeyByte Commands.sample .CMDS_SCREEN (0x1F ||| 0x80)
      (interpretKeyByte Commands.sample .CMDS_SCREEN 0x1F
        (modular20 (List.replicate 20 0))).2).1 = some (Commands.sample.CMD_HELP : Int) :=
  ⟨by decide, by decide,
   (single_key_chord Commands.sample .CMDS_SCREEN 3 (modular20 (List.replicate 20 0))
      (by decide) (by decide) (by decide)).2.1,
   by decide,
   (single_key_chord Commands.sample .CMDS_SCREEN 0x1F (modular20 (List.replicate 20 0))
      (by decide) (by decide) (by decide)).2.2.2.2.2,
   (single_key_chord Commands.sample .CMDS_SCREEN 0x1F (modular20 (List.replicate 20 0))
      (by decide) (by decide) (by decide)).2.1⟩

/-! ## Routing and status keys -/

theorem interpretIndexedKey_press (K : Commands) (keys : Keys) (s : Driver) :
    interpretIndexedKey K false keys (clearIndices s) =
      (some ((callInterpretKeys K keys s).1.getD (K.CMD_NOOP : Int)),
        { s with
          currentKeys := keys
          pressedKeys :=
            if (callInterpretKeys K keys s).1 = none then s.pressedKeys else s.nullKeys
          inputMode := (callInterpretKeys K keys s).2.inputMode }) := by
  have hcall := callInterpretKeys_congr K keys s
    ({ clearIndices s with currentKeys := keys } : Driver) rfl rfl
  simp only [interpretIndexedKey, Bool.false_eq_true, if_false]
  rw [hcall]
  cases hres : (callInterpretKeys K keys s).1 <;> simp [clearIndices]

theorem interpretKeyByte_routing_press (K : Commands) (context : DriverCommandContext)
    (byte : Nat) (s : Driver) (hb : byte < 128)
    (hr : KEY_ROUTING ≤ byte ∧ byte < KEY_ROUTING + s.model.columns) :
    interpretKeyByte K context byte s =
      interpretIndexedKey K false ⟨s.currentKeys.front, ((byte - 0x20 : Nat) : Int), -1⟩
        (clearIndices s) := by
  have hmod : byte % 128 = byte := Nat.mod_eq_of_lt hb
  have h128 : ¬ 128 ≤ byte := by omega
  have hm : (clearIndices s).model = s.model := rfl
  rw [interpretKeyByte_code K context byte s (by omega), hmod, interpretKeyCode, hm, if_pos hr]
  simp [h128, clearIndices, KEY_ROUTING]

theorem interpretKeyByte_status_press (K : Commands) (context : DriverCommandContext)
    (byte : Nat) (s : Driver) (hb : byte < 128)
    (hr : ¬(KEY_ROUTING ≤ byte ∧ byte < KEY_ROUTING + s.model.columns))
    (hst : KEY_STATUS ≤ byte ∧ byte < KEY_STATUS + s.model.statusCells) :
    interpretKeyByte K context byte s =
      interpretIndexedKey K false ⟨s.currentKeys.front, -1, ((byte - 0x70 : Nat) : Int)⟩
        (clearIndices s) := by
  have hmod : byte % 128 = byte := Nat.mod_eq_of_lt hb
  have h128 : ¬ 128 ≤ byte := by omega
  have hm : (clearIndices s).model = s.model := rfl
  rw [interpretKeyByte_code K context byte s (by omega), hmod, interpretKeyCode, hm, if_neg hr,
    if_pos hst]
  simp [h128, clearIndices, KEY_STATUS]

/-- C17: a press byte in the routing range is handled and reports what the
keyset returns for the chord of the held front mask and that column, or
`CMD_NOOP` when the keyset does not recognise the chord; likewise a press
byte in the status range with the status index.  On the Modular keyset a
routing press at column `c` reports `CR_ROUTE + c` with no front key held and
`CR_SETLEFT + c` with B1 alone held. -/
theorem indexed_key_press (K : Commands) (context : DriverCommandContext) (byte : Nat)
    (s : Driver) (hb : byte < 128) :
    (KEY_ROUTING ≤ byte ∧ byte < KEY_ROUTING + s.model.columns →
      (interpretKeyByte K context byte s).1 =
        some ((callInterpretKeys K
          ⟨s.currentKeys.front, ((byte - 0x20 : Nat) : Int), -1⟩ s).1.getD (K.CMD_NOOP : Int)) ∧
      (s.model.interpretKeys = some .interpretModularKeys → s.currentKeys.front = 0 →
        (interpretKeyByte K context byte s).1
          = some ((K.CR_ROUTE : Int) + ((byte - 0x20 : Nat) : Int))) ∧
      (s.model.interpretKeys = some .interpretModularKeys → s.currentKeys.front = KEY_B1 →
        (interpretKeyByte K context byte s).1
          = some ((K.CR_SETLEFT : Int) + ((byte - 0x20 : Nat) : Int)))) ∧
    (¬(KEY_ROUTING ≤ byte ∧ byte < KEY_ROUTING + s.model.columns) →
      KEY_STATUS ≤ byte ∧ byte < KEY_STATUS + s.model.statusCells →
      (interpretKeyByte K context byte s).1 =
        some ((callInterpretKeys K
          ⟨s.currentKeys.front, -1, ((byte - 0x70 : Nat) : Int)⟩ s).1.getD (K.CMD_NOOP : Int))) := by
  refine ⟨fun hr => ?_, fun hr hst => ?_⟩
  · have h := interpretKeyByte_routing_press K context byte s hb hr
    rw [interpretIndexedKey_press] at h
    have hcol : ((byte - 0x20 : Nat) : Int) ≥ 0 := Int.ofNat_nonneg _
    refine ⟨by rw [h], fun hm hf => ?_, fun hm hf => ?_⟩
    · have hl : switchOn 0 (modularRoutingCases K) = some K.CR_ROUTE := rfl
      rw [h, hf]
      simp [callInterpretKeys, hm, interpretModularKeys, hcol, hl]
    · have hl : switchOn KEY_B1 (modularRoutingCases K) = some K.CR_SETLEFT := rfl
      rw [h, hf]
      simp [callInterpretKeys, hm, interpretModularKeys, hcol, hl]
  · have h := interpretKeyByte_status_press K context byte s hb hr hst
    rw [interpretIndexedKey_press] at h
    rw [h]

theorem indexed_key_press_witness :
    (0x22 : Nat) < 128 ∧
    (interpretKeyByte Commands.sample .CMDS_SCREEN 0x22 (modular20 (List.replicate 20 0))).1
      = some ((Commands.sample.CR_ROUTE : Int) + ((0x22 - 0x20 : Nat) : Int)) :=
  ⟨by decide,
   ((indexed_key_press Commands.sample .CMDS_SCREEN 0x22 (modular20 (List.replicate 20 0))
      (by decide)).1 (by decide)).2.1 (by decide) (by decide)⟩

theorem release_with_no_chord (K : Commands) (context : DriverCommandContext) (k : Nat)
    (t : Driver) (hk : k < 0x20) (hp : t.pressedKeys.front = 0) :
    (interpretKeyByte K context (k ||| 0x80) t).1 = some EOF := by
  obtain ⟨_, _, hrel, _, _⟩ := front_key_facts k hk
  have hr : ¬(k ≥ KEY_ROUTING ∧ k < KEY_ROUTING + (clearIndices t).model.columns) := by
    simp only [KEY_ROUTING]; omega
  have hst : ¬(k ≥ KEY_STATUS ∧ k < KEY_STATUS + (clearIndices t).model.statusCells) := by
    simp only [KEY_STATUS]; omega
  have hmod2 : (k + 128) % 128 = k := by omega
  have h128 : 128 ≤ k + 128 := by omega
  have hp2 : (clearIndices t).pressedKeys.front = 0 := hp
  rw [hrel, interpretKeyByte_code K context (k + 128) _ (by omega), hmod2]
  simp only [interpretKeyCode, hr, hst, hk, h128, if_false, if_true, decide_True,
    releaseFrontKey, ne_eq, hp2, not_true_eq_false]

/-- C18 (as amended): after a routing or status key press whose chord the
keyset recognises, the committed chord is null, and a release of a front key
that follows reports `EOF`; after a press whose chord the keyset does not
recognise, the committed chord is left as it was. -/
theorem indexed_press_committed_chord (K : Commands) (context : DriverCommandContext)
    (byte : Nat) (s : Driver) (hb : byte < 128) :
    (KEY_ROUTING ≤ byte ∧ byte < KEY_ROUTING + s.model.columns →
      ((callInterpretKeys K ⟨s.currentKeys.front, ((byte - 0x20 : Nat) : Int), -1⟩ s).1 ≠ none →
        (interpretKeyByte K context byte s).2.pressedKeys = s.nullKeys) ∧
      ((callInterpretKeys K ⟨s.currentKeys.front, ((byte - 0x20 : Nat) : Int), -1⟩ s).1 = none →
        (interpretKeyByte K context byte s).2.pressedKeys = s.pressedKeys)) ∧
    (¬(KEY_ROUTING ≤ byte ∧ byte < KEY_ROUTING + s.model.columns) →
      KEY_STATUS ≤ byte ∧ byte < KEY_STATUS + s.model.statusCells →
      ((callInterpretKeys K ⟨s.currentKeys.front, -1, ((byte - 0x70 : Nat) : Int)⟩ s).1 ≠ none →
        (interpretKeyByte K context byte s).2.pressedKeys = s.nullKeys) ∧
      ((callInterpretKeys K ⟨s.currentKeys.front, -1, ((byte - 0x70 : Nat) : Int)⟩ s).1 = none →
        (interpretKeyByte K context byte s).2.pressedKeys = s.pressedKeys)) ∧
    (∀ k, k < 0x20 → s.nullKeys.front = 0 →
      (interpretKeyByte K context byte s).2.pressedKeys = s.nullKeys →
      (interpretKeyByte K context (k ||| 0x80) (interpretKeyByte K context byte s).2).1
        = some EOF) := by
  refine ⟨fun hr => ?_, fun hr hst => ?_, fun k hk hn hp => ?_⟩
  · have h := interpretKeyByte_routing_press K context byte s hb hr
    rw [interpretIndexedKey_press] at h
    rw [h]
    exact ⟨fun hc => by simp [hc], fun hc => by simp [hc]⟩
  · have h := interpretKeyByte_status_press K context byte s hb hr hst
    rw [interpretIndexedKey_press] at h
    rw [h]
    exact ⟨fun hc => by simp [hc], fun hc => by simp [hc]⟩
  · exact release_with_no_chord K context k _ hk (by rw [hp, hn])

theorem indexed_press_committed_chord_witness :
    (0x22 : Nat) < 128 ∧
    (interpretKeyByte Commands.sample .CMDS_SCREEN 0x22
      (feedKeyBytes Commands.sample .CMDS_SCREEN [0x03]
        (modular20 (List.replicate 20 0)))).2.pressedKeys
      = (feedKeyBytes Commands.sample .CMDS_SCREEN [0x03]
          (modular20 (List.replicate 20 0))).nullKeys :=
  ⟨by decide,
   ((indexed_press_committed_chord Commands.sample .CMDS_SCREEN 0x22
      (feedKeyBytes Commands.sample .CMDS_SCREEN [0x03] (modular20 (List.replicate 20 0)))
      (by decide)).1 (by decide)).1 (by decide)⟩

/-- C18 (as stated) fails: on the Modular 20+4 with B1 and B4 held, the
routing press at column 2 is not recognised and reports `CMD_NOOP`, the
committed chord B1+B4 stays in place, and the release of B4 that follows
reports `CMD_PRPGRPH` rather than no command. -/
theorem unrecognised_routing_keeps_chord :
    (interpretKeyByte Commands.sample .CMDS_SCREEN 0x22
      (feedKeyBytes Commands.sample .CMDS_SCREEN [0x03, 0x0F]
        (modular20 (List.replicate 20 0)))).1 = some (Commands.sample.CMD_NOOP : Int) ∧
    (feedKeyBytes Commands.sample .CMDS_SCREEN [0x03, 0x0F, 0x22]
      (modular20 (List.replicate 20 0))).pressedKeys = ⟨KEY_B1 ||| KEY_B4, -1, -1⟩ ∧
    (feedKeyBytes Commands.sample .CMDS_SCREEN [0x03, 0x0F, 0x22]
      (modular20 (List.replicate 20 0))).pressedKeys
      ≠ (feedKeyBytes Commands.sample .CMDS_SCREEN [0x03, 0x0F, 0x22]
          (modular20 (List.replicate 20 0))).nullKeys ∧
    (interpretKeyByte Commands.sample .CMDS_SCREEN 0x8F
      (feedKeyBytes Commands.sample .CMDS_SCREEN [0x03, 0x0F, 0x22]
        (modular20 (List.replicate 20 0)))).1 = some (Commands.sample.CMD_PRPGRPH : Int) ∧
    (Commands.sample.CMD_PRPGRPH : Int) ≠ EOF := by
  decide

/-- C19: a release byte whose base code is in the routing range, or else in
the status range, is handled and reports `EOF`; it changes nothing but the
two indices of `currentKeys`, which are -1 afterwards: the accumulated front
mask and the committed chord are as before. -/
theorem indexed_key_release (K : Commands) (context : DriverCommandContext) (byte : Nat)
    (s : Driver) (hlo : 128 ≤ byte) (hhi : byte < 256)
    (hrange : (KEY_ROUTING ≤ byte - 128 ∧ byte - 128 < KEY_ROUTING + s.model.columns) ∨
      (KEY_STATUS ≤ byte - 128 ∧ byte - 128 < KEY_STATUS + s.model.statusCells)) :
    interpretKeyByte K context byte s
      = (some EOF, { s with currentKeys := ⟨s.currentKeys.front, -1, -1⟩ }) ∧
    (interpretKeyByte K context byte s).2.currentKeys.front = s.currentKeys.front ∧
    (interpretKeyByte K context byte s).2.pressedKeys = s.pressedKeys := by
  have hmod : byte % 128 = byte - 128 := by omega
  have hm : (clearIndices s).model = s.model := rfl
  have h : interpretKeyByte K context byte s = (some EOF, clearIndices s) := by
    rw [interpretKeyByte_code K context byte s hhi, hmod, interpretKeyCode, hm]
    by_cases hr : KEY_ROUTING ≤ byte - 128 ∧ byte - 128 < KEY_ROUTING + s.model.columns
    · rw [if_pos hr]
      simp [interpretIndexedKey, hlo]
    · rw [if_neg hr]
      have hst := hrange.resolve_left hr
      rw [if_pos hst]
      simp [interpretIndexedKey, hlo]
  refine ⟨h, ?_, ?_⟩ <;> rw [h] <;> rfl

theorem indexed_key_release_witness :
    (128 : Nat) ≤ 0xA2 ∧ (0xA2 : Nat) < 256 ∧
    (interpretKeyByte Commands.sample .CMDS_SCREEN 0xA2 (modular20 (List.replicate 20 0))).1
      = some EOF :=
  ⟨by decide, by decide,
   congrArg Prod.fst
    (indexed_key_release Commands.sample .CMDS_SCREEN 0xA2 (modular20 (List.replicate 20 0))
      (by decide) (by decide) (Or.inl (by decide))).1⟩

/-! ## Alternate input mode -/

theorem orIf_keyFlag (front key dot command : Nat) :
    orIf front key dot command = command ||| keyFlag front key dot := by
  unfold orIf keyFlag
  split <;> simp

theorem and_const (a x y z : Nat) (h : x &&& y = z) : (a &&& x) &&& y = a &&& z := by
  rw [Nat.and_assoc, h]

theorem clear_key (x key : Nat) (hx : x &&& 0xFFFFFFFFFFFFFFFF = x)
    (hkey : (0xFFFFFFFFFFFFFFFF ^^^ key) ||| key = 0xFFFFFFFFFFFFFFFF) :
    (if x &&& key ≠ 0 then andNot x key else x) = x &&& (0xFFFFFFFFFFFFFFFF ^^^ key) := by
  split
  · rfl
  · next h =>
    have h0 : x &&& key = 0 := by
      by_contra hc
      exact h hc
    have : x &&& 0xFFFFFFFFFFFFFFFF = (x &&& (0xFFFFFFFFFFFFFFFF ^^^ key)) ||| (x &&& key) := by
      rw [← Nat.and_or_distrib_left, hkey]
    rw [h0, hx] at this
    simpa using this

theorem modularPassDots_chord (K : Commands) (front : Nat)
    (hdots : front &&& modularDots ≠ 0)
    (hsub : front &&& (modularDots ||| KEY_UP ||| KEY_DOWN) = front) :
    modularPassDots K front =
      some (K.VAL_PASSDOTS ||| keyFlag front KEY_B1 K.B7 ||| keyFlag front KEY_B2 K.B3
        ||| keyFlag front KEY_B3 K.B2 ||| keyFlag front KEY_B4 K.B1
        ||| keyFlag front KEY_B5 K.B4 ||| keyFlag front KEY_B6 K.B5
        ||| keyFlag front KEY_B7 K.B6 ||| keyFlag front KEY_B8 K.B8
        ||| keyFlag front KEY_UP K.VPC_CONTROL ||| keyFlag front KEY_DOWN K.VPC_META) := by
  have f_up : andNot front modularDots &&& KEY_UP = front &&& KEY_UP :=
    and_const _ _ _ _ (by decide)
  have hx0 : andNot front modularDots &&& 0xFFFFFFFFFFFFFFFF = andNot front modularDots :=
    and_const _ _ _ _ (by decide)
  have fA1 : andNot (andNot front modularDots) KEY_UP
      = front &&& (0xFFFFFFFFFFFFFFFF ^^^ (modularDots ||| KEY_UP)) :=
    and_const _ _ _ _ (by decide)
  have fA1n : front &&& KEY_UP = 0 →
      andNot front modularDots = front &&& (0xFFFFFFFFFFFFFFFF ^^^ (modularDots ||| KEY_UP)) := by
    intro h0
    have h := clear_key (andNot front modularDots) KEY_UP hx0 (by decide)
    rw [f_up, h0] at h
    simp only [ne_eq, not_true_eq_false, if_false] at h
    rw [h]
    exact fA1
  have f_down : front &&& (0xFFFFFFFFFFFFFFFF ^^^ (modularDots ||| KEY_UP)) &&& KEY_DOWN
      = front &&& KEY_DOWN := and_const _ _ _ _ (by decide)
  have hx1 : front &&& (0xFFFFFFFFFFFFFFFF ^^^ (modularDots ||| KEY_UP)) &&& 0xFFFFFFFFFFFFFFFF
      = front &&& (0xFFFFFFFFFFFFFFFF ^^^ (modularDots ||| KEY_UP)) := and_const _ _ _ _ (by decide)
  have fB : andNot (front &&& (0xFFFFFFFFFFFFFFFF ^^^ (modularDots ||| KEY_UP))) KEY_DOWN = 0 := by
    have h : andNot (front &&& (0xFFFFFFFFFFFFFFFF ^^^ (modularDots ||| KEY_UP))) KEY_DOWN
        = front &&& (0xFFFFFFFFFFFFFFFF ^^^ (modularDots ||| KEY_UP ||| KEY_DOWN)) :=
      and_const _ _ _ _ (by decide)
    rw [h, ← hsub, and_const front _ _ 0 (by decide)]
    simp
  have fBn : front &&& KEY_DOWN = 0 →
      front &&& (0xFFFFFFFFFFFFFFFF ^^^ (modularDots ||| KEY_UP)) = 0 := by
    intro h0
    have h := clear_key (front &&& (0xFFFFFFFFFFFFFFFF ^^^ (modularDots ||| KEY_UP))) KEY_DOWN hx1
      (by decide)
    rw [f_down, h0] at h
    simp only [ne_eq, not_true_eq_false, if_false] at h
    rw [h]
    exact fB
  unfold modularPassDots
  rw [if_pos hdots]
  simp only [orIf_keyFlag]
  rw [f_up]
  by_cases hu : front &&& KEY_UP = 0
  · have hku : keyFlag front KEY_UP K.VPC_CONTROL = 0 := by simp [keyFlag, hu]
    simp only [hu, ne_eq, not_true_eq_false, if_false]
    rw [fA1n hu, f_down]
    by_cases hd : front &&& KEY_DOWN = 0
    · have hkd : keyFlag front KEY_DOWN K.VPC_META = 0 := by simp [keyFlag, hd]
      simp only [hd, not_true_eq_false, if_false, fBn hd, if_true, hku, hkd, Nat.or_zero]
    · have hkd : keyFlag front KEY_DOWN K.VPC_META = K.VPC_META := by simp [keyFlag, hd]
      simp only [hd, not_false_eq_true, if_true, fB, hku, hkd, Nat.or_zero]
  · have hku : keyFlag front KEY_UP K.VPC_CONTROL = K.VPC_CONTROL := by simp [keyFlag, hu]
    simp only [hu, ne_eq, not_false_eq_true, if_true]
    rw [fA1, f_down]
    by_cases hd : front &&& KEY_DOWN = 0
    · have hkd : keyFlag front KEY_DOWN K.VPC_META = 0 := by simp [keyFlag, hd]
      simp only [hd, not_true_eq_false, if_false, fBn hd, if_true, hku, hkd, Nat.or_zero]
    · have hkd : keyFlag front KEY_DOWN K.VPC_META = K.VPC_META := by simp [keyFlag, hd]
      simp only [hd, not_false_eq_true, if_true, fB, hku, hkd]

/-- C20: with the alternate input mode on, `interpretModularKeys` resolves
every front-only chord that holds at least one of B1..B8, holds no key other
than B1..B8, UP and DOWN, and is neither mode chord, to `VAL_PASSDOTS` with
dot 7 for B1, dot 3 for B2, dot 2 for B3, dot 1 for B4, dot 4 for B5, dot 5
for B6, dot 6 for B7, dot 8 for B8, `VPC_CONTROL` exactly when UP is held and
`VPC_META` exactly when DOWN is held; the input mode stays on. -/
theorem modular_input_mode_dots (K : Commands) (keys : Keys) (mode : Nat)
    (hcol : keys.column < 0) (hst : keys.status < 0) (hmode : mode ≠ 0)
    (hdots : keys.front &&& modularDots ≠ 0)
    (hsub : keys.front &&& (modularDots ||| KEY_UP ||| KEY_DOWN) = keys.front)
    (h1 : keys.front ≠ (KEY_B1 ||| KEY_B8 ||| KEY_UP))
    (h2 : keys.front ≠ (KEY_B1 ||| KEY_B8 ||| KEY_DOWN)) :
    interpretModularKeys K keys mode =
      (some (((K.VAL_PASSDOTS ||| keyFlag keys.front KEY_B1 K.B7
        ||| keyFlag keys.front KEY_B2 K.B3 ||| keyFlag keys.front KEY_B3 K.B2
        ||| keyFlag keys.front KEY_B4 K.B1 ||| keyFlag keys.front KEY_B5 K.B4
        ||| keyFlag keys.front KEY_B6 K.B5 ||| keyFlag keys.front KEY_B7 K.B6
        ||| keyFlag keys.front KEY_B8 K.B8 ||| keyFlag keys.front KEY_UP K.VPC_CONTROL
        ||| keyFlag keys.front KEY_DOWN K.VPC_META : Nat) : Int)), mode) := by
  have hc : ¬ keys.column ≥ 0 := by omega
  have hs : ¬ keys.status ≥ 0 := by omega
  have hp := modularPassDots_chord K keys.front hdots hsub
  unfold interpretModularKeys
  simp only [hc, hs, h1, h2, if_false, hmode, ne_eq, not_false_eq_true, if_true,
    modularInputCases, hp]

theorem modular_input_mode_dots_witness :
    (KEY_B4 ||| KEY_UP) &&& modularDots ≠ 0 ∧
    interpretModularKeys Commands.sample ⟨KEY_B4 ||| KEY_UP, -1, -1⟩ 1 =
      (some (((Commands.sample.VAL_PASSDOTS ||| keyFlag (KEY_B4 ||| KEY_UP) KEY_B1 Commands.sample.B7
        ||| keyFlag (KEY_B4 ||| KEY_UP) KEY_B2 Commands.sample.B3
        ||| keyFlag (KEY_B4 ||| KEY_UP) KEY_B3 Commands.sample.B2
        ||| keyFlag (KEY_B4 ||| KEY_UP) KEY_B4 Commands.sample.B1
        ||| keyFlag (KEY_B4 ||| KEY_UP) KEY_B5 Commands.sample.B4
        ||| keyFlag (KEY_B4 ||| KEY_UP) KEY_B6 Commands.sample.B5
        ||| keyFlag (KEY_B4 ||| KEY_UP) KEY_B7 Commands.sample.B6
        ||| keyFlag (KEY_B4 ||| KEY_UP) KEY_B8 Commands.sample.B8
        ||| keyFlag (KEY_B4 ||| KEY_UP) KEY_UP Commands.sample.VPC_CONTROL
        ||| keyFlag (KEY_B4 ||| KEY_UP) KEY_DOWN Commands.sample.VPC_META : Nat) : Int)), 1) ∧
    KEY_B8 ||| KEY_B4 ||| KEY_DOWN = 0xFFFFFFFF80008100 ∧
    (KEY_B8 ||| KEY_B4 ||| KEY_DOWN) &&& (modularDots ||| KEY_UP ||| KEY_DOWN)
      = KEY_B8 ||| KEY_B4 ||| KEY_DOWN ∧
    interpretModularKeys Commands.sample ⟨KEY_B8 ||| KEY_B4 ||| KEY_DOWN, -1, -1⟩ 1 =
      (some (((Commands.sample.VAL_PASSDOTS ||| Commands.sample.B1 ||| Commands.sample.B8
        ||| Commands.sample.VPC_META : Nat) : Int)), 1) :=
  ⟨by decide,
   modular_input_mode_dots Commands.sample ⟨KEY_B4 ||| KEY_UP, -1, -1⟩ 1
     (by decide) (by decide) (by decide) (by decide) (by decide) (by decide) (by decide),
   by decide, by decide,
   (modular_input_mode_dots Commands.sample ⟨KEY_B8 ||| KEY_B4 ||| KEY_DOWN, -1, -1⟩ 1
     (by decide) (by decide) (by decide) (by decide) (by decide) (by decide)
     (by decide)).trans (by decide)⟩

/-! ## Cell updates and the key variables -/

theorem updateBrailleCells_repeat (wr : Nat → Bool) (s : Driver) :
    (updateBrailleCells wr s).2.repeatCounter = s.repeatCounter ∧
    (updateBrailleCells wr s).2.currentKeys = s.currentKeys ∧
    (updateBrailleCells wr s).2.pressedKeys = s.pressedKeys ∧
    (updateBrailleCells wr s).2.nullKeys = s.nullKeys ∧
    (updateBrailleCells wr s).2.inputMode = s.inputMode := by
  by_cases h : s.updateRequired = true ∧ s.currentState = BDS_READY
  · cases hw : wr s.log.length
    · rw [updateBrailleCells_failed wr s h.1 h.2 hw]; simp
    · rw [updateBrailleCells_sent wr s h.1 h.2 hw]; simp
  · rw [updateBrailleCells_idle wr s h]; simp

/-! ## The Bookworm byte strategy -/

theorem bookworm_lookup_high (K : Commands) (byte : Nat) (h : 15 ≤ byte) :
    switchOn byte (bookwormPrefsCases K) = none ∧
    switchOn byte (bookwormDefaultCases K) = none := by
  have hne : ∀ k, k < 15 → (byte == k) = false := by
    intro k hk
    simp only [beq_eq_false_iff_ne, ne_eq]
    omega
  constructor <;>
    simp [switchOn, bookwormPrefsCases, bookwormDefaultCases, List.lookup, BWK_BACKWARD,
      BWK_FORWARD, BWK_ESCAPE, BWK_ENTER, hne]

theorem bookworm_lookup_low (K : Commands) (byte : Nat) (h1 : 1 ≤ byte) (h2 : byte ≤ 14) :
    (switchOn byte (bookwormPrefsCases K)).isSome = true ∧
    (switchOn byte (bookwormDefaultCases K)).isSome = true := by
  interval_cases byte <;> exact ⟨rfl, rfl⟩

/-- C21: `interpretBookwormByte` leaves the driver untouched and its result
does not depend on the driver: it is the same for any two drivers.  In the
preferences context and in every other context it handles exactly the byte
values 1 to 14; 0, 15 and every value from 16 on are not handled. -/
theorem bookworm_byte_strategy (K : Commands) (context : DriverCommandContext) (byte : Nat)
    (s t : Driver) :
    (interpretBookwormByte K context byte s).2 = s ∧
    (interpretBookwormByte K context byte s).1 = (interpretBookwormByte K context byte t).1 ∧
    ((interpretBookwormByte K context byte s).1.isSome = true ↔ 1 ≤ byte ∧ byte ≤ 14) := by
  refine ⟨interpretBookwormByte_driver K context byte s, ?_, ?_⟩
  · unfold interpretBookwormByte
    split <;> split <;> simp_all
  · by_cases hb : 1 ≤ byte ∧ byte ≤ 14
    · obtain ⟨hp, hd⟩ := bookworm_lookup_low K byte hb.1 hb.2
      simp only [hb, and_self, iff_true]
      unfold interpretBookwormByte
      split
      · cases hx : switchOn byte (bookwormPrefsCases K) with
        | none => rw [hx] at hp; simp at hp
        | some c => simp
      · cases hx : switchOn byte (bookwormDefaultCases K) with
        | none => rw [hx] at hd; simp at hd
        | some c => simp
    · have hnone : (interpretBookwormByte K context byte s).1 = none := by
        unfold interpretBookwormByte
        by_cases h0 : byte = 0
        · subst h0
          split <;> rfl
        · obtain ⟨hp, hd⟩ := bookworm_lookup_high K byte (by omega)
          split
          · rw [hp]
          · rw [hd]
      rw [hnone]
      simp [hb]

/-! ## Autorepeat -/

theorem poll_without_command (K : Commands) (wr : Nat → Bool) (tick : Nat)
    (context : DriverCommandContext) (rx : List Rx) (s s1 : Driver) (rest : List Rx)
    (hloop : readLoop K wr context rx { s with stateTimer := s.stateTimer + tick }
      = (none, s1, rest)) :
    brl_readCommand K wr tick context rx s =
      ⟨(autorepeat K (updateBrailleCells wr
          (if rx.isEmpty then timeoutRecovery wr s1 else s1)).2).1,
       (autorepeat K (updateBrailleCells wr
          (if rx.isEmpty then timeoutRecovery wr s1 else s1)).2).2, rest⟩ := by
  simp only [brl_readCommand, hloop, afterLoop]

/-- C22: when the countdown stands at 1 as the poll reaches the autorepeat
step (so the decrement brings it to zero), the state is `BDS_READY` or
`BDS_WRITING`, a front mask is held with no column or status index current,
and the keyset recognises the held chord, then the poll that decoded no
command from its bytes returns the keyset result for the held chord and
leaves the countdown at the repeat interval 3, with the committed chord
cleared. -/
theorem autorepeat_fires (K : Commands) (s : Driver) (command : Int)
    (hcount : s.repeatCounter = 1)
    (hconn : s.currentState = BDS_READY ∨ s.currentState = BDS_WRITING)
    (hfront : s.currentKeys.front ≠ 0) (hcol : s.currentKeys.column < 0)
    (hst : s.currentKeys.status < 0)
    (hrec : (callInterpretKeys K s.currentKeys s).1 = some command) :
    (autorepeat K s).1 = command ∧
    (autorepeat K s).2.repeatCounter = 3 ∧
    (autorepeat K s).2.pressedKeys = s.nullKeys ∧
    (autorepeat K s).2.currentKeys = s.currentKeys ∧
    (∀ (wr : Nat → Bool) (tick : Nat) (context : DriverCommandContext) (rx rest : List Rx)
        (s0 s1 : Driver),
      readLoop K wr context rx { s0 with stateTimer := s0.stateTimer + tick }
        = (none, s1, rest) →
      (updateBrailleCells wr (if rx.isEmpty then timeoutRecovery wr s1 else s1)).2 = s →
      (brl_readCommand K wr tick context rx s0).command = command ∧
      (brl_readCommand K wr tick context rx s0).driver.repeatCounter = 3) := by
  have hcall := callInterpretKeys_congr K s.currentKeys s
    ({ s with repeatCounter := repeatInterval } : Driver) rfl rfl
  have hauto : autorepeat K s =
      (command, { s with
        repeatCounter := repeatInterval
        inputMode := (callInterpretKeys K s.currentKeys s).2.inputMode
        pressedKeys := s.nullKeys }) := by
    unfold autorepeat
    rw [if_pos (by rw [hcount]; rfl), if_pos hconn, if_pos ⟨hfront, hcol, hst⟩, hcall, hrec]
  refine ⟨by rw [hauto], by rw [hauto]; rfl, by rw [hauto], by rw [hauto], ?_⟩
  intro wr tick context rx rest s0 s1 hloop hs
  rw [poll_without_command K wr tick context rx s0 s1 rest hloop, hs, hauto]
  exact ⟨rfl, rfl⟩

theorem setState_repeat (state : BrailleDisplayState) (s : Driver) :
    (setState state s).repeatCounter = s.repeatCounter := by
  unfold setState
  split <;> rfl

theorem readyByte_repeat (K : Commands) (wr : Nat → Bool) (context : DriverCommandContext)
    (byte : Nat) (s : Driver) :
    ((readyByte K wr context byte s).1 = none →
      (readyByte K wr context byte s).2.repeatCounter = s.repeatCounter) ∧
    ((readyByte K wr context byte s).1 ≠ none →
      (readyByte K wr context byte s).2.repeatCounter = 10) := by
  have hp := callInterpretByte_protocol K context byte s
  rcases hres : callInterpretByte K context byte s with ⟨o, s1⟩
  rw [hres] at hp
  have h7 := (protocol_fields hp).2.2.2.2.2.2.1
  cases o with
  | none =>
    simp only [readyByte, hres]
    exact ⟨fun _ => h7, fun h => absurd rfl h⟩
  | some command =>
    simp only [readyByte, hres]
    refine ⟨fun h => by simp at h, fun _ => ?_⟩
    rw [(updateBrailleCells_repeat wr _).1]
    rfl

theorem handleByte_repeat (K : Commands) (wr : Nat → Bool) (context : DriverCommandContext)
    (r : Rx) (s : Driver) :
    ((handleByte K wr context r s).1 = none →
      (handleByte K wr context r s).2.repeatCounter = s.repeatCounter) ∧
    ((handleByte K wr context r s).1 ≠ none →
      (handleByte K wr context r s).2.repeatCounter = 10) := by
  have hr := readyByte_repeat K wr context r.byte s
  unfold handleByte
  split
  · exact ⟨fun _ => setState_repeat _ _, fun h => absurd rfl h⟩
  · split
    · exact ⟨fun _ => setState_repeat _ _, fun h => absurd rfl h⟩
    · split
      · exact ⟨fun _ => rfl, fun h => absurd rfl h⟩
      · exact ⟨fun _ => rfl, fun h => absurd rfl h⟩
      · split
        · exact ⟨fun _ => setState_repeat BDS_READY s, fun h => absurd rfl h⟩
        · exact ⟨fun _ => rfl, fun h => absurd rfl h⟩
      · split
        · exact ⟨fun _ => setState_repeat BDS_READY ({ s with updateRequired := true } : Driver),
            fun h => absurd rfl h⟩
        · split
          · exact ⟨fun _ => setState_repeat _ _, fun h => absurd rfl h⟩
          · exact hr
      · exact hr

theorem readLoop_repeat (K : Commands) (wr : Nat → Bool) (context : DriverCommandContext)
    (rx : List Rx) (s : Driver) :
    ((readLoop K wr context rx s).1 = none →
      (readLoop K wr context rx s).2.1.repeatCounter = s.repeatCounter) ∧
    ((readLoop K wr context rx s).1 ≠ none →
      (readLoop K wr context rx s).2.1.repeatCounter = 10) := by
  induction rx generalizing s with
  | nil => exact ⟨fun _ => rfl, fun h => absurd rfl h⟩
  | cons r rest ih =>
    have hb := handleByte_repeat K wr context r s
    rcases hres : handleByte K wr context r s with ⟨o, s1⟩
    rw [hres] at hb
    cases o with
    | none =>
      simp only [readLoop, hres]
      have h1 : s1.repeatCounter = s.repeatCounter := hb.1 rfl
      rw [← h1]
      exact ih s1
    | some command =>
      simp only [readLoop, hres]
      exact ⟨fun h => by simp at h, fun _ => hb.2 (by simp)⟩

theorem describe_repeat (wr : Nat → Bool) (s : Driver) :
    (match writeBytes wr HandyDescribe s with
      | (true, s1) => setState BDS_RESETTING s1
      | (false, s1) => setState BDS_OFF s1).repeatCounter = s.repeatCounter := by
  have hw : (writeBytes wr HandyDescribe s).2.repeatCounter = s.repeatCounter := rfl
  rcases hres : writeBytes wr HandyDescribe s with ⟨ok, s1⟩
  rw [hres] at hw
  cases ok with
  | true => exact (setState_repeat _ _).trans hw
  | false => exact (setState_repeat _ _).trans hw

theorem timeoutRecovery_repeat (wr : Nat → Bool) (s : Driver) :
    (timeoutRecovery wr s).repeatCounter = s.repeatCounter := by
  unfold timeoutRecovery
  split
  · rfl
  · split
    · split
      · exact setState_repeat _ _
      · exact describe_repeat wr s
    · rfl
  · split
    · exact describe_repeat wr s
    · rfl
  · rfl
  · split
    · split
      · exact describe_repeat wr s
      · rfl
    · rfl

theorem autorepeat_repeat (K : Commands) (s : Driver) :
    (autorepeat K s).2.repeatCounter =
      (if s.repeatCounter - 1 = 0 then
        (if s.currentState = BDS_READY ∨ s.currentState = BDS_WRITING then 3 else 1)
       else s.repeatCounter - 1) := by
  unfold autorepeat
  split
  · split
    · split
      · have hp := callInterpretKeys_protocol K s.currentKeys
          ({ s with repeatCounter := repeatInterval } : Driver)
        rcases hres : callInterpretKeys K s.currentKeys
          ({ s with repeatCounter := repeatInterval } : Driver) with ⟨o, s1⟩
        rw [hres] at hp
        have h7 : s1.repeatCounter = 3 := (protocol_fields hp).2.2.2.2.2.2.1
        cases o with
        | none => exact h7
        | some command => exact h7
      · rfl
    · rfl
  · rfl

theorem afterLoop_repeat (K : Commands) (wr : Nat → Bool) (timeout : Bool) (s : Driver) :
    (afterLoop K wr timeout s).2.repeatCounter =
      (if s.repeatCounter - 1 = 0 then
        (if (afterLoop K wr timeout s).2.currentState = BDS_READY ∨
            (afterLoop K wr timeout s).2.currentState = BDS_WRITING then 3 else 1)
       else s.repeatCounter - 1) := by
  have hu := (updateBrailleCells_repeat wr (if timeout then timeoutRecovery wr s else s)).1
  have ht : (if timeout then timeoutRecovery wr s else s).repeatCounter = s.repeatCounter := by
    split
    · exact timeoutRecovery_repeat wr s
    · rfl
  have hst := (autorepeat_fields K
    (updateBrailleCells wr (if timeout then timeoutRecovery wr s else s)).2).1
  unfold afterLoop
  rw [autorepeat_repeat, hst, hu, ht]

theorem open_repeat (wr : Nat → Bool) (env : OpenEnv) (brl brl1 : BrailleDisplay)
    (s0 s : Driver) (hopen : brl_open wr env brl s0 = some (true, s, brl1)) :
    s.repeatCounter = 10 := by
  unfold brl_open at hopen
  simp only at hopen
  split at hopen
  · simp at hopen
  · split at hopen
    · simp at hopen
    · simp at hopen
    · split at hopen
      · simp at hopen
      · split at hopen
        · simp only [Option.some.injEq, Prod.mk.injEq, true_and] at hopen
          rw [← hopen.1]
          rfl
        · simp at hopen

/-- C23 (as amended): when the countdown reaches zero and no repeat is
emitted, it is reset to the repeat interval 3 if the state is `BDS_READY` or
`BDS_WRITING` (no front-only chord held, or the held chord not recognised),
and to 1 in every other state; `EOF` is returned.  The long delay 10 is set in
two places only: a successful `brl_open` leaves the countdown at 10, and so
does every call of `brl_readCommand` in which a received byte yields a
command.  A call of `brl_readCommand` in which no byte yields a command leaves
the countdown at 3 or at 1 when it stood at 1 before the call, and one below
its value before the call otherwise, so never at 10 when it was at most 10
before; `brl_writeWindow`, `brl_writeStatus` and `brl_close` leave the
countdown as it is. -/
theorem autorepeat_idle_reset (K : Commands) (s : Driver) (hcount : s.repeatCounter = 1) :
    (¬(s.currentState = BDS_READY ∨ s.currentState = BDS_WRITING) →
      autorepeat K s = (EOF, { s with repeatCounter := 1 })) ∧
    ((s.currentState = BDS_READY ∨ s.currentState = BDS_WRITING) →
      ¬(s.currentKeys.front ≠ 0 ∧ s.currentKeys.column < 0 ∧ s.currentKeys.status < 0) →
      autorepeat K s = (EOF, { s with repeatCounter := 3 })) ∧
    ((s.currentState = BDS_READY ∨ s.currentState = BDS_WRITING) →
      (callInterpretKeys K s.currentKeys s).1 = none →
      (autorepeat K s).1 = EOF ∧ (autorepeat K s).2.repeatCounter = 3) ∧
    (∀ (wr : Nat → Bool) (context : DriverCommandContext) (byte : Nat),
      (readyByte K wr context byte s).1 ≠ none →
      (readyByte K wr context byte s).2.repeatCounter = 10) ∧
    (∀ (wr : Nat → Bool) (env : OpenEnv) (brl brl1 : BrailleDisplay) (s0 s1 : Driver),
      brl_open wr env brl s0 = some (true, s1, brl1) → s1.repeatCounter = 10) ∧
    (∀ (wr : Nat → Bool) (tick : Nat) (context : DriverCommandContext) (rx : List Rx)
        (s0 : Driver),
      (readLoop K wr context rx { s0 with stateTimer := s0.stateTimer + tick }).1 ≠ none →
      (brl_readCommand K wr tick context rx s0).driver.repeatCounter = 10) ∧
    (∀ (wr : Nat → Bool) (tick : Nat) (context : DriverCommandContext) (rx : List Rx)
        (s0 : Driver),
      (readLoop K wr context rx { s0 with stateTimer := s0.stateTimer + tick }).1 = none →
      (brl_readCommand K wr tick context rx s0).driver.repeatCounter =
        (if s0.repeatCounter - 1 = 0 then
          (if (brl_readCommand K wr tick context rx s0).driver.currentState = BDS_READY ∨
              (brl_readCommand K wr tick context rx s0).driver.currentState = BDS_WRITING
            then 3 else 1)
         else s0.repeatCounter - 1) ∧
      (s0.repeatCounter ≤ 10 →
        (brl_readCommand K wr tick context rx s0).driver.repeatCounter ≠ 10)) ∧
    (∀ (wr : Nat → Bool) (brl : BrailleDisplay) (st : List Nat) (s0 : Driver),
      (brl_writeWindow wr brl s0).repeatCounter = s0.repeatCounter ∧
      (brl_writeStatus st s0).repeatCounter = s0.repeatCounter ∧
      (brl_close wr s0).repeatCounter = s0.repeatCounter) := by
  have h0 : s.repeatCounter - 1 = 0 := by rw [hcount]; rfl
  refine ⟨fun hn => ?_, fun hc hk => ?_, fun hc hr => ?_, fun wr context byte hb => ?_,
    fun wr env brl brl1 s0 s1 hopen => open_repeat wr env brl brl1 s0 s1 hopen,
    fun wr tick context rx s0 hsome => ?_, fun wr tick context rx s0 hnone => ?_,
    fun wr brl st s0 => ⟨?_, ?_, ?_⟩⟩
  · unfold autorepeat
    rw [if_pos h0, if_neg hn]
  · unfold autorepeat
    rw [if_pos h0, if_pos hc, if_neg hk]
    rfl
  · have hcall := callInterpretKeys_congr K s.currentKeys s
      ({ s with repeatCounter := repeatInterval } : Driver) rfl rfl
    unfold autorepeat
    rw [if_pos h0, if_pos hc]
    split
    · rw [hcall, hr]
      exact ⟨rfl, rfl⟩
    · exact ⟨rfl, rfl⟩
  · exact (readyByte_repeat K wr context byte s).2 hb
  · have hl := (readLoop_repeat K wr context rx
      ({ s0 with stateTimer := s0.stateTimer + tick } : Driver)).2 hsome
    rcases hres : readLoop K wr context rx
      ({ s0 with stateTimer := s0.stateTimer + tick } : Driver) with ⟨o, s1, rest⟩
    rw [hres] at hl hsome
    cases o with
    | none => exact absurd rfl hsome
    | some command =>
      simp only [brl_readCommand, hres]
      exact hl
  · have hl := (readLoop_repeat K wr context rx
      ({ s0 with stateTimer := s0.stateTimer + tick } : Driver)).1 hnone
    rcases hres : readLoop K wr context rx
      ({ s0 with stateTimer := s0.stateTimer + tick } : Driver) with ⟨o, s1, rest⟩
    rw [hres] at hl hnone
    simp only at hl hnone
    subst hnone
    have hl2 : s1.repeatCounter = s0.repeatCounter := hl
    have hform : (brl_readCommand K wr tick context rx s0).driver.repeatCounter =
        (if s0.repeatCounter - 1 = 0 then
          (if (brl_readCommand K wr tick context rx s0).driver.currentState = BDS_READY ∨
              (brl_readCommand K wr tick context rx s0).driver.currentState = BDS_WRITING
            then 3 else 1)
         else s0.repeatCounter - 1) := by
      simp only [brl_readCommand, hres]
      rw [afterLoop_repeat, hl2]
    refine ⟨hform, fun hle => ?_⟩
    rw [hform]
    split
    · split
      · decide
      · decide
    · omega
  · exact (updateBrailleCells_repeat wr (markWindow brl s0)).1.trans (by
      unfold markWindow
      split <;> rfl)
  · unfold brl_writeStatus
    split <;> rfl
  · unfold brl_close
    split <;> rfl

theorem autorepeat_fires_witness :
    (silentPolls Commands.sample wrOk .CMDS_SCREEN (List.replicate 9 40)
      (brl_readCommand Commands.sample wrOk 40 .CMDS_SCREEN [⟨0x03, false⟩]
        (modular20 (List.replicate 20 0))).driver).repeatCounter = 1 ∧
    (autorepeat Commands.sample
      (silentPolls Commands.sample wrOk .CMDS_SCREEN (List.replicate 9 40)
        (brl_readCommand Commands.sample wrOk 40 .CMDS_SCREEN [⟨0x03, false⟩]
          (modular20 (List.replicate 20 0))).driver)).1 = (Commands.sample.CMD_HOME : Int) :=
  ⟨by decide,
   (autorepeat_fires Commands.sample
      (silentPolls Commands.sample wrOk .CMDS_SCREEN (List.replicate 9 40)
        (brl_readCommand Commands.sample wrOk 40 .CMDS_SCREEN [⟨0x03, false⟩]
          (modular20 (List.replicate 20 0))).driver)
      (Commands.sample.CMD_HOME : Int)
      (by decide) (by decide) (by decide) (by decide) (by decide) (by decide)).1⟩

theorem autorepeat_idle_reset_witness :
    (silentPolls Commands.sample wrOk .CMDS_SCREEN (List.replicate 9 40)
      (modular20 (List.replicate 20 0))).repeatCounter = 1 ∧
    autorepeat Commands.sample
        (silentPolls Commands.sample wrOk .CMDS_SCREEN (List.replicate 9 40)
          (modular20 (List.replicate 20 0)))
      = (EOF, { silentPolls Commands.sample wrOk .CMDS_SCREEN (List.replicate 9 40)
                  (modular20 (List.replicate 20 0)) with repeatCounter := 3 }) :=
  ⟨by decide,
   (autorepeat_idle_reset Commands.sample
      (silentPolls Commands.sample wrOk .CMDS_SCREEN (List.replicate 9 40)
        (modular20 (List.replicate 20 0))) (by decide)).2.1 (by decide) (by decide)⟩

/-- C23 (as stated) fails: on the Modular 20+4 with no key held, the tenth
silent poll after the open brings the countdown to zero in `BDS_READY` and
leaves it at 3, not 10; and once the driver is in `BDS_OFF`, the poll that
brings the countdown to zero leaves it at 1. -/
theorem idle_countdown_not_long_delay :
    (silentPolls Commands.sample wrOk .CMDS_SCREEN (List.replicate 9 40)
      (modular20 (List.replicate 20 0))).repeatCounter = 1 ∧
    (silentPolls Commands.sample wrOk .CMDS_SCREEN (List.replicate 10 40)
      (modular20 (List.replicate 20 0))).currentState = BDS_READY ∧
    (silentPolls Commands.sample wrOk .CMDS_SCREEN (List.replicate 10 40)
      (modular20 (List.replicate 20 0))).currentKeys.front = 0 ∧
    (silentPolls Commands.sample wrOk .CMDS_SCREEN (List.replicate 10 40)
      (modular20 (List.replicate 20 0))).repeatCounter = 3 ∧
    (silentPolls Commands.sample wrOk .CMDS_SCREEN (List.replicate 8 40)
      (brl_readCommand Commands.sample wrOk 40 .CMDS_SCREEN [⟨0x06, true⟩]
        (modular20 (List.replicate 20 0))).driver).repeatCounter = 1 ∧
    (silentPolls Commands.sample wrOk .CMDS_SCREEN (List.replicate 9 40)
      (brl_readCommand Commands.sample wrOk 40 .CMDS_SCREEN [⟨0x06, true⟩]
        (modular20 (List.replicate 20 0))).driver).currentState = BDS_OFF ∧
    (silentPolls Commands.sample wrOk .CMDS_SCREEN (List.replicate 9 40)
      (brl_readCommand Commands.sample wrOk 40 .CMDS_SCREEN [⟨0x06, true⟩]
        (modular20 (List.replicate 20 0))).driver).repeatCounter = 1 := by
  decide

/-! ## Byte dispatch by state -/

theorem callInterpretKeys_state (K : Commands) (keys : Keys) (s : Driver)
    (st : BrailleDisplayState) :
    callInterpretKeys K keys { s with currentState := st } =
      ((callInterpretKeys K keys s).1,
        { (callInterpretKeys K keys s).2 with currentState := st }) := by
  have h1 := callInterpretKeys_congr K keys s ({ s with currentState := st } : Driver) rfl rfl
  have h2 := callInterpretKeys_congr K keys s s rfl rfl
  rw [h1]
  conv => rhs; rw [h2]

theorem interpretIndexedKey_state (K : Commands) (release : Bool) (keys : Keys) (s : Driver)
    (st : BrailleDisplayState) :
    interpretIndexedKey K release keys { s with currentState := st } =
      ((interpretIndexedKey K release keys s).1,
        { (interpretIndexedKey K release keys s).2 with currentState := st }) := by
  have h := callInterpretKeys_state K keys ({ s with currentKeys := keys } : Driver) st
  unfold interpretIndexedKey
  split
  · rfl
  · rw [show ({ ({ s with currentState := st } : Driver) with currentKeys := keys } : Driver)
        = { ({ s with currentKeys := keys } : Driver) with currentState := st } from rfl, h]
    cases hres : (callInterpretKeys K keys { s with currentKeys := keys }).1 <;> simp [hres] <;>
      split <;> simp_all

theorem releaseFrontKey_state (K : Commands) (key : Nat) (s : Driver)
    (st : BrailleDisplayState) :
    releaseFrontKey K key { s with currentState := st } =
      ((releaseFrontKey K key s).1, { (releaseFrontKey K key s).2 with currentState := st }) := by
  have h := callInterpretKeys_state K s.pressedKeys
    ({ s with currentKeys := { s.currentKeys with front := andNot s.currentKeys.front key } }
      : Driver) st
  unfold releaseFrontKey
  split
  · rw [show ({ ({ s with currentState := st } : Driver) with
          currentKeys := { ({ s with currentState := st } : Driver).currentKeys with
            front := andNot ({ s with currentState := st } : Driver).currentKeys.front key } }
          : Driver)
        = { ({ s with currentKeys :=
              { s.currentKeys with front := andNot s.currentKeys.front key } } : Driver) with
            currentState := st } from rfl]
    rw [show ({ s with currentState := st } : Driver).pressedKeys = s.pressedKeys from rfl, h]
    cases hres : (callInterpretKeys K s.pressedKeys
      { s with currentKeys := { s.currentKeys with front := andNot s.currentKeys.front key } }).1
      <;> simp [hres] <;> split <;> simp_all
  · rfl

theorem interpretKeyCode_state (K : Commands) (release : Bool) (byte : Nat) (s : Driver)
    (st : BrailleDisplayState) :
    interpretKeyCode K release byte { s with currentState := st } =
      ((interpretKeyCode K release byte s).1,
        { (interpretKeyCode K release byte s).2 with currentState := st }) := by
  unfold interpretKeyCode
  simp only []
  split
  · exact interpretIndexedKey_state K _ _ _ _
  · split
    · exact interpretIndexedKey_state K _ _ _ _
    · split
      · split
        · exact releaseFrontKey_state K _ _ _
        · rfl
      · rfl

theorem callInterpretByte_state (K : Commands) (context : DriverCommandContext) (byte : Nat)
    (s : Driver) (st : BrailleDisplayState) :
    callInterpretByte K context byte { s with currentState := st } =
      ((callInterpretByte K context byte s).1,
        { (callInterpretByte K context byte s).2 with currentState := st }) := by
  unfold callInterpretByte
  simp only []
  split
  · rfl
  · exact interpretKeyCode_state K (decide (byte &&& KEY_RELEASE ≠ 0))
      (if byte &&& KEY_RELEASE ≠ 0 then byte &&& 0x7F else byte)
      ({ s with currentKeys := { s.currentKeys with column := -1, status := -1 } } : Driver) st
  · rw [show interpretBookwormByte K context byte { s with currentState := st }
        = ((interpretBookwormByte K context byte s).1, { s with currentState := st }) from by
          unfold interpretBookwormByte
          split <;> split <;> rfl]
    rw [interpretBookwormByte_driver]

/-- C24: in every state the byte 0xFE moves the driver to `BDS_IDENTIFYING`;
no registry identifier is 0xFE or 0x06; in `BDS_IDENTIFYING` the byte equal to
the model identifier moves the driver to `BDS_READY` with the dirty flag set
and both key slots null, and any other byte that is neither 0xFE nor 0x06 is
discarded with no change. -/
theorem reannounce_handling (K : Commands) (wr : Nat → Bool) (context : DriverCommandContext)
    (s : Driver) (more : Bool) :
    handleByte K wr context ⟨0xFE, more⟩ s = (none, setState BDS_IDENTIFYING s) ∧
    (setState BDS_IDENTIFYING s).currentState = BDS_IDENTIFYING ∧
    (∀ m, m ∈ Models → m.identifier ≠ 0xFE ∧ m.identifier ≠ 0x06) ∧
    (s.currentState = BDS_IDENTIFYING → s.model.identifier ≠ 0xFE →
      s.model.identifier ≠ 0x06 →
      handleByte K wr context ⟨s.model.identifier, more⟩ s =
        (none, { s with
          currentState := BDS_READY
          retryCount := 0
          stateTimer := 0
          updateRequired := true
          currentKeys := s.nullKeys
          pressedKeys := s.nullKeys })) ∧
    (s.currentState = BDS_IDENTIFYING →
      ∀ r : Rx, r.byte ≠ 0xFE → r.byte ≠ 0x06 → r.byte ≠ s.model.identifier →
        handleByte K wr context r s = (none, s)) := by
  refine ⟨by simp [handleByte], ?_, by decide, ?_, ?_⟩
  · unfold setState
    split
    · next h => exact h.symm
    · rfl
  · intro hs hfe h6
    simp [handleByte, hs, hfe, h6, setState]
  · intro hs r hfe h6 hid
    simp [handleByte, hs, hfe, h6, hid]

theorem reannounce_handling_witness :
    (setState BDS_IDENTIFYING (modular20 (List.replicate 20 0))).currentState
      = BDS_IDENTIFYING ∧
    handleByte Commands.sample wrOk .CMDS_SCREEN ⟨0x41, false⟩
        (setState BDS_IDENTIFYING (modular20 (List.replicate 20 0)))
      = (none, setState BDS_IDENTIFYING (modular20 (List.replicate 20 0))) :=
  ⟨by decide,
   (reannounce_handling Commands.sample wrOk .CMDS_SCREEN
      (setState BDS_IDENTIFYING (modular20 (List.replicate 20 0))) false).2.2.2.2
      (by decide) ⟨0x41, false⟩ (by decide) (by decide) (by decide)⟩

theorem readyByte_in_writing (K : Commands) (wr : Nat → Bool)
    (context : DriverCommandContext) (byte : Nat) (s : Driver)
    (hs : s.currentState = BDS_WRITING) :
    (readyByte K wr context byte s).1 = (callInterpretByte K context byte s).1 ∧
    (readyByte K wr context byte s).2.currentKeys
      = (callInterpretByte K context byte s).2.currentKeys ∧
    (readyByte K wr context byte s).2.pressedKeys
      = (callInterpretByte K context byte s).2.pressedKeys ∧
    (readyByte K wr context byte s).2.inputMode
      = (callInterpretByte K context byte s).2.inputMode ∧
    (readyByte K wr context byte s).2.currentState = BDS_WRITING ∧
    (readyByte K wr context byte s).2.log = s.log := by
  obtain ⟨_, _, _, _, _, _, _, hst, _, _, _, hlog⟩ :=
    protocol_fields (callInterpretByte_protocol K context byte s)
  rcases hres : callInterpretByte K context byte s with ⟨o, s1⟩
  rw [hres] at hst hlog
  simp only at hst hlog
  cases o with
  | some c =>
    have hidle : updateBrailleCells wr ({ s1 with repeatCounter := repeatDelay } : Driver)
        = (true, { s1 with repeatCounter := repeatDelay }) :=
      updateBrailleCells_idle wr _ (by simp [hst, hs])
    simp only [readyByte, hres, hidle]
    exact ⟨trivial, trivial, trivial, trivial, hst.trans hs, hlog⟩
  | none =>
    simp only [readyByte, hres]
    exact ⟨trivial, trivial, trivial, trivial, hst.trans hs, hlog⟩

theorem readyByte_keys (K : Commands) (wr : Nat → Bool)
    (context : DriverCommandContext) (byte : Nat) (s : Driver) :
    (readyByte K wr context byte s).1 = (callInterpretByte K context byte s).1 ∧
    (readyByte K wr context byte s).2.currentKeys
      = (callInterpretByte K context byte s).2.currentKeys ∧
    (readyByte K wr context byte s).2.pressedKeys
      = (callInterpretByte K context byte s).2.pressedKeys ∧
    (readyByte K wr context byte s).2.inputMode
      = (callInterpretByte K context byte s).2.inputMode := by
  rcases hres : callInterpretByte K context byte s with ⟨o, s1⟩
  cases o with
  | some c =>
    obtain ⟨_, h2, h3, _, h5⟩ :=
      updateBrailleCells_repeat wr ({ s1 with repeatCounter := repeatDelay } : Driver)
    simp only [readyByte, hres]
    rw [h2, h3, h5]
    simp
  | none =>
    simp [readyByte, hres]

/-- C25: in `BDS_WRITING` the byte 0x7E moves the driver to `BDS_READY` and
leaves the dirty flag as it was; the byte 0x7D sets the dirty flag and moves
the driver to `BDS_READY`; any other byte that is neither 0xFE nor 0x06
yields the command and the key variables it would yield if the state were
`BDS_READY`, while the state stays `BDS_WRITING` and nothing is written. -/
theorem writing_acknowledgement (K : Commands) (wr : Nat → Bool)
    (context : DriverCommandContext) (s : Driver) (more : Bool)
    (hs : s.currentState = BDS_WRITING) :
    handleByte K wr context ⟨0x7E, more⟩ s =
      (none, { s with currentState := BDS_READY, retryCount := 0, stateTimer := 0 }) ∧
    handleByte K wr context ⟨0x7D, more⟩ s =
      (none, { s with
        currentState := BDS_READY
        retryCount := 0
        stateTimer := 0
        updateRequired := true }) ∧
    (∀ r : Rx, r.byte ≠ 0x7E → r.byte ≠ 0x7D → r.byte ≠ 0xFE → r.byte ≠ 0x06 →
      (handleByte K wr context r s).1
        = (handleByte K wr context r { s with currentState := BDS_READY }).1 ∧
      (handleByte K wr context r s).2.currentKeys
        = (handleByte K wr context r { s with currentState := BDS_READY }).2.currentKeys ∧
      (handleByte K wr context r s).2.pressedKeys
        = (handleByte K wr context r { s with currentState := BDS_READY }).2.pressedKeys ∧
      (handleByte K wr context r s).2.inputMode
        = (handleByte K wr context r { s with currentState := BDS_READY }).2.inputMode ∧
      (handleByte K wr context r s).2.currentState = BDS_WRITING ∧
      (handleByte K wr context r s).2.log = s.log) := by
  refine ⟨by simp [handleByte, hs, setState], by simp [handleByte, hs, setState], ?_⟩
  intro r h7e h7d hfe h6
  have hw : handleByte K wr context r s = readyByte K wr context r.byte s := by
    simp [handleByte, hs, h7e, h7d, hfe, h6]
  have hr : handleByte K wr context r { s with currentState := BDS_READY }
      = readyByte K wr context r.byte { s with currentState := BDS_READY } := by
    simp [handleByte, hfe, h6]
  obtain ⟨w1, w2, w3, w4, w5, w6⟩ := readyByte_in_writing K wr context r.byte s hs
  obtain ⟨r1, r2, r3, r4⟩ :=
    readyByte_keys K wr context r.byte ({ s with currentState := BDS_READY } : Driver)
  have hc := callInterpretByte_state K context r.byte s BDS_READY
  rw [hw, hr, w1, w2, w3, w4, r1, r2, r3, r4, hc]
  exact ⟨rfl, rfl, rfl, rfl, w5, w6⟩

theorem writing_acknowledgement_witness :
    (brl_writeWindow wrOk (window (List.replicate 20 0))
      (modular20 (List.replicate 20 0xFF))).currentState = BDS_WRITING ∧
    (handleByte Commands.sample wrOk .CMDS_SCREEN ⟨0x7E, false⟩
      (brl_writeWindow wrOk (window (List.replicate 20 0))
        (modular20 (List.replicate 20 0xFF)))).2.currentState = BDS_READY :=
  ⟨by decide,
   by
    rw [(writing_acknowledgement Commands.sample wrOk .CMDS_SCREEN
      (brl_writeWindow wrOk (window (List.replicate 20 0))
        (modular20 (List.replicate 20 0xFF))) false (by decide)).1]⟩

/-- C26: a byte other than 0xFE is discarded with the driver unchanged when
the state is `BDS_OFF`; when the state is `BDS_RESETTING` and the byte is not
0x06; and when the state is `BDS_IDENTIFYING` and the byte is neither 0x06 nor
the model identifier. -/
theorem stray_bytes_discarded (K : Commands) (wr : Nat → Bool)
    (context : DriverCommandContext) (r : Rx) (s : Driver) (hfe : r.byte ≠ 0xFE) :
    (s.currentState = BDS_OFF → handleByte K wr context r s = (none, s)) ∧
    (s.currentState = BDS_RESETTING → r.byte ≠ 0x06 →
      handleByte K wr context r s = (none, s)) ∧
    (s.currentState = BDS_IDENTIFYING → r.byte ≠ 0x06 → r.byte ≠ s.model.identifier →
      handleByte K wr context r s = (none, s)) := by
  refine ⟨fun hs => ?_, fun hs h6 => ?_, fun hs h6 hid => ?_⟩
  · simp [handleByte, hs, hfe]
  · simp [handleByte, hs, hfe, h6]
  · simp [handleByte, hs, hfe, h6, hid]

theorem stray_bytes_discarded_witness :
    (0x41 : Nat) ≠ 0xFE ∧
    handleByte Commands.sample wrOk .CMDS_SCREEN ⟨0x41, false⟩
        (setState BDS_OFF (modular20 (List.replicate 20 0)))
      = (none, setState BDS_OFF (modular20 (List.replicate 20 0))) :=
  ⟨by decide,
   (stray_bytes_discarded Commands.sample wrOk .CMDS_SCREEN ⟨0x41, false⟩
      (setState BDS_OFF (modular20 (List.replicate 20 0))) (by decide)).1 (by decide)⟩

/-- C29: `updateBrailleCells` writes to the line exactly when the dirty flag
is set and the state is `BDS_READY`.  When the write succeeds the state
becomes `BDS_WRITING` with retry count 0 and timer 0 and the dirty flag is
cleared; when it fails the state becomes `BDS_OFF` and the dirty flag stays
set; when nothing is written the driver is unchanged. -/
theorem frame_flush_rule (wr : Nat → Bool) (s : Driver) :
    ((updateBrailleCells wr s).2.log ≠ s.log ↔
      (s.updateRequired = true ∧ s.currentState = BDS_READY)) ∧
    (s.updateRequired = true ∧ s.currentState = BDS_READY → wr s.log.length = true →
      updateBrailleCells wr s =
        (true, { s with
          log := s.log ++ [⟨frameOf s, true⟩]
          currentState := BDS_WRITING
          retryCount := 0
          stateTimer := 0
          updateRequired := false })) ∧
    (s.updateRequired = true ∧ s.currentState = BDS_READY → wr s.log.length = false →
      updateBrailleCells wr s =
        (false, { s with
          log := s.log ++ [⟨frameOf s, false⟩]
          currentState := BDS_OFF
          retryCount := 0
          stateTimer := 0
          updateRequired := true })) ∧
    (¬(s.updateRequired = true ∧ s.currentState = BDS_READY) →
      updateBrailleCells wr s = (true, s)) := by
  refine ⟨?_, fun h hw => updateBrailleCells_sent wr s h.1 h.2 hw, fun h hw => ?_,
    fun h => updateBrailleCells_idle wr s h⟩
  · by_cases h : s.updateRequired = true ∧ s.currentState = BDS_READY
    · simp only [h, and_self, iff_true]
      cases hw : wr s.log.length
      · rw [updateBrailleCells_failed wr s h.1 h.2 hw]; simp
      · rw [updateBrailleCells_sent wr s h.1 h.2 hw]; simp
    · rw [updateBrailleCells_idle wr s h]
      simp [h]
  · rw [updateBrailleCells_failed wr s h.1 h.2 hw, ← h.1]

theorem frame_flush_rule_witness :
    ¬((modular20 (List.replicate 20 0)).updateRequired = true ∧
      (modular20 (List.replicate 20 0)).currentState = BDS_READY) ∧
    updateBrailleCells wrOk (modular20 (List.replicate 20 0))
      = (true, modular20 (List.replicate 20 0)) :=
  ⟨by decide, (frame_flush_rule wrOk (modular20 (List.replicate 20 0))).2.2.2 (by decide)⟩

/-! ## Recovery in Resetting -/

theorem silent_poll_after_recovery (K : Commands) (wr : Nat → Bool) (tick : Nat)
    (context : DriverCommandContext) (s : Driver) :
    (brl_readCommand K wr tick context [] s).driver =
      (autorepeat K (updateBrailleCells wr
        (timeoutRecovery wr { s with stateTimer := s.stateTimer + tick })).2).2 := by
  simp [brl_readCommand, readLoop, afterLoop]

theorem silent_poll_not_ready (K : Commands) (wr : Nat → Bool) (tick : Nat)
    (context : DriverCommandContext) (s t : Driver)
    (hrec : timeoutRecovery wr { s with stateTimer := s.stateTimer + tick } = t)
    (hnr : t.currentState ≠ BDS_READY) :
    (brl_readCommand K wr tick context [] s).driver.currentState = t.currentState ∧
    (brl_readCommand K wr tick context [] s).driver.retryCount = t.retryCount ∧
    (brl_readCommand K wr tick context [] s).driver.stateTimer = t.stateTimer ∧
    (brl_readCommand K wr tick context [] s).driver.log = t.log := by
  rw [silent_poll_after_recovery, hrec, updateBrailleCells_idle wr t (by simp [hnr])]
  obtain ⟨a1, a2, a3, _, a5, _⟩ := autorepeat_fields K t
  exact ⟨a1, a2, a3, a5⟩

theorem silent_poll_resetting (K : Commands) (wr : Nat → Bool) (tick : Nat)
    (context : DriverCommandContext) (s : Driver)
    (hs : s.currentState = BDS_RESETTING) (ht : 3000 < s.stateTimer + tick) :
    (3 < s.retryCount →
      (brl_readCommand K wr tick context [] s).driver.currentState = BDS_OFF ∧
      (brl_readCommand K wr tick context [] s).driver.log = s.log) ∧
    (s.retryCount ≤ 3 → wr s.log.length = true →
      (brl_readCommand K wr tick context [] s).driver.currentState = BDS_RESETTING ∧
      (brl_readCommand K wr tick context [] s).driver.retryCount = s.retryCount + 1 ∧
      (brl_readCommand K wr tick context [] s).driver.stateTimer = 0 ∧
      (brl_readCommand K wr tick context [] s).driver.log = s.log ++ [⟨HandyDescribe, true⟩]) ∧
    (s.retryCount ≤ 3 → wr s.log.length = false →
      (brl_readCommand K wr tick context [] s).driver.currentState = BDS_OFF ∧
      (brl_readCommand K wr tick context [] s).driver.log
        = s.log ++ [⟨HandyDescribe, false⟩]) := by
  refine ⟨fun hr => ?_, fun hr hw => ?_, fun hr hw => ?_⟩
  · have hrec : timeoutRecovery wr { s with stateTimer := s.stateTimer + tick }
        = { s with stateTimer := 0, retryCount := 0, currentState := BDS_OFF } := by
      simp [timeoutRecovery, hs, ht, hr, setState]
    obtain ⟨h1, _, _, h4⟩ := silent_poll_not_ready K wr tick context s _ hrec (by simp)
    exact ⟨h1, h4⟩
  · have hnr : ¬ 3 < s.retryCount := by omega
    have hrec : timeoutRecovery wr { s with stateTimer := s.stateTimer + tick }
        = { s with
            stateTimer := 0
            retryCount := s.retryCount + 1
            log := s.log ++ [⟨HandyDescribe, true⟩] } := by
      simp [timeoutRecovery, hs, ht, hnr, writeBytes, hw, setState]
    obtain ⟨h1, h2, h3, h4⟩ := silent_poll_not_ready K wr tick context s _ hrec (by simp [hs])
    exact ⟨h1.trans hs, h2, h3, h4⟩
  · have hnr : ¬ 3 < s.retryCount := by omega
    have hrec : timeoutRecovery wr { s with stateTimer := s.stateTimer + tick }
        = { s with
            stateTimer := 0
            retryCount := 0
            currentState := BDS_OFF
            log := s.log ++ [⟨HandyDescribe, false⟩] } := by
      simp [timeoutRecovery, hs, ht, hnr, writeBytes, hw, setState]
    obtain ⟨h1, _, _, h4⟩ := silent_poll_not_ready K wr tick context s _ hrec (by simp)
    exact ⟨h1, h4⟩

theorem resetting_retry_run (K : Commands) (wr : Nat → Bool) (context : DriverCommandContext)
    (hwr : ∀ n, wr n = true) (ticks : List Nat) (hticks : ∀ t, t ∈ ticks → 3000 < t)
    (s : Driver) (hs : s.currentState = BDS_RESETTING)
    (hr : s.retryCount + ticks.length ≤ 4) :
    (silentPolls K wr context ticks s).currentState = BDS_RESETTING ∧
    (silentPolls K wr context ticks s).retryCount = s.retryCount + ticks.length ∧
    (silentPolls K wr context ticks s).log
      = s.log ++ List.replicate ticks.length ⟨HandyDescribe, true⟩ := by
  induction ticks generalizing s with
  | nil => exact ⟨hs, rfl, by simp [silentPolls]⟩
  | cons tick ticks ih =>
    have ht : 3000 < s.stateTimer + tick := by
      have := hticks tick (List.mem_cons_self _ _)
      omega
    simp only [List.length_cons] at hr
    obtain ⟨h1, h2, _, h4⟩ :=
      (silent_poll_resetting K wr tick context s hs ht).2.1 (by omega) (hwr _)
    have := ih (fun t h => hticks t (List.mem_cons_of_mem _ h))
      (brl_readCommand K wr tick context [] s).driver h1 (by rw [h2]; omega)
    simp only [silentPolls, List.length_cons]
    refine ⟨this.1, by rw [this.2.1, h2]; omega, ?_⟩
    rw [this.2.2, h4, List.append_assoc]
    rfl

/-- C27: a poll in `BDS_RESETTING` that reads nothing with more than 3000 ms
on the state timer moves to `BDS_OFF` without writing when the retry count
exceeds 3; otherwise it writes one describe probe, and stays in
`BDS_RESETTING` with the retry count one higher and the timer at 0 when the
write succeeds, or moves to `BDS_OFF` when it fails.  So from a retry count of
0, on a silent line on which every write succeeds, the first four expiries
each send a probe and the fifth moves the driver to `BDS_OFF` with no further
write. -/
theorem resetting_recovery (K : Commands) (wr : Nat → Bool) (tick : Nat)
    (context : DriverCommandContext) (s : Driver)
    (hs : s.currentState = BDS_RESETTING) (ht : 3000 < s.stateTimer + tick) :
    (3 < s.retryCount →
      (brl_readCommand K wr tick context [] s).driver.currentState = BDS_OFF ∧
      (brl_readCommand K wr tick context [] s).driver.log = s.log) ∧
    (s.retryCount ≤ 3 → wr s.log.length = true →
      (brl_readCommand K wr tick context [] s).driver.currentState = BDS_RESETTING ∧
      (brl_readCommand K wr tick context [] s).driver.retryCount = s.retryCount + 1 ∧
      (brl_readCommand K wr tick context [] s).driver.stateTimer = 0 ∧
      (brl_readCommand K wr tick context [] s).driver.log = s.log ++ [⟨HandyDescribe, true⟩]) ∧
    (s.retryCount ≤ 3 → wr s.log.length = false →
      (brl_readCommand K wr tick context [] s).driver.currentState = BDS_OFF) ∧
    (s.retryCount = 0 → (∀ n, wr n = true) →
      ∀ t1 t2 t3 t4 t5, 3000 < t1 → 3000 < t2 → 3000 < t3 → 3000 < t4 → 3000 < t5 →
        (silentPolls K wr context [t1, t2, t3, t4] s).currentState = BDS_RESETTING ∧
        (silentPolls K wr context [t1, t2, t3, t4] s).log
          = s.log ++ List.replicate 4 ⟨HandyDescribe, true⟩ ∧
        (silentPolls K wr context [t1, t2, t3, t4, t5] s).currentState = BDS_OFF ∧
        (silentPolls K wr context [t1, t2, t3, t4, t5] s).log
          = s.log ++ List.replicate 4 ⟨HandyDescribe, true⟩) := by
  obtain ⟨a, b, c⟩ := silent_poll_resetting K wr tick context s hs ht
  refine ⟨a, b, fun hr hw => (c hr hw).1, ?_⟩
  intro hr0 hwr t1 t2 t3 t4 t5 h1 h2 h3 h4 h5
  have hrun := resetting_retry_run K wr context hwr [t1, t2, t3, t4]
    (by
      intro t hmem
      simp only [List.mem_cons, List.mem_singleton, List.not_mem_nil, or_false] at hmem
      rcases hmem with rfl | rfl | rfl | rfl <;> assumption)
    s hs (by rw [hr0]; rfl)
  obtain ⟨r1, r2, r3⟩ := hrun
  have hsplit : silentPolls K wr context [t1, t2, t3, t4, t5] s
      = (brl_readCommand K wr t5 context []
          (silentPolls K wr context [t1, t2, t3, t4] s)).driver := rfl
  have hlast := (silent_poll_resetting K wr t5 context
    (silentPolls K wr context [t1, t2, t3, t4] s) r1 (by omega)).1
    (by rw [r2, hr0]; simp)
  refine ⟨r1, r3, ?_, ?_⟩
  · rw [hsplit]; exact hlast.1
  · rw [hsplit, hlast.2]; exact r3

theorem resetting_recovery_witness :
    (setState BDS_RESETTING (modular20 (List.replicate 20 0))).currentState = BDS_RESETTING ∧
    (brl_readCommand Commands.sample wrOk 3001 .CMDS_SCREEN []
      (setState BDS_RESETTING (modular20 (List.replicate 20 0)))).driver.retryCount = 1 :=
  ⟨by decide,
   ((resetting_recovery Commands.sample wrOk 3001 .CMDS_SCREEN
      (setState BDS_RESETTING (modular20 (List.replicate 20 0))) (by decide) (by decide)).2.1
      (by decide) (by decide)).2.1⟩

/-! ## Settling on a silent line -/

theorem recoveryRank_congr (s t : Driver) (h1 : s.currentState = t.currentState)
    (h2 : s.retryCount = t.retryCount) (h3 : s.stateTimer = t.stateTimer) :
    recoveryRank s = recoveryRank t := by
  simp only [recoveryRank, h1, h2, h3]

theorem timeoutRecovery_rank (wr : Nat → Bool) (tick : Nat) (s : Driver) (htick : 0 < tick)
    (hs : s.currentState = BDS_OFF ∨ s.currentState = BDS_RESETTING ∨
      s.currentState = BDS_IDENTIFYING) :
    ((timeoutRecovery wr { s with stateTimer := s.stateTimer + tick }).currentState = BDS_OFF ∨
      (timeoutRecovery wr { s with stateTimer := s.stateTimer + tick }).currentState
        = BDS_RESETTING ∨
      (timeoutRecovery wr { s with stateTimer := s.stateTimer + tick }).currentState
        = BDS_IDENTIFYING) ∧
    recoveryRank (timeoutRecovery wr { s with stateTimer := s.stateTimer + tick })
      ≤ recoveryRank s - 1 := by
  rcases hs with hs | hs | hs
  · simp [timeoutRecovery, hs, recoveryRank]
  · by_cases ht : 3000 < s.stateTimer + tick
    · by_cases hr : 3 < s.retryCount
      · simp [timeoutRecovery, hs, ht, hr, setState, recoveryRank]
      · cases hw : wr s.log.length
        · simp [timeoutRecovery, hs, ht, hr, writeBytes, hw, setState, recoveryRank]
        · simp [timeoutRecovery, hs, ht, hr, writeBytes, hw, setState, recoveryRank]
          omega
    · simp [timeoutRecovery, hs, ht, recoveryRank]
      omega
  · by_cases ht : 1000 < s.stateTimer + tick
    · cases hw : wr s.log.length
      · simp [timeoutRecovery, hs, ht, writeBytes, hw, setState, recoveryRank]
      · simp [timeoutRecovery, hs, ht, writeBytes, hw, setState, recoveryRank]
    · simp [timeoutRecovery, hs, ht, recoveryRank]
      omega

theorem silent_poll_rank (K : Commands) (wr : Nat → Bool) (tick : Nat)
    (context : DriverCommandContext) (s : Driver) (htick : 0 < tick)
    (hs : s.currentState = BDS_OFF ∨ s.currentState = BDS_RESETTING ∨
      s.currentState = BDS_IDENTIFYING) :
    ((brl_readCommand K wr tick context [] s).driver.currentState = BDS_OFF ∨
      (brl_readCommand K wr tick context [] s).driver.currentState = BDS_RESETTING ∨
      (brl_readCommand K wr tick context [] s).driver.currentState = BDS_IDENTIFYING) ∧
    recoveryRank (brl_readCommand K wr tick context [] s).driver ≤ recoveryRank s - 1 := by
  obtain ⟨hst, hrank⟩ := timeoutRecovery_rank wr tick s htick hs
  have hnr : (timeoutRecovery wr { s with stateTimer := s.stateTimer + tick }).currentState
      ≠ BDS_READY := by
    rcases hst with h | h | h <;> simp [h]
  obtain ⟨h1, h2, h3, _⟩ := silent_poll_not_ready K wr tick context s _ rfl hnr
  rw [recoveryRank_congr _ _ h1 h2 h3, h1]
  exact ⟨hst, hrank⟩

theorem silent_polls_rank (K : Commands) (wr : Nat → Bool) (context : DriverCommandContext)
    (ticks : List Nat) (hpos : ∀ t, t ∈ ticks → 0 < t) (s : Driver)
    (hs : s.currentState = BDS_OFF ∨ s.currentState = BDS_RESETTING ∨
      s.currentState = BDS_IDENTIFYING) :
    ((silentPolls K wr context ticks s).currentState = BDS_OFF ∨
      (silentPolls K wr context ticks s).currentState = BDS_RESETTING ∨
      (silentPolls K wr context ticks s).currentState = BDS_IDENTIFYING) ∧
    recoveryRank (silentPolls K wr context ticks s) ≤ recoveryRank s - ticks.length := by
  induction ticks generalizing s with
  | nil => exact ⟨hs, by simp [silentPolls]⟩
  | cons tick ticks ih =>
    obtain ⟨h1, h2⟩ := silent_poll_rank K wr tick context s
      (hpos tick (List.mem_cons_self _ _)) hs
    obtain ⟨i1, i2⟩ := ih (fun t h => hpos t (List.mem_cons_of_mem _ h))
      (brl_readCommand K wr tick context [] s).driver h1
    simp only [silentPolls, List.length_cons]
    exact ⟨i1, by omega⟩

theorem recoveryRank_bound (s : Driver) : recoveryRank s ≤ 16012 := by
  unfold recoveryRank
  split <;> omega

theorem recoveryRank_zero (s : Driver)
    (hs : s.currentState = BDS_OFF ∨ s.currentState = BDS_RESETTING ∨
      s.currentState = BDS_IDENTIFYING) (h0 : recoveryRank s = 0) :
    s.currentState = BDS_OFF := by
  rcases hs with hs | hs | hs
  · exact hs
  · simp [recoveryRank, hs] at h0
  · simp [recoveryRank, hs] at h0

/-- C28 (evaluated on the code): on a line that stays silent, with every poll
adding a positive tick, a driver in `BDS_RESETTING` or `BDS_IDENTIFYING` is in
`BDS_OFF` after any 16012 polls or more; but a driver in `BDS_WRITING` with a
retry count of at most 3 is still in `BDS_WRITING` after any number of polls,
so from `BDS_WRITING` the driver never settles into `BDS_OFF`. -/
theorem dead_link_settling (K : Commands) (wr : Nat → Bool) (context : DriverCommandContext)
    (ticks : List Nat) (s : Driver) (hpos : ∀ t, t ∈ ticks → 0 < t) :
    ((s.currentState = BDS_RESETTING ∨ s.currentState = BDS_IDENTIFYING) →
      16012 ≤ ticks.length →
      (silentPolls K wr context ticks s).currentState = BDS_OFF) ∧
    (s.currentState = BDS_WRITING → s.retryCount ≤ 3 →
      (silentPolls K wr context ticks s).currentState = BDS_WRITING ∧
      (silentPolls K wr context ticks s).currentState ≠ BDS_OFF) := by
  refine ⟨fun hs hlen => ?_, fun hs hr => ?_⟩
  · obtain ⟨h1, h2⟩ := silent_polls_rank K wr context ticks hpos s (Or.inr hs)
    have := recoveryRank_bound s
    exact recoveryRank_zero _ h1 (by omega)
  · have hall : ∀ (l : List Nat) (d : Driver), d.currentState = BDS_WRITING →
        d.retryCount ≤ 3 → (silentPolls K wr context l d).currentState = BDS_WRITING := by
      intro l
      induction l with
      | nil => intro d hd _; exact hd
      | cons tick l ih =>
        intro d hd hdr
        obtain ⟨h1, h2, _⟩ := silent_poll_writing K wr tick context d hd hdr
        exact ih _ h1 (h2 ▸ hdr)
    have hw := hall ticks s hs hr
    exact ⟨hw, by rw [hw]; decide⟩

theorem dead_link_settling_witness :
    (∀ t, t ∈ [400, 400, 400, 5000, 5000, 5000, 5000, 5000] → 0 < t) ∧
    (brl_writeWindow wrOk (window (List.replicate 20 0))
        (modular20 (List.replicate 20 0xFF))).currentState = BDS_WRITING ∧
    (brl_writeWindow wrOk (window (List.replicate 20 0))
        (modular20 (List.replicate 20 0xFF))).retryCount ≤ 3 ∧
    (silentPolls Commands.sample wrOk .CMDS_SCREEN [400, 400, 400, 5000, 5000, 5000, 5000, 5000]
      (brl_writeWindow wrOk (window (List.replicate 20 0))
        (modular20 (List.replicate 20 0xFF)))).currentState ≠ BDS_OFF ∧
    (silentPolls Commands.sample wrOk .CMDS_SCREEN (List.replicate 16012 1)
      (setState BDS_RESETTING (modular20 (List.replicate 20 0)))).currentState = BDS_OFF :=
  ⟨by decide, by decide, by decide,
   ((dead_link_settling Commands.sample wrOk .CMDS_SCREEN
      [400, 400, 400, 5000, 5000, 5000, 5000, 5000]
      (brl_writeWindow wrOk (window (List.replicate 20 0))
        (modular20 (List.replicate 20 0xFF))) (by decide)).2 (by decide) (by decide)).2,
   (dead_link_settling Commands.sample wrOk .CMDS_SCREEN (List.replicate 16012 1)
      (setState BDS_RESETTING (modular20 (List.replicate 20 0)))
      (fun t h => by rw [List.eq_of_mem_replicate h]; decide)).1
      (Or.inl (by decide)) (le_of_eq (List.length_replicate _ _).symm)⟩

/-! ## Front key steps -/

theorem press_front_key_eq (K : Commands) (context : DriverCommandContext) (k : Nat)
    (s : Driver) (hk : k < 0x20) :
    interpretKeyByte K context k s =
      (some (K.CMD_NOOP : Int),
        { s with
          currentKeys := ⟨s.currentKeys.front ||| KEY k, -1, -1⟩
          pressedKeys := ⟨s.currentKeys.front ||| KEY k, -1, -1⟩ }) := by
  have hr : ¬(k ≥ KEY_ROUTING ∧ k < KEY_ROUTING + s.model.columns) := by
    simp only [KEY_ROUTING]; omega
  have hst : ¬(k ≥ KEY_STATUS ∧ k < KEY_STATUS + s.model.statusCells) := by
    simp only [KEY_STATUS]; omega
  have hmod : k % 128 = k := Nat.mod_eq_of_lt (by omega)
  have h128 : ¬ 128 ≤ k := by omega
  rw [interpretKeyByte_code K context k s (by omega), hmod]
  simp [interpretKeyCode, clearIndices, hr, hst, hk, h128, pressFrontKey]

theorem release_front_key_eq (K : Commands) (context : DriverCommandContext) (k : Nat)
    (s : Driver) (hk : k < 0x20) :
    interpretKeyByte K context (k ||| 0x80) s =
      if s.pressedKeys.front ≠ 0 then
        (some ((callInterpretKeys K s.pressedKeys s).1.getD EOF),
          { s with
            currentKeys := ⟨andNot s.currentKeys.front (KEY k), -1, -1⟩
            pressedKeys := s.nullKeys
            inputMode := (callInterpretKeys K s.pressedKeys s).2.inputMode })
      else
        (some EOF, { s with currentKeys := ⟨andNot s.currentKeys.front (KEY k), -1, -1⟩ }) := by
  obtain ⟨_, _, hrel, _, _⟩ := front_key_facts k hk
  have hr : ¬(k ≥ KEY_ROUTING ∧ k < KEY_ROUTING + s.model.columns) := by
    simp only [KEY_ROUTING]; omega
  have hst : ¬(k ≥ KEY_STATUS ∧ k < KEY_STATUS + s.model.statusCells) := by
    simp only [KEY_STATUS]; omega
  have hmod2 : (k + 128) % 128 = k := by omega
  have h128 : 128 ≤ k + 128 := by omega
  rw [hrel, interpretKeyByte_code K context (k + 128) _ (by omega), hmod2]
  have hcall := callInterpretKeys_congr K s.pressedKeys s
    ({ s with currentKeys := ⟨andNot s.currentKeys.front (KEY k), -1, -1⟩ } : Driver) rfl rfl
  by_cases hpf : s.pressedKeys.front = 0
  · simp only [interpretKeyCode, clearIndices, hr, hst, hk, h128, if_false, if_true,
      decide_True, releaseFrontKey, ne_eq, hpf, not_true_eq_false]
  · simp only [interpretKeyCode, clearIndices, hr, hst, hk, h128, if_false, if_true,
      decide_True, releaseFrontKey, ne_eq, hpf, not_false_eq_true]
    rw [hcall]
    cases hres : (callInterpretKeys K s.pressedKeys s).1 <;> simp

theorem key_ne_zero (k : Nat) (hk : k < 0x20) : KEY k ≠ 0 := (front_key_facts k hk).1

theorem or_ne_zero_left (x y : Nat) (hx : x ≠ 0) : x ||| y ≠ 0 := by
  obtain ⟨i, hi⟩ := Nat.ne_zero_implies_bit_true hx
  intro h
  have hb : (x ||| y).testBit i = true := by
    rw [Nat.testBit_or, hi]
    rfl
  rw [h, Nat.zero_testBit] at hb
  exact absurd hb (by decide)

theorem chordMask_of_ne_zero (codes : List Nat) (front : Nat) (hf : front ≠ 0) :
    chordMask codes front ≠ 0 := by
  induction codes generalizing front with
  | nil => exact hf
  | cons c codes ih => exact ih (front ||| KEY c) (or_ne_zero_left _ _ hf)

theorem chordMask_ne_zero (c : Nat) (codes : List Nat) (front : Nat) (hc : c < 0x20) :
    chordMask (c :: codes) front ≠ 0 := by
  have hstep : chordMask (c :: codes) front = chordMask codes (front ||| KEY c) := rfl
  rw [hstep]
  apply chordMask_of_ne_zero
  rw [Nat.or_comm]
  exact or_ne_zero_left _ _ (key_ne_zero c hc)

theorem feed_presses (K : Commands) (context : DriverCommandContext) (codes : List Nat)
    (c : Nat) (s : Driver) (hcodes : ∀ x, x ∈ c :: codes → x < 0x20) :
    feedKeyBytes K context (c :: codes) s =
      { s with
        currentKeys := ⟨chordMask (c :: codes) s.currentKeys.front, -1, -1⟩
        pressedKeys := ⟨chordMask (c :: codes) s.currentKeys.front, -1, -1⟩ } := by
  induction codes generalizing c s with
  | nil =>
    simp only [feedKeyBytes]
    rw [press_front_key_eq K context c s (hcodes c (List.mem_cons_self _ _))]
    rfl
  | cons d codes ih =>
    have hstep : feedKeyBytes K context (c :: d :: codes) s
        = feedKeyBytes K context (d :: codes) (interpretKeyByte K context c s).2 := rfl
    rw [hstep, press_front_key_eq K context c s (hcodes c (List.mem_cons_self _ _)),
      ih d _ (fun x hx => hcodes x (List.mem_cons_of_mem _ hx))]
    rfl

theorem releases_keep_no_chord (K : Commands) (context : DriverCommandContext)
    (codes : List Nat) (t : Driver) (hcodes : ∀ x, x ∈ codes → x < 0x20)
    (hp : t.pressedKeys.front = 0) :
    (feedKeyBytes K context (codes.map (fun x => x ||| 0x80)) t).pressedKeys.front = 0 := by
  induction codes generalizing t with
  | nil => exact hp
  | cons c codes ih =>
    have hstep : feedKeyBytes K context ((c :: codes).map (fun x => x ||| 0x80)) t
        = feedKeyBytes K context (codes.map (fun x => x ||| 0x80))
            (interpretKeyByte K context (c ||| 0x80) t).2 := rfl
    rw [hstep]
    apply ih _ (fun x hx => hcodes x (List.mem_cons_of_mem _ hx))
    rw [release_front_key_eq K context c t (hcodes c (List.mem_cons_self _ _)),
      if_neg (by simpa using hp)]
    exact hp

theorem autorepeat_held_mask (K : Commands) (t : Driver) (command : Int)
    (hst : t.currentState = BDS_READY ∨ t.currentState = BDS_WRITING)
    (hfront : t.currentKeys.front ≠ 0) (hcol : t.currentKeys.column < 0)
    (hstat : t.currentKeys.status < 0)
    (hrec : (callInterpretKeys K t.currentKeys t).1 = some command) :
    (autorepeat K { t with repeatCounter := 1 }).1 = command := by
  have hcall := callInterpretKeys_congr K t.currentKeys t
    ({ t with repeatCounter := repeatInterval } : Driver) rfl rfl
  simp only [autorepeat, sub_self, if_true, hst, hfront, hcol, hstat, ne_eq,
    not_false_eq_true, and_self, hcall, hrec]

/-- C34 (as amended): after the keys `k1, ...` have been pressed in a row
and one of them has been released, which resolves the chord, every release
byte of a front key that follows with no press in between reports `EOF`.
Autorepeat is not held back: the current keys are then the front mask still
held with both indices at -1, and with the countdown at 1 in `BDS_READY` or
`BDS_WRITING` the poll tail returns the keyset command of that mask whenever
the mask is not 0 and the keyset recognises it. -/
theorem chord_release_once (K : Commands) (context : DriverCommandContext) (k k1 : Nat)
    (codes : List Nat) (s : Driver) (hk : k < 0x20)
    (hcodes : ∀ x, x ∈ k1 :: codes → x < 0x20) (hnull : s.nullKeys.front = 0) :
    (∀ (later : List Nat) (r : Nat), (∀ x, x ∈ later → x < 0x20) → r < 0x20 →
      (interpretKeyByte K context (r ||| 0x80)
        (feedKeyBytes K context (later.map (fun x => x ||| 0x80))
          (interpretKeyByte K context (k ||| 0x80)
            (feedKeyBytes K context (k1 :: codes) s)).2)).1 = some EOF) ∧
    (interpretKeyByte K context (k ||| 0x80)
        (feedKeyBytes K context (k1 :: codes) s)).2.currentKeys
      = ⟨andNot (chordMask (k1 :: codes) s.currentKeys.front) (KEY k), -1, -1⟩ ∧
    (∀ command,
      ((interpretKeyByte K context (k ||| 0x80)
          (feedKeyBytes K context (k1 :: codes) s)).2.currentState = BDS_READY ∨
        (interpretKeyByte K context (k ||| 0x80)
          (feedKeyBytes K context (k1 :: codes) s)).2.currentState = BDS_WRITING) →
      andNot (chordMask (k1 :: codes) s.currentKeys.front) (KEY k) ≠ 0 →
      (callInterpretKeys K
          ⟨andNot (chordMask (k1 :: codes) s.currentKeys.front) (KEY k), -1, -1⟩
          (interpretKeyByte K context (k ||| 0x80)
            (feedKeyBytes K context (k1 :: codes) s)).2).1 = some command →
      (autorepeat K
        { (interpretKeyByte K context (k ||| 0x80)
            (feedKeyBytes K context (k1 :: codes) s)).2 with repeatCounter := 1 }).1
        = command) := by
  have hfeed := feed_presses K context codes k1 s hcodes
  have hrel := release_front_key_eq K context k (feedKeyBytes K context (k1 :: codes) s) hk
  have hpf : (feedKeyBytes K context (k1 :: codes) s).pressedKeys.front ≠ 0 := by
    rw [hfeed]
    exact chordMask_ne_zero k1 codes _ (hcodes k1 (List.mem_cons_self _ _))
  rw [if_pos hpf] at hrel
  have hkeys : (interpretKeyByte K context (k ||| 0x80)
      (feedKeyBytes K context (k1 :: codes) s)).2.currentKeys
      = ⟨andNot (chordMask (k1 :: codes) s.currentKeys.front) (KEY k), -1, -1⟩ := by
    rw [hrel, hfeed]
  have hp0 : (interpretKeyByte K context (k ||| 0x80)
      (feedKeyBytes K context (k1 :: codes) s)).2.pressedKeys.front = 0 := by
    rw [hrel, hfeed]
    exact hnull
  refine ⟨fun later r hlater hr => ?_, hkeys, ?_⟩
  · have hp1 := releases_keep_no_chord K context later _ hlater hp0
    rw [release_front_key_eq K context r _ hr, if_neg (by simpa using hp1)]
  · intro command hst hmask hrec
    apply autorepeat_held_mask K _ command hst
    · rw [hkeys]
      exact hmask
    · rw [hkeys]
      show (-1 : Int) < 0
      decide
    · rw [hkeys]
      show (-1 : Int) < 0
      decide
    · rw [hkeys]
      exact hrec

theorem chord_release_once_witness :
    (0x04 : Nat) < 0x20 ∧ (∀ x, x ∈ [0x03, 0x04] → x < 0x20) ∧
    (modular20 (List.replicate 20 0)).nullKeys.front = 0 ∧
    (interpretKeyByte Commands.sample .CMDS_SCREEN (0x03 ||| 0x80)
      (interpretKeyByte Commands.sample .CMDS_SCREEN (0x04 ||| 0x80)
        (feedKeyBytes Commands.sample .CMDS_SCREEN [0x03, 0x04]
          (modular20 (List.replicate 20 0)))).2).1 = some EOF ∧
    (autorepeat Commands.sample
      { (interpretKeyByte Commands.sample .CMDS_SCREEN (0x04 ||| 0x80)
          (feedKeyBytes Commands.sample .CMDS_SCREEN [0x03, 0x04]
            (modular20 (List.replicate 20 0)))).2 with repeatCounter := 1 }).1
      = (Commands.sample.CMD_HOME : Int) :=
  ⟨by decide, by decide, by decide,
   (chord_release_once Commands.sample .CMDS_SCREEN 0x04 0x03 [0x04]
      (modular20 (List.replicate 20 0)) (by decide) (by decide) (by decide)).1 [] 0x03
      (by decide) (by decide),
   (chord_release_once Commands.sample .CMDS_SCREEN 0x04 0x03 [0x04]
      (modular20 (List.replicate 20 0)) (by decide) (by decide) (by decide)).2.2
      (Commands.sample.CMD_HOME : Int) (by decide) (by decide) (by decide)⟩

/-- C34 (as stated) fails: on the Modular 20+4, B1 and UP are pressed and UP
is released, which reports `CMD_LNBEG` for the chord; B1 stays held and no
other byte arrives.  The tenth poll after the release returns `CMD_HOME`, the
command of B1 alone, emitted by autorepeat; the release of B1 in place of
that poll would report `EOF`. -/
theorem held_key_repeats_after_chord :
    (brl_readCommand Commands.sample wrOk 40 .CMDS_SCREEN [⟨0x84, false⟩]
      (brl_readCommand Commands.sample wrOk 40 .CMDS_SCREEN [⟨0x04, false⟩]
        (brl_readCommand Commands.sample wrOk 40 .CMDS_SCREEN [⟨0x03, false⟩]
          (modular20 (List.replicate 20 0))).driver).driver).command
      = (Commands.sample.CMD_LNBEG : Int) ∧
    (brl_readCommand Commands.sample wrOk 40 .CMDS_SCREEN []
      (silentPolls Commands.sample wrOk .CMDS_SCREEN (List.replicate 9 40)
        (brl_readCommand Commands.sample wrOk 40 .CMDS_SCREEN [⟨0x84, false⟩]
          (brl_readCommand Commands.sample wrOk 40 .CMDS_SCREEN [⟨0x04, false⟩]
            (brl_readCommand Commands.sample wrOk 40 .CMDS_SCREEN [⟨0x03, false⟩]
              (modular20 (List.replicate 20 0))).driver).driver).driver)).command
      = (Commands.sample.CMD_HOME : Int) ∧
    (Commands.sample.CMD_HOME : Int) ≠ EOF ∧
    (brl_readCommand Commands.sample wrOk 40 .CMDS_SCREEN [⟨0x83, false⟩]
      (silentPolls Commands.sample wrOk .CMDS_SCREEN (List.replicate 9 40)
        (brl_readCommand Commands.sample wrOk 40 .CMDS_SCREEN [⟨0x84, false⟩]
          (brl_readCommand Commands.sample wrOk 40 .CMDS_SCREEN [⟨0x04, false⟩]
            (brl_readCommand Commands.sample wrOk 40 .CMDS_SCREEN [⟨0x03, false⟩]
              (modular20 (List.replicate 20 0))).driver).driver).driver)).command
      = EOF := by
  decide

/-! ## State entry -/

/-- C35: `setState state` adds one to the retry count and leaves the state as
it is when `state` is the current state; it sets the retry count to 0 and the
state to `state` when `state` differs.  In both cases the state timer is set
to 0, and no other driver variable changes. -/
theorem state_entry_rule (state : BrailleDisplayState) (s : Driver) :
    (state = s.currentState →
      (setState state s).retryCount = s.retryCount + 1 ∧
      (setState state s).currentState = s.currentState) ∧
    (state ≠ s.currentState →
      (setState state s).retryCount = 0 ∧
      (setState state s).currentState = state ∧
      (setState state s).stateTimer = 0) ∧
    (setState state s).stateTimer = 0 ∧
    setState state s =
      { s with
        retryCount := (setState state s).retryCount
        currentState := (setState state s).currentState
        stateTimer := 0 } := by
  unfold setState
  refine ⟨fun h => ?_, fun h => ?_, ?_, ?_⟩
  · rw [if_pos h]
    exact ⟨rfl, rfl⟩
  · rw [if_neg h]
    exact ⟨rfl, rfl, rfl⟩
  · split <;> rfl
  · split <;> rfl

theorem state_entry_rule_witness :
    (setState BDS_IDENTIFYING
        (setState BDS_IDENTIFYING (modular20 (List.replicate 20 0)))).retryCount = 1 ∧
    (setState BDS_RESETTING
        (setState BDS_IDENTIFYING (modular20 (List.replicate 20 0)))).retryCount = 0 :=
  ⟨((state_entry_rule BDS_IDENTIFYING
      (setState BDS_IDENTIFYING (modular20 (List.replicate 20 0)))).1 (by decide)).1,
   ((state_entry_rule BDS_RESETTING
      (setState BDS_IDENTIFYING (modular20 (List.replicate 20 0)))).2.1 (by decide)).1⟩

/-! ## Counter bounds along a session -/

theorem countersBounded_congr (s t : Driver) (h1 : t.currentState = s.currentState)
    (h2 : t.retryCount = s.retryCount) (h3 : t.repeatCounter = s.repeatCounter)
    (h : countersBounded s) : countersBounded t := by
  unfold countersBounded at *
  rw [h1, h2, h3]
  exact h

theorem countersBounded_intro (t : Driver) (state : BrailleDisplayState) (retry : Nat)
    (counter : Int) (e1 : t.currentState = state) (e2 : t.retryCount = retry)
    (e3 : t.repeatCounter = counter)
    (h1 : (state = BDS_OFF ∨ state = BDS_READY ∨ state = BDS_WRITING) → retry = 0)
    (h2 : state = BDS_RESETTING → retry ≤ 4) (h3 : 1 ≤ counter) (h4 : counter ≤ 10) :
    countersBounded t := by
  unfold countersBounded
  rw [e1, e2, e3]
  exact ⟨h1, h2, h3, h4⟩

theorem countersBounded_counter (s t : Driver) (counter : Int)
    (e1 : t.currentState = s.currentState) (e2 : t.retryCount = s.retryCount)
    (e3 : t.repeatCounter = counter) (h3 : 1 ≤ counter) (h4 : counter ≤ 10)
    (h : countersBounded s) : countersBounded t :=
  countersBounded_intro t s.currentState s.retryCount counter e1 e2 e3 h.1 h.2.1 h3 h4

theorem countersBounded_setState (state : BrailleDisplayState) (s : Driver)
    (h : countersBounded s)
    (hcase : state ≠ s.currentState ∨ state = BDS_IDENTIFYING ∨
      (state = BDS_RESETTING ∧ s.retryCount ≤ 3)) :
    countersBounded (setState state s) := by
  obtain ⟨_, _, h3, h4⟩ := h
  by_cases hst : state = s.currentState
  · have hset : setState state s
        = { s with retryCount := s.retryCount + 1, stateTimer := 0 } := by
      simp [setState, hst]
    rw [hset]
    rcases hcase with hc | hc | hc
    · exact absurd hst hc
    · exact countersBounded_intro _ state (s.retryCount + 1) s.repeatCounter hst.symm rfl rfl
        (by rw [hc]; simp) (by rw [hc]; simp) h3 h4
    · exact countersBounded_intro _ state (s.retryCount + 1) s.repeatCounter hst.symm rfl rfl
        (by rw [hc.1]; simp) (fun _ => by omega) h3 h4
  · have hset : setState state s
        = { s with retryCount := 0, currentState := state, stateTimer := 0 } := by
      simp [setState, hst]
    rw [hset]
    exact countersBounded_intro _ state 0 s.repeatCounter rfl rfl rfl
      (fun _ => rfl) (fun _ => by omega) h3 h4

theorem countersBounded_updateBrailleCells (wr : Nat → Bool) (s : Driver)
    (h : countersBounded s) : countersBounded (updateBrailleCells wr s).2 := by
  by_cases hd : s.updateRequired = true ∧ s.currentState = BDS_READY
  · cases hw : wr s.log.length
    · rw [updateBrailleCells_failed wr s hd.1 hd.2 hw]
      exact ⟨fun _ => rfl, fun hc => by simp at hc, h.2.2.1, h.2.2.2⟩
    · rw [updateBrailleCells_sent wr s hd.1 hd.2 hw]
      exact ⟨fun _ => rfl, fun hc => by simp at hc, h.2.2.1, h.2.2.2⟩
  · rw [updateBrailleCells_idle wr s hd]
    exact h

theorem countersBounded_readyByte (K : Commands) (wr : Nat → Bool)
    (context : DriverCommandContext) (byte : Nat) (s : Driver) (h : countersBounded s) :
    countersBounded (readyByte K wr context byte s).2 := by
  have hp := callInterpretByte_protocol K context byte s
  rcases hres : callInterpretByte K context byte s with ⟨o, s1⟩
  rw [hres] at hp
  obtain ⟨_, _, _, _, _, _, h7, h8, _, h10, _, _⟩ := protocol_fields hp
  have h1 : countersBounded s1 := countersBounded_congr s s1 h8 h10 h7 h
  cases o with
  | none =>
    simp only [readyByte, hres]
    exact h1
  | some command =>
    simp only [readyByte, hres]
    apply countersBounded_updateBrailleCells
    exact countersBounded_counter s1 _ 10 rfl rfl rfl (by decide) (by decide) h1

theorem countersBounded_handleByte (K : Commands) (wr : Nat → Bool)
    (context : DriverCommandContext) (r : Rx) (s : Driver) (h : countersBounded s) :
    countersBounded (handleByte K wr context r s).2 := by
  unfold handleByte
  split
  · next hc =>
    exact countersBounded_setState _ s h (Or.inl (fun he => hc.2.1 he.symm))
  · split
    · exact countersBounded_setState _ s h (Or.inr (Or.inl rfl))
    · split
      · exact h
      · exact h
      · next hst =>
        split
        · have hb := countersBounded_setState BDS_READY s h
            (Or.inl (by rw [hst]; decide))
          exact countersBounded_congr _ _ rfl rfl rfl hb
        · exact h
      · next hst =>
        split
        · have hb := countersBounded_setState BDS_READY
            ({ s with updateRequired := true } : Driver)
            (countersBounded_congr s _ rfl rfl rfl h)
            (Or.inl (by show BDS_READY ≠ s.currentState; rw [hst]; decide))
          exact hb
        · split
          · exact countersBounded_setState BDS_READY s h (Or.inl (by rw [hst]; decide))
          · exact countersBounded_readyByte K wr context r.byte s h
      · exact countersBounded_readyByte K wr context r.byte s h

theorem countersBounded_readLoop (K : Commands) (wr : Nat → Bool)
    (context : DriverCommandContext) (rx : List Rx) (s : Driver) (h : countersBounded s) :
    countersBounded (readLoop K wr context rx s).2.1 := by
  induction rx generalizing s with
  | nil => exact h
  | cons r rest ih =>
    have hb := countersBounded_handleByte K wr context r s h
    rcases hres : handleByte K wr context r s with ⟨o, s1⟩
    rw [hres] at hb
    cases o with
    | none =>
      simp only [readLoop, hres]
      exact ih s1 hb
    | some command =>
      simp only [readLoop, hres]
      exact hb

theorem countersBounded_writeBytes (wr : Nat → Bool) (data : List Nat) (s : Driver)
    (h : countersBounded s) : countersBounded (writeBytes wr data s).2 :=
  countersBounded_congr s _ rfl rfl rfl h

theorem countersBounded_timeoutRecovery (wr : Nat → Bool) (s : Driver)
    (h : countersBounded s) : countersBounded (timeoutRecovery wr s) := by
  have hw := countersBounded_writeBytes wr HandyDescribe s h
  have hws : (writeBytes wr HandyDescribe s).2.currentState = s.currentState := rfl
  have hwr : (writeBytes wr HandyDescribe s).2.retryCount = s.retryCount := rfl
  unfold timeoutRecovery
  split
  · exact h
  · next hst =>
    split
    · split
      · exact countersBounded_setState _ s h (Or.inl (by rw [hst]; decide))
      · next hr =>
        rcases hres : writeBytes wr HandyDescribe s with ⟨ok, s1⟩
        rw [hres] at hw hws hwr
        cases ok with
        | true =>
          exact countersBounded_setState _ s1 hw
            (Or.inr (Or.inr ⟨rfl, by rw [hwr]; omega⟩))
        | false =>
          exact countersBounded_setState _ s1 hw (Or.inl (by rw [hws, hst]; decide))
    · exact h
  · next hst =>
    split
    · rcases hres : writeBytes wr HandyDescribe s with ⟨ok, s1⟩
      rw [hres] at hw hws hwr
      cases ok with
      | true => exact countersBounded_setState _ s1 hw (Or.inl (by rw [hws, hst]; decide))
      | false => exact countersBounded_setState _ s1 hw (Or.inl (by rw [hws, hst]; decide))
    · exact h
  · exact h
  · next hst =>
    split
    · split
      · rcases hres : writeBytes wr HandyDescribe s with ⟨ok, s1⟩
        rw [hres] at hw hws hwr
        cases ok with
        | true => exact countersBounded_setState _ s1 hw (Or.inl (by rw [hws, hst]; decide))
        | false => exact countersBounded_setState _ s1 hw (Or.inl (by rw [hws, hst]; decide))
      · exact countersBounded_congr s _ rfl rfl rfl h
    · exact h

theorem countersBounded_autorepeat (K : Commands) (s : Driver) (h : countersBounded s) :
    countersBounded (autorepeat K s).2 := by
  unfold autorepeat
  split
  · split
    · split
      · have hp := callInterpretKeys_protocol K s.currentKeys
          ({ s with repeatCounter := repeatInterval } : Driver)
        rcases hres : callInterpretKeys K s.currentKeys
          ({ s with repeatCounter := repeatInterval } : Driver) with ⟨o, s1⟩
        rw [hres] at hp
        obtain ⟨_, _, _, _, _, _, p7, p8, _, p10, _, _⟩ := protocol_fields hp
        have hb : countersBounded s1 :=
          countersBounded_counter s s1 3 p8 p10 p7 (by decide) (by decide) h
        cases o with
        | none => exact hb
        | some command => exact countersBounded_congr s1 _ rfl rfl rfl hb
      · exact countersBounded_counter s _ 3 rfl rfl rfl (by decide) (by decide) h
    · exact countersBounded_counter s _ 1 rfl rfl rfl (by decide) (by decide) h
  · next hne =>
    obtain ⟨_, _, h3, h4⟩ := h
    have hd : repeatDelay = 10 := rfl
    rw [hd] at h4
    exact countersBounded_counter s _ (s.repeatCounter - 1) rfl rfl rfl (by omega) (by omega)
      ⟨by assumption, by assumption, h3, by rw [hd]; exact h4⟩

theorem countersBounded_readCommand (K : Commands) (wr : Nat → Bool) (refreshInterval : Nat)
    (context : DriverCommandContext) (rx : List Rx) (s : Driver) (h : countersBounded s) :
    countersBounded (brl_readCommand K wr refreshInterval context rx s).driver := by
  have hloop := countersBounded_readLoop K wr context rx
    ({ s with stateTimer := s.stateTimer + refreshInterval } : Driver)
    (countersBounded_congr s _ rfl rfl rfl h)
  rcases hres : readLoop K wr context rx
    ({ s with stateTimer := s.stateTimer + refreshInterval } : Driver) with ⟨o, s1, rest⟩
  rw [hres] at hloop
  cases o with
  | some command =>
    simp only [brl_readCommand, hres]
    exact hloop
  | none =>
    simp only [brl_readCommand, hres, afterLoop]
    apply countersBounded_autorepeat
    apply countersBounded_updateBrailleCells
    split
    · exact countersBounded_timeoutRecovery wr s1 hloop
    · exact hloop

theorem countersBounded_hostCall (call : HostCall) (s : Driver) (h : countersBounded s) :
    countersBounded (hostCall call s) := by
  cases call with
  | readCommand K wr refreshInterval context rx =>
    exact countersBounded_readCommand K wr refreshInterval context rx s h
  | writeWindow wr brl =>
    apply countersBounded_updateBrailleCells
    unfold markWindow
    split
    · exact countersBounded_congr s _ rfl rfl rfl h
    · exact h
  | writeStatus st =>
    show countersBounded (brl_writeStatus st s)
    unfold brl_writeStatus
    split
    · exact countersBounded_congr s _ rfl rfl rfl h
    · exact h

theorem countersBounded_runCalls (calls : List HostCall) (s : Driver)
    (h : countersBounded s) : countersBounded (runCalls calls s) := by
  induction calls generalizing s with
  | nil => exact h
  | cons call calls ih => exact ih _ (countersBounded_hostCall call s h)

theorem countersBounded_open (wr : Nat → Bool) (env : OpenEnv) (brl brl1 : BrailleDisplay)
    (s0 s : Driver) (hopen : brl_open wr env brl s0 = some (true, s, brl1)) :
    countersBounded s := by
  unfold brl_open at hopen
  simp only at hopen
  split at hopen
  · simp at hopen
  · split at hopen
    · simp at hopen
    · simp at hopen
    · split at hopen
      · simp at hopen
      · split at hopen
        · simp only [Option.some.injEq, Prod.mk.injEq, true_and] at hopen
          rw [← hopen.1]
          exact countersBounded_intro _ BDS_READY 0 10 rfl rfl rfl
            (fun _ => rfl) (fun _ => by omega) (by decide) (by decide)
        · simp at hopen

/-- C36: in every driver state reached from a successful `brl_open` by any
sequence of calls of `brl_readCommand` (with any tick, any received bytes and
any write outcomes), `brl_writeWindow` and `brl_writeStatus`, the retry count
is 0 whenever the state is `BDS_OFF`, `BDS_READY` or `BDS_WRITING`, and at
most 4 whenever the state is `BDS_RESETTING`. -/
theorem retry_counter_invariant (wr : Nat → Bool) (env : OpenEnv)
    (brl brl1 : BrailleDisplay) (s0 s : Driver) (calls : List HostCall)
    (hopen : brl_open wr env brl s0 = some (true, s, brl1)) :
    (((runCalls calls s).currentState = BDS_OFF ∨ (runCalls calls s).currentState = BDS_READY ∨
        (runCalls calls s).currentState = BDS_WRITING) →
      (runCalls calls s).retryCount = 0) ∧
    ((runCalls calls s).currentState = BDS_RESETTING → (runCalls calls s).retryCount ≤ 4) := by
  have h := countersBounded_runCalls calls s (countersBounded_open wr env brl brl1 s0 s hopen)
  exact ⟨h.1, h.2.1⟩

theorem retry_counter_invariant_witness :
    brl_open wrOk (OpenEnv.answering [0xFE, 0x80] (List.replicate 20 0)) BrailleDisplay.blank
        Driver.initial
      = some (true, modular20 (List.replicate 20 0), ⟨20, 1, 0, []⟩) ∧
    (runCalls
      [.readCommand Commands.sample wrOk 40 .CMDS_SCREEN [⟨0xFE, false⟩],
       .readCommand Commands.sample wrOk 1001 .CMDS_SCREEN [],
       .readCommand Commands.sample wrOk 3001 .CMDS_SCREEN [],
       .readCommand Commands.sample wrOk 3001 .CMDS_SCREEN [],
       .readCommand Commands.sample wrOk 3001 .CMDS_SCREEN [],
       .readCommand Commands.sample wrOk 3001 .CMDS_SCREEN []]
      (modular20 (List.replicate 20 0))).currentState = BDS_RESETTING ∧
    (runCalls
      [.readCommand Commands.sample wrOk 40 .CMDS_SCREEN [⟨0xFE, false⟩],
       .readCommand Commands.sample wrOk 1001 .CMDS_SCREEN [],
       .readCommand Commands.sample wrOk 3001 .CMDS_SCREEN [],
       .readCommand Commands.sample wrOk 3001 .CMDS_SCREEN [],
       .readCommand Commands.sample wrOk 3001 .CMDS_SCREEN [],
       .readCommand Commands.sample wrOk 3001 .CMDS_SCREEN []]
      (modular20 (List.replicate 20 0))).retryCount ≤ 4 :=
  ⟨by decide, by decide,
   (retry_counter_invariant wrOk (OpenEnv.answering [0xFE, 0x80] (List.replicate 20 0))
      BrailleDisplay.blank ⟨20, 1, 0, []⟩ Driver.initial (modular20 (List.replicate 20 0))
      [.readCommand Commands.sample wrOk 40 .CMDS_SCREEN [⟨0xFE, false⟩],
       .readCommand Commands.sample wrOk 1001 .CMDS_SCREEN [],
       .readCommand Commands.sample wrOk 3001 .CMDS_SCREEN [],
       .readCommand Commands.sample wrOk 3001 .CMDS_SCREEN [],
       .readCommand Commands.sample wrOk 3001 .CMDS_SCREEN [],
       .readCommand Commands.sample wrOk 3001 .CMDS_SCREEN []]
      (by decide)).2 (by decide)⟩

/-- C37: after a successful `brl_open`, and after every call of
`brl_readCommand`, `brl_writeWindow` or `brl_writeStatus` that follows it,
whatever the ticks, the received bytes and the write outcomes, the autorepeat
countdown is at least 1 and at most `repeatDelay` (10). -/
theorem repeat_counter_invariant (wr : Nat → Bool) (env : OpenEnv)
    (brl brl1 : BrailleDisplay) (s0 s : Driver) (calls : List HostCall)
    (hopen : brl_open wr env brl s0 = some (true, s, brl1)) :
    s.repeatCounter = 10 ∧
    1 ≤ (runCalls calls s).repeatCounter ∧ (runCalls calls s).repeatCounter ≤ 10 := by
  have h0 := countersBounded_open wr env brl brl1 s0 s hopen
  have h := countersBounded_runCalls calls s h0
  refine ⟨?_, h.2.2.1, h.2.2.2⟩
  unfold brl_open at hopen
  simp only at hopen
  split at hopen
  · simp at hopen
  · split at hopen
    · simp at hopen
    · simp at hopen
    · split at hopen
      · simp at hopen
      · split at hopen
        · simp only [Option.some.injEq, Prod.mk.injEq, true_and] at hopen
          rw [← hopen.1]
          rfl
        · simp at hopen

theorem repeat_counter_invariant_witness :
    brl_open wrOk (OpenEnv.answering [0xFE, 0x80] (List.replicate 20 0)) BrailleDisplay.blank
        Driver.initial
      = some (true, modular20 (List.replicate 20 0), ⟨20, 1, 0, []⟩) ∧
    1 ≤ (runCalls
      [.readCommand Commands.sample wrOk 40 .CMDS_SCREEN [⟨0x03, false⟩],
       .writeWindow wrOk (window (List.replicate 20 0xFF)),
       .readCommand Commands.sample wrOk 40 .CMDS_SCREEN [⟨0x7E, false⟩, ⟨0x7F, false⟩],
       .writeStatus [1, 2, 3, 4]]
      (modular20 (List.replicate 20 0))).repeatCounter :=
  ⟨by decide,
   (repeat_counter_invariant wrOk (OpenEnv.answering [0xFE, 0x80] (List.replicate 20 0))
      BrailleDisplay.blank ⟨20, 1, 0, []⟩ Driver.initial (modular20 (List.replicate 20 0))
      [.readCommand Commands.sample wrOk 40 .CMDS_SCREEN [⟨0x03, false⟩],
       .writeWindow wrOk (window (List.replicate 20 0xFF)),
       .readCommand Commands.sample wrOk 40 .CMDS_SCREEN [⟨0x7E, false⟩, ⟨0x7F, false⟩],
       .writeStatus [1, 2, 3, 4]]
      (by decide)).2.1⟩

/-! ## The translation table moves dot bits -/

set_option maxRecDepth 100000 in
theorem trans_moveDots (a : Nat) (h : a < 256) : trans a = moveDots a := by
  revert a
  decide

set_option maxRecDepth 100000 in
theorem trans_raisedDots (a : Nat) (h : a < 256) : raisedDots (trans a) = raisedDots a := by
  revert a
  decide

theorem shiftLeft_or (x y k : Nat) : (x ||| y) <<< k = x <<< k ||| y <<< k := by
  apply Nat.eq_of_testBit_eq
  intro i
  simp only [Nat.testBit_shiftLeft, Nat.testBit_or, Bool.and_or_distrib_left]

theorem shiftRight_or (x y k : Nat) : (x ||| y) >>> k = x >>> k ||| y >>> k := by
  apply Nat.eq_of_testBit_eq
  intro i
  simp only [Nat.testBit_shiftRight, Nat.testBit_or]

theorem or_and_mask (x y m : Nat) : (x ||| y) &&& m = (x &&& m) ||| (y &&& m) := by
  rw [Nat.and_comm, Nat.and_or_distrib_left, Nat.and_comm m x, Nat.and_comm m y]

theorem moveDots_or (a b : Nat) : moveDots (a ||| b) = moveDots a ||| moveDots b := by
  unfold moveDots
  rw [or_and_mask, or_and_mask, or_and_mask, or_and_mask, or_and_mask,
    shiftLeft_or, shiftLeft_or, shiftRight_or, shiftRight_or]
  ac_rfl

/-- C38: the translation table moves the eight dot bits one by one.  For all
bytes `a` and `b`, `TransTable[a | b] = TransTable[a] | TransTable[b]`;
`TransTable[0] = 0`; bits 0, 5, 6 and 7 stay where they are, bit 1 goes to
bit 3, bit 3 to bit 4, bit 4 to bit 2 and bit 2 to bit 1; every entry is the
byte with its bits moved in that way, and has as many raised dots as its
index. -/
theorem trans_moves_dot_bits :
    (∀ a b, a < 256 → b < 256 → trans (a ||| b) = trans a ||| trans b) ∧
    trans 0 = 0 ∧
    (trans 0x01 = 0x01 ∧ trans 0x20 = 0x20 ∧ trans 0x40 = 0x40 ∧ trans 0x80 = 0x80 ∧
      trans 0x02 = 0x08 ∧ trans 0x08 = 0x10 ∧ trans 0x10 = 0x04 ∧ trans 0x04 = 0x02) ∧
    (∀ a, a < 256 → trans a = moveDots a) ∧
    (∀ a, a < 256 → raisedDots (trans a) = raisedDots a) := by
  refine ⟨?_, by decide, by decide, trans_moveDots, trans_raisedDots⟩
  intro a b ha hb
  have hab : a ||| b < 256 := Nat.or_lt_two_pow (n := 8) ha hb
  rw [trans_moveDots _ hab, trans_moveDots a ha, trans_moveDots b hb, moveDots_or]

theorem trans_moves_dot_bits_witness :
    (0x13 : Nat) < 256 ∧ (0x0A : Nat) < 256 ∧
    trans (0x13 ||| 0x0A) = trans 0x13 ||| trans 0x0A ∧
    raisedDots (trans 0x13) = raisedDots 0x13 :=
  ⟨by decide, by decide,
   trans_moves_dot_bits.1 0x13 0x0A (by decide) (by decide),
   trans_moves_dot_bits.2.2.2.2 0x13 (by decide)⟩

/-! ## The Braille Star keyset and the Modular keyset -/

set_option maxRecDepth 100000 in
theorem star_key_values :
    KEY_B1 = 2 ^ 3 ∧ KEY_B2 = 2 ^ 7 ∧ KEY_B3 = 2 ^ 11 ∧ KEY_B4 = 2 ^ 15 ∧ KEY_B5 = 2 ^ 19 ∧
    KEY_B6 = 2 ^ 23 ∧ KEY_B7 = 2 ^ 27 ∧ KEY_B8 = 0xFFFFFFFF80000000 ∧
    KEY_SPACE_LEFT = 2 ^ 16 ∧ KEY_SPACE_RIGHT = 2 ^ 24 ∧ KEY_UP = 2 ^ 4 ∧ KEY_DOWN = 2 ^ 8 := by
  decide

theorem and_two_pow_zero (x k : Nat) : x &&& 2 ^ k = 0 ↔ x.testBit k = false := by
  rw [Nat.and_two_pow]
  cases x.testBit k <;> simp

theorem lookup_none_of_keys {β : Type} (x : Nat) (cases : List (Nat × β))
    (h : ∀ L, L ∈ cases.map Prod.fst → L ≠ x) : switchOn x cases = none := by
  unfold switchOn
  induction cases with
  | nil => rfl
  | cons p cases ih =>
    rcases p with ⟨L, v⟩
    have hL : L ≠ x := h L (by simp)
    have hb : (x == L) = false := by
      simp only [beq_eq_false_iff_ne, ne_eq]
      exact fun e => hL e.symm
    simp only [List.lookup, hb]
    exact ih (fun M hM => h M (by simp only [List.map_cons, List.mem_cons]; exact Or.inr hM))

theorem star_front_keys (K : Commands) :
    ∀ L, L ∈ (brailleStarFrontCases K).map Prod.fst → L &&& brailleStarModularMask ≠ L := by
  have hk : (brailleStarFrontCases K).map Prod.fst
      = [ROCKER_LEFT_TOP, ROCKER_RIGHT_TOP, ROCKER_LEFT_BOTTOM, ROCKER_RIGHT_BOTTOM,
         ROCKER_LEFT_MIDDLE, ROCKER_RIGHT_MIDDLE, ROCKER_LEFT_MIDDLE ||| ROCKER_RIGHT_MIDDLE,
         ROCKER_RIGHT_MIDDLE ||| ROCKER_LEFT_TOP, ROCKER_RIGHT_MIDDLE ||| ROCKER_LEFT_BOTTOM,
         ROCKER_LEFT_MIDDLE ||| ROCKER_RIGHT_TOP, ROCKER_LEFT_MIDDLE ||| ROCKER_RIGHT_BOTTOM,
         ROCKER_LEFT_TOP ||| ROCKER_RIGHT_TOP, ROCKER_LEFT_TOP ||| ROCKER_RIGHT_BOTTOM,
         ROCKER_LEFT_BOTTOM ||| ROCKER_RIGHT_TOP, ROCKER_LEFT_BOTTOM ||| ROCKER_RIGHT_BOTTOM] :=
    rfl
  rw [hk]
  decide

theorem star_routing_keys (K : Commands) :
    ∀ L, L ∈ (brailleStarRoutingCases K).map Prod.fst → L &&& brailleStarModularMask ≠ L := by
  have hk : (brailleStarRoutingCases K).map Prod.fst
      = [ROCKER_LEFT_TOP, ROCKER_LEFT_MIDDLE, ROCKER_LEFT_BOTTOM, ROCKER_RIGHT_TOP,
         ROCKER_RIGHT_MIDDLE, ROCKER_RIGHT_BOTTOM] := rfl
  rw [hk]
  decide

theorem star_own_cases_none (K : Commands) (keys : Keys)
    (hsub : keys.front &&& brailleStarModularMask = keys.front) :
    brailleStarOwnCases K keys = none := by
  have h1 : switchOn keys.front (brailleStarRoutingCases K) = none :=
    lookup_none_of_keys _ _ (fun L hL e => star_routing_keys K L hL (by rw [e]; exact hsub))
  have h2 : switchOn keys.front (brailleStarFrontCases K) = none :=
    lookup_none_of_keys _ _ (fun L hL e => star_front_keys K L hL (by rw [e]; exact hsub))
  unfold brailleStarOwnCases
  rw [h1, h2]
  split
  · rfl
  · split <;> rfl

theorem andNot_of_subset (front mask : Nat) (hsub : front &&& mask = front)
    (hmask : mask &&& (0xFFFFFFFFFFFFFFFF ^^^ mask) = 0) : andNot front mask = 0 := by
  unfold andNot
  rw [← hsub, Nat.and_assoc, hmask]
  simp

theorem star_reduces (K : Commands) (keys : Keys) (inputMode : Nat)
    (hsub : keys.front &&& brailleStarModularMask = keys.front) :
    interpretBrailleStarKeys K keys inputMode
      = interpretModularKeys K (brailleStarModularKeys keys) inputMode := by
  have hzero : andNot keys.front brailleStarModularMask = 0 :=
    andNot_of_subset _ _ hsub (by decide)
  unfold interpretBrailleStarKeys
  rw [star_own_cases_none K keys hsub, if_pos hzero]
  rcases interpretModularKeys K (brailleStarModularKeys keys) inputMode with ⟨o, m⟩
  cases o <;> rfl

theorem star_mask_bits (front i : Nat)
    (hsub : front &&& brailleStarModularMask = front) (hi : front.testBit i = true) :
    i = 3 ∨ i = 7 ∨ i = 11 ∨ i = 15 ∨ i = 19 ∨ i = 23 ∨ i = 27 ∨ i = 16 ∨ i = 24 ∨
      (31 ≤ i ∧ i < 64) := by
  obtain ⟨k1, k2, k3, k4, k5, k6, k7, k8, kl, kr, _, _⟩ := star_key_values
  have h := congrArg (fun x => Nat.testBit x i) hsub
  simp only [Nat.testBit_and, hi, Bool.true_and] at h
  simp only [brailleStarModularMask, k1, k2, k3, k4, k5, k6, k7, k8, kl, kr, Nat.testBit_or,
    Nat.testBit_two_pow, sign_mask_testBit, Bool.or_eq_true, decide_eq_true_eq] at h
  omega

theorem star_front_bits (front i : Nat)
    (hsub : front &&& brailleStarModularMask = front) :
    ((if (if front &&& KEY_SPACE_LEFT ≠ 0 then andNot front KEY_SPACE_LEFT ||| KEY_UP
           else front) &&& KEY_SPACE_RIGHT ≠ 0
        then andNot (if front &&& KEY_SPACE_LEFT ≠ 0 then andNot front KEY_SPACE_LEFT ||| KEY_UP
            else front) KEY_SPACE_RIGHT ||| KEY_DOWN
        else (if front &&& KEY_SPACE_LEFT ≠ 0 then andNot front KEY_SPACE_LEFT ||| KEY_UP
            else front)).testBit i)
      = (((front &&& modularDots) ||| keyFlag front KEY_SPACE_LEFT KEY_UP
          ||| keyFlag front KEY_SPACE_RIGHT KEY_DOWN).testBit i) := by
  obtain ⟨k1, k2, k3, k4, k5, k6, k7, k8, kl, kr, ku, kd⟩ := star_key_values
  have hmask : (0xFFFFFFFFFFFFFFFF : Nat) = 2 ^ 64 - 1 := by decide
  have hbits := star_mask_bits front i hsub
  have hl : front &&& KEY_SPACE_LEFT = 0 ↔ front.testBit 16 = false := by
    rw [kl, and_two_pow_zero]
  have hr : front &&& KEY_SPACE_RIGHT = 0 ↔ front.testBit 24 = false := by
    rw [kr, and_two_pow_zero]
  have hr1 : (andNot front KEY_SPACE_LEFT ||| KEY_UP) &&& KEY_SPACE_RIGHT = 0
      ↔ front.testBit 24 = false := by
    rw [kr, and_two_pow_zero]
    simp only [andNot, kl, ku, hmask, Nat.testBit_or,
      Nat.testBit_and, Nat.testBit_xor, Nat.testBit_two_pow_sub_one, Nat.testBit_two_pow]
    simp
  cases h16 : front.testBit 16 <;> cases h24 : front.testBit 24
  all_goals
    simp only [h16, h24, iff_true, Bool.true_eq_false, iff_false] at hl hr hr1
    simp only [keyFlag, hl, hr, hr1, if_true, if_false, ne_eq, not_true_eq_false,
      not_false_eq_true]
    simp only [andNot, modularDots, k1, k2, k3, k4, k5, k6, k7, k8, kl, kr, ku, kd, hmask,
      Nat.testBit_or, Nat.testBit_and, Nat.testBit_xor, Nat.testBit_two_pow_sub_one,
      Nat.testBit_two_pow, sign_mask_testBit, Nat.zero_testBit]
    cases hb : front.testBit i
    · by_cases h4 : 4 = i
      · subst h4
        simp
      · by_cases h8 : 8 = i
        · subst h8
          simp
        · simp [h4, h8]
    · have hcase := hbits hb
      rcases hcase with h | h | h | h | h | h | h | h | h | ⟨h31, h64⟩
      iterate 9 (subst h; simp_all)
      have e1 : ¬ (3 = i) := by omega
      have e2 : ¬ (7 = i) := by omega
      have e3 : ¬ (11 = i) := by omega
      have e4 : ¬ (15 = i) := by omega
      have e5 : ¬ (19 = i) := by omega
      have e6 : ¬ (23 = i) := by omega
      have e7 : ¬ (27 = i) := by omega
      have e8 : ¬ (16 = i) := by omega
      have e9 : ¬ (24 = i) := by omega
      have e10 : ¬ (4 = i) := by omega
      have e11 : ¬ (8 = i) := by omega
      simp [e1, e2, e3, e4, e5, e6, e7, e8, e9, e10, e11, h31, h64]

theorem star_front_replaced (keys : Keys)
    (hsub : keys.front &&& brailleStarModularMask = keys.front) :
    (brailleStarModularKeys keys).front
      = (keys.front &&& modularDots) ||| keyFlag keys.front KEY_SPACE_LEFT KEY_UP
          ||| keyFlag keys.front KEY_SPACE_RIGHT KEY_DOWN := by
  apply Nat.eq_of_testBit_eq
  intro i
  exact star_front_bits keys.front i hsub

/-- C39: for every chord, with or without a column or status index, whose
front mask holds no key other than B1..B8 and the two space keys,
`interpretBrailleStarKeys` returns what `interpretModularKeys` returns (result,
command and input mode) on the chord with the same indices whose front mask
keeps the keys B1..B8 and holds UP exactly when the left space key was held
and DOWN exactly when the right space key was held; and
`interpretBrailleWaveKeys` is `interpretModularKeys` on every chord. -/
theorem braille_star_reduces (K : Commands) (keys : Keys) (inputMode : Nat)
    (hsub : keys.front &&& brailleStarModularMask = keys.front) :
    interpretBrailleStarKeys K keys inputMode
      = interpretModularKeys K
          ⟨(keys.front &&& modularDots) ||| keyFlag keys.front KEY_SPACE_LEFT KEY_UP
              ||| keyFlag keys.front KEY_SPACE_RIGHT KEY_DOWN,
            keys.column, keys.status⟩ inputMode ∧
    brailleStarModularKeys keys
      = ⟨(keys.front &&& modularDots) ||| keyFlag keys.front KEY_SPACE_LEFT KEY_UP
            ||| keyFlag keys.front KEY_SPACE_RIGHT KEY_DOWN,
          keys.column, keys.status⟩ ∧
    (∀ (chord : Keys) (mode : Nat),
      interpretBrailleWaveKeys K chord mode = interpretModularKeys K chord mode) := by
  have hkeys : brailleStarModularKeys keys
      = ⟨(keys.front &&& modularDots) ||| keyFlag keys.front KEY_SPACE_LEFT KEY_UP
            ||| keyFlag keys.front KEY_SPACE_RIGHT KEY_DOWN,
          keys.column, keys.status⟩ := by
    have hf := star_front_replaced keys hsub
    have hc : (brailleStarModularKeys keys).column = keys.column := rfl
    have hs : (brailleStarModularKeys keys).status = keys.status := rfl
    rcases hres : brailleStarModularKeys keys with ⟨f, c, st⟩
    rw [hres] at hf hc hs
    simp only at hf hc hs
    rw [hf, hc, hs]
  refine ⟨?_, hkeys, fun _ _ => rfl⟩
  rw [star_reduces K keys inputMode hsub, hkeys]

theorem braille_star_reduces_witness :
    (KEY_B1 ||| KEY_SPACE_LEFT) &&& brailleStarModularMask = KEY_B1 ||| KEY_SPACE_LEFT ∧
    interpretBrailleStarKeys Commands.sample ⟨KEY_B1 ||| KEY_SPACE_LEFT, -1, -1⟩ 0
      = (some (Commands.sample.CMD_LNBEG : Int), 0) ∧
    interpretBrailleStarKeys Commands.sample ⟨KEY_B1 ||| KEY_SPACE_LEFT, -1, -1⟩ 0
      = interpretModularKeys Commands.sample ⟨KEY_B1 ||| KEY_UP, -1, -1⟩ 0 ∧
    (KEY_B8 ||| KEY_SPACE_RIGHT) &&& brailleStarModularMask = KEY_B8 ||| KEY_SPACE_RIGHT ∧
    interpretBrailleStarKeys Commands.sample ⟨KEY_B8 ||| KEY_SPACE_RIGHT, -1, -1⟩ 0
      = interpretModularKeys Commands.sample ⟨KEY_B8 ||| KEY_DOWN, -1, -1⟩ 0 :=
  ⟨by decide, by decide,
   (braille_star_reduces Commands.sample ⟨KEY_B1 ||| KEY_SPACE_LEFT, -1, -1⟩ 0
      (by decide)).1,
   by decide,
   (braille_star_reduces Commands.sample ⟨KEY_B8 ||| KEY_SPACE_RIGHT, -1, -1⟩ 0
      (by decide)).1⟩

/-! ## The registry -/

/-- C40: the identifiers of the rows of `Models[]` are pairwise distinct, and
every row has at most `MAX_STCELLS` (4) status cells and at most 80 columns.
Hence for every row no code is both a routing code (from 0x20, one per column)
and a status code (from 0x70, one per status cell), every routing or status
code is below the release flag 0x80 and is neither 0x7D nor 0x7E, and every
status index below `statusCells` is an index of the `MAX_STCELLS`-byte status
arrays. -/
theorem registry_well_formed :
    (Models.map (fun m => m.identifier)).Nodup ∧
    (∀ m, m ∈ Models →
      m.statusCells ≤ MAX_STCELLS ∧ m.columns ≤ 80 ∧
      (∀ code, (KEY_ROUTING ≤ code ∧ code < KEY_ROUTING + m.columns) →
        ¬ (KEY_STATUS ≤ code ∧ code < KEY_STATUS + m.statusCells)) ∧
      (∀ code, (KEY_ROUTING ≤ code ∧ code < KEY_ROUTING + m.columns) ∨
          (KEY_STATUS ≤ code ∧ code < KEY_STATUS + m.statusCells) →
        code < KEY_RELEASE ∧ code ≠ 0x7D ∧ code ≠ 0x7E) ∧
      (∀ i, i < m.statusCells →
        i < Driver.initial.rawStatus.length ∧ i < Driver.initial.prevStatus.length)) := by
  refine ⟨by decide, ?_⟩
  intro m hm
  have hall : Models.all (fun m => decide (m.statusCells ≤ 4 ∧ m.columns ≤ 80)) = true := by
    decide
  have hb := List.all_eq_true.1 hall m hm
  simp only [decide_eq_true_eq] at hb
  obtain ⟨h1, h2⟩ := hb
  have hlen : Driver.initial.rawStatus.length = 4 ∧ Driver.initial.prevStatus.length = 4 := by
    decide
  simp only [KEY_ROUTING, KEY_STATUS, KEY_RELEASE, MAX_STCELLS, hlen.1, hlen.2]
  refine ⟨h1, h2, ?_, ?_, ?_⟩
  · intro code hc
    omega
  · intro code hc
    omega
  · intro i hi
    omega

theorem registry_well_formed_witness :
    (⟨some "Modular 80+4", 0x88, 80, 4, 0, some .interpretKeyByte, some .interpretModularKeys,
        HandyBrailleStart, [], []⟩ : ModelDescription) ∈ Models ∧
    (0x6F : Nat) < KEY_RELEASE ∧ (0x6F : Nat) ≠ 0x7D ∧ (0x6F : Nat) ≠ 0x7E :=
  ⟨by decide,
   (registry_well_formed.2
      ⟨some "Modular 80+4", 0x88, 80, 4, 0, some .interpretKeyByte, some .interpretModularKeys,
        HandyBrailleStart, [], []⟩ (by decide)).2.2.2.1 0x6F (Or.inl (by decide))⟩

end HandyTech

namespace HidTest

open ParseState

/-! # Theorems on the byte specification -/

theorem digitValue_hex (c : Nat) (h : digitValue c < 0x10) :
    (0x30 ≤ c ∧ c ≤ 0x39) ∨ (0x61 ≤ c ∧ c ≤ 0x66) ∨ (0x41 ≤ c ∧ c ≤ 0x46) := by
  unfold digitValue at h
  split_ifs at h <;> omega

theorem isHexadecimal_lookup (c : Nat) : isHexadecimal c = hexDigits.lookup c := by
  by_cases hc : c < 0x80
  · interval_cases c <;> rfl
  · have h1 : digitValue c = 36 := by
      unfold digitValue
      split_ifs <;> omega
    have h2 : (hexDigits.map Prod.fst).all (fun k => k < 0x80) = true := by decide
    have h3 : ∀ (l : List (Nat × Nat)), (l.map Prod.fst).all (fun k => k < 0x80) = true →
        l.lookup c = none := by
      intro l
      induction l with
      | nil => intro _; rfl
      | cons p l ih =>
        intro hl
        simp only [List.map_cons, List.all_cons, Bool.and_eq_true, decide_eq_true_eq] at hl
        have hne : (c == p.1) = false := by
          simp only [beq_eq_false_iff_ne, ne_eq]
          omega
        rcases p with ⟨k, v⟩
        simp only [List.lookup, hne]
        exact ih hl.2
    rw [h3 hexDigits h2]
    simp [isHexadecimal, h1]

theorem isHexadecimal_some (c v : Nat) (h : isHexadecimal c = some v) :
    iswspace c = false ∧ c ≠ 0x5B ∧ c ≠ 0x2A ∧ v < 0x10 := by
  unfold isHexadecimal at h
  split_ifs at h with hd
  have hr := digitValue_hex c hd
  have hv : digitValue c = v := by simpa using h
  refine ⟨?_, by omega, by omega, by omega⟩
  simp only [iswspace, Bool.or_eq_false_iff, decide_eq_false_iff_not, Bool.and_eq_false_iff]
  omega

theorem hex_byte (v1 v2 : Nat) (h1 : v1 < 0x10) (h2 : v2 < 0x10) :
    ((v1 <<< 4) % 256) ||| v2 = 16 * v1 + v2 := by
  interval_cases v1 <;> interval_cases v2 <;> rfl

theorem writeCopies_one (bufferSize byte : Nat) (out : List Nat) :
    writeCopies bufferSize byte 1 out
      = if out.length = bufferSize then (false, out) else (true, out ++ [byte]) := by
  simp [writeCopies]

theorem parseLoop_space (bufferSize : Nat) (ws rest : List Nat) (byte count : Nat)
    (out : List Nat) (hws : ∀ c, c ∈ ws → iswspace c = true) :
    parseLoop bufferSize (ws ++ rest) NEXT byte count out
      = parseLoop bufferSize rest NEXT byte count out := by
  induction ws with
  | nil => rfl
  | cons c ws ih =>
    have hc := hws c (List.mem_cons_self _ _)
    simp only [List.cons_append, parseLoop, switchStep, hc, if_true]
    exact ih (fun d hd => hws d (List.mem_cons_of_mem _ hd))

theorem parseLoop_flush (bufferSize byte : Nat) (character : Nat) (rest out : List Nat)
    (state : ParseState) (byte0 count0 : Nat)
    (hstep : switchStep character rest.isEmpty state byte0 count0 = some (true, NEXT, byte, 1))
    (hstar : rest.head? ≠ some 0x2A) :
    parseLoop bufferSize (character :: rest) state byte0 count0 out
      = if out.length = bufferSize then (false, out)
        else parseLoop bufferSize rest NEXT 0 1 (out ++ [byte]) := by
  rw [parseLoop, hstep]
  simp only [reduceCtorEq, if_false]
  split
  · rename_i rest1
    simp at hstar
  · rw [writeCopies_one]
    split_ifs with hfull
    · rfl
    · rfl

theorem and_bit_zero (x k : Nat) : x &&& (1 <<< k) = 0 ↔ x.testBit k = false := by
  rw [Nat.one_shiftLeft, Nat.and_two_pow]
  cases x.testBit k <;> simp

theorem or_bit_testBit (x k j : Nat) :
    (x ||| (1 <<< k)).testBit j = (x.testBit j || decide (k = j)) := by
  rw [Nat.testBit_or, Nat.one_shiftLeft, Nat.testBit_two_pow]

theorem parseLoop_hex (bufferSize h1 h2 v1 v2 : Nat) (rest out : List Nat)
    (e1 : isHexadecimal h1 = some v1) (e2 : isHexadecimal h2 = some v2)
    (hstar : rest.head? ≠ some 0x2A) :
    parseLoop bufferSize (h1 :: h2 :: rest) NEXT 0 1 out
      = if out.length = bufferSize then (false, out)
        else parseLoop bufferSize rest NEXT 0 1 (out ++ [16 * v1 + v2]) := by
  obtain ⟨hw, hb, _, hv1⟩ := isHexadecimal_some h1 v1 e1
  obtain ⟨_, _, _, hv2⟩ := isHexadecimal_some h2 v2 e2
  have hfirst : parseLoop bufferSize (h1 :: h2 :: rest) NEXT 0 1 out
      = parseLoop bufferSize (h2 :: rest) HEX ((v1 <<< 4) % 256) 1 out := by
    rw [parseLoop]
    simp [switchStep, hw, hb, e1]
  rw [hfirst, parseLoop_flush bufferSize (16 * v1 + v2) h2 rest out HEX _ 1
    (by simp [switchStep, e2, hex_byte v1 v2 hv1 hv2]) hstar]

theorem dots_fold_testBit (ds : List Nat) (byte j : Nat) :
    (ds.foldl (fun b d => b ||| (1 <<< (d - 0x31))) byte).testBit j
      = (byte.testBit j || decide (∃ d, d ∈ ds ∧ d - 0x31 = j)) := by
  induction ds generalizing byte with
  | nil => simp
  | cons d ds ih =>
    rw [List.foldl_cons, ih, or_bit_testBit]
    by_cases hd : d - 0x31 = j
    · simp [hd]
    · simp [hd]

theorem parseLoop_dots (bufferSize : Nat) (ds tail : List Nat) (byte count : Nat)
    (out : List Nat) (hrange : ∀ d, d ∈ ds → 0x31 ≤ d ∧ d ≤ 0x38) (hnodup : ds.Nodup)
    (hfresh : ∀ d, d ∈ ds → byte.testBit (d - 0x31) = false) :
    parseLoop bufferSize (ds ++ tail) DOTS byte count out
      = parseLoop bufferSize tail DOTS
          (ds.foldl (fun b d => b ||| (1 <<< (d - 0x31))) byte) count out := by
  induction ds generalizing byte with
  | nil => rfl
  | cons d ds ih =>
    obtain ⟨hlo, hhi⟩ := hrange d (List.mem_cons_self _ _)
    have hd := hfresh d (List.mem_cons_self _ _)
    have hne : d ≠ 0x5D := by omega
    have hin : ¬ (d < 0x31 ∨ d > 0x38) := by omega
    have hz : byte &&& (1 <<< (d - 0x31)) = 0 := (and_bit_zero _ _).2 hd
    rw [List.cons_append, parseLoop]
    simp only [switchStep, hne, hin, hz, if_false, ne_eq, not_true_eq_false]
    rw [List.foldl_cons]
    refine ih _ (fun e he => hrange e (List.mem_cons_of_mem _ he))
      (List.nodup_cons.1 hnodup).2 ?_
    intro e he
    rw [or_bit_testBit, hfresh e (List.mem_cons_of_mem _ he)]
    have hde : d ≠ e := fun h => (List.nodup_cons.1 hnodup).1 (h ▸ he)
    have := hrange e (List.mem_cons_of_mem _ he)
    simp only [Bool.false_or, decide_eq_false_iff_not]
    omega

theorem dot_value_fold (ds : List Nat) (byte : Nat) :
    ds.foldl (fun b d => b ||| (1 <<< ((d - 0x30) - 1))) byte
      = ds.foldl (fun b d => b ||| (1 <<< (d - 0x31))) byte := by
  have hf : (fun (b d : Nat) => b ||| (1 <<< ((d - 0x30) - 1)))
      = (fun (b d : Nat) => b ||| (1 <<< (d - 0x31))) := by
    funext b d
    rw [Nat.sub_sub]
  rw [hf]

theorem dots_valid (ds : List Nat) (hvalid : (ByteToken.dots ds).valid = true) :
    (∀ d, d ∈ ds → 0x31 ≤ d ∧ d ≤ 0x38) ∧ ds.Nodup := by
  simp only [ByteToken.valid, Bool.and_eq_true, List.all_eq_true, decide_eq_true_eq] at hvalid
  exact hvalid

theorem hex_valid (h1 h2 : Nat) (hvalid : (ByteToken.hex h1 h2).valid = true) :
    ∃ v1 v2, isHexadecimal h1 = some v1 ∧ isHexadecimal h2 = some v2 ∧
      (ByteToken.hex h1 h2).value = 16 * v1 + v2 := by
  simp only [ByteToken.valid, Bool.and_eq_true, Option.isSome_iff_exists] at hvalid
  obtain ⟨⟨v1, e1⟩, ⟨v2, e2⟩⟩ := hvalid
  exact ⟨v1, v2, by rw [isHexadecimal_lookup, e1], by rw [isHexadecimal_lookup, e2],
    by simp [ByteToken.value, e1, e2]⟩

theorem parseLoop_bracket (bufferSize : Nat) (rest out : List Nat) :
    parseLoop bufferSize (0x5B :: rest) NEXT 0 1 out = parseLoop bufferSize rest DOTS 0 1 out := by
  rw [parseLoop]
  simp [switchStep, iswspace]

theorem parseLoop_token (bufferSize : Nat) (t : ByteToken) (hvalid : t.valid = true)
    (rest out : List Nat) (hstar : rest.head? ≠ some 0x2A) :
    parseLoop bufferSize (t.text ++ rest) NEXT 0 1 out
      = if out.length = bufferSize then (false, out)
        else parseLoop bufferSize rest NEXT 0 1 (out ++ [t.value]) := by
  cases t with
  | hex h1 h2 =>
    obtain ⟨v1, v2, e1, e2, hv⟩ := hex_valid h1 h2 hvalid
    rw [hv]
    exact parseLoop_hex bufferSize h1 h2 v1 v2 rest out e1 e2 hstar
  | dots ds =>
    obtain ⟨hrange, hnodup⟩ := dots_valid ds hvalid
    have htext : (ByteToken.dots ds).text ++ rest = 0x5B :: (ds ++ 0x5D :: rest) := by
      simp [ByteToken.text]
    rw [htext, parseLoop_bracket,
      parseLoop_dots bufferSize ds (0x5D :: rest) 0 1 out hrange hnodup
        (fun d _ => Nat.zero_testBit _),
      parseLoop_flush bufferSize (ds.foldl (fun b d => b ||| (1 <<< (d - 0x31))) 0) 0x5D rest
        out DOTS _ 1 (by simp [switchStep]) hstar]
    simp only [ByteToken.value, dot_value_fold]

theorem token_head (t : ByteToken) (hvalid : t.valid = true) (rest : List Nat) :
    (t.text ++ rest).head? ≠ some 0x2A := by
  cases t with
  | hex h1 h2 =>
    obtain ⟨v1, _, e1, _, _⟩ := hex_valid h1 h2 hvalid
    obtain ⟨_, _, hs, _⟩ := isHexadecimal_some h1 v1 e1
    simpa [ByteToken.text] using hs
  | dots ds => simp [ByteToken.text]

theorem space_head (ws rest : List Nat) (hws : ∀ c, c ∈ ws → iswspace c = true)
    (hrest : rest.head? ≠ some 0x2A) : (ws ++ rest).head? ≠ some 0x2A := by
  cases ws with
  | nil => exact hrest
  | cons c ws =>
    have hc := hws c (List.mem_cons_self _ _)
    intro h
    simp only [List.cons_append, List.head?_cons, Option.some.injEq] at h
    rw [h] at hc
    exact absurd hc (by decide)

theorem render_head (items : List (List Nat × ByteToken)) (rest : List Nat)
    (hws : ∀ it, it ∈ items → ∀ c, c ∈ it.1 → iswspace c = true)
    (hvalid : ∀ it, it ∈ items → it.2.valid = true)
    (hrest : rest.head? ≠ some 0x2A) :
    (renderTokens items ++ rest).head? ≠ some 0x2A := by
  cases items with
  | nil => exact hrest
  | cons it items =>
    rcases it with ⟨ws, t⟩
    have h1 := hws (ws, t) (List.mem_cons_self _ _)
    have h2 := hvalid (ws, t) (List.mem_cons_self _ _)
    simp only [renderTokens, List.append_assoc]
    exact space_head ws _ h1 (token_head t h2 _)

theorem parseLoop_tokens (bufferSize : Nat) (items : List (List Nat × ByteToken))
    (hws : ∀ it, it ∈ items → ∀ c, c ∈ it.1 → iswspace c = true)
    (hvalid : ∀ it, it ∈ items → it.2.valid = true)
    (rest out : List Nat) (hstar : rest.head? ≠ some 0x2A) (hout : out.length ≤ bufferSize) :
    parseLoop bufferSize (renderTokens items ++ rest) NEXT 0 1 out
      = if out.length + items.length ≤ bufferSize then
          parseLoop bufferSize rest NEXT 0 1 (out ++ items.map (fun it => it.2.value))
        else (false, out ++ (items.map (fun it => it.2.value)).take (bufferSize - out.length)) := by
  induction items generalizing out with
  | nil => simp [renderTokens, hout]
  | cons it items ih =>
    rcases it with ⟨ws, t⟩
    have h1 := hws (ws, t) (List.mem_cons_self _ _)
    have h2 := hvalid (ws, t) (List.mem_cons_self _ _)
    have hws1 : ∀ it, it ∈ items → ∀ c, c ∈ it.1 → iswspace c = true :=
      fun it h => hws it (List.mem_cons_of_mem _ h)
    have hvalid1 : ∀ it, it ∈ items → it.2.valid = true :=
      fun it h => hvalid it (List.mem_cons_of_mem _ h)
    have hsplit : renderTokens ((ws, t) :: items) ++ rest
        = ws ++ (t.text ++ (renderTokens items ++ rest)) := by
      simp [renderTokens]
    rw [hsplit, parseLoop_space bufferSize ws _ 0 1 out h1,
      parseLoop_token bufferSize t h2 _ out (render_head items rest hws1 hvalid1 hstar)]
    by_cases hfull : out.length = bufferSize
    · have hno : ¬ out.length + ((ws, t) :: items).length ≤ bufferSize := by
        simp only [List.length_cons]
        omega
      simp [hfull]
    · have hlt : out.length < bufferSize := by omega
      rw [if_neg hfull, ih hws1 hvalid1 (out ++ [t.value]) (by simp; omega)]
      have hk : bufferSize - out.length = (bufferSize - (out.length + 1)) + 1 := by omega
      by_cases hfit : out.length + ((ws, t) :: items).length ≤ bufferSize
      · have hfit1 : (out ++ [t.value]).length + items.length ≤ bufferSize := by
          simp only [List.length_cons] at hfit
          simp
          omega
        rw [if_pos hfit, if_pos hfit1]
        simp
      · have hfit1 : ¬ (out ++ [t.value]).length + items.length ≤ bufferSize := by
          simp only [List.length_cons] at hfit
          simp
          omega
        rw [if_neg hfit, if_neg hfit1]
        simp only [List.length_append, List.length_singleton, List.map_cons]
        rw [hk, List.take_succ_cons]
        simp

theorem parseBytes_eq (bytes : List Nat) (bufferSize : Nat) :
    parseBytes bytes bufferSize = parseLoop bufferSize bytes NEXT 0 1 [] := by
  cases bytes with
  | nil => rfl
  | cons c bytes => simp [parseBytes]

theorem fail_after_tokens (bufferSize : Nat) (items : List (List Nat × ByteToken))
    (trailing bad : List Nat)
    (hws : ∀ it, it ∈ items → ∀ c, c ∈ it.1 → iswspace c = true)
    (htr : ∀ c, c ∈ trailing → iswspace c = true)
    (hvalid : ∀ it, it ∈ items → it.2.valid = true)
    (hhead : bad.head? ≠ some 0x2A)
    (hbad : ∀ out, (parseLoop bufferSize bad NEXT 0 1 out).1 = false) :
    (parseBytes (renderTokens items ++ trailing ++ bad) bufferSize).1 = false := by
  rw [parseBytes_eq, List.append_assoc,
    parseLoop_tokens bufferSize items hws hvalid _ [] (space_head trailing bad htr hhead)
      (Nat.zero_le _)]
  split_ifs
  · rw [parseLoop_space bufferSize trailing bad 0 1 _ htr]
    exact hbad _
  · rfl

theorem parseLoop_bad_first (bufferSize c : Nat) (rest out : List Nat)
    (hw : iswspace c = false) (hb : c ≠ 0x5B) (hl : hexDigits.lookup c = none) :
    parseLoop bufferSize (c :: rest) NEXT 0 1 out = (false, out) := by
  rw [parseLoop]
  simp [switchStep, hw, hb, isHexadecimal_lookup, hl]

theorem parseLoop_first_digit (bufferSize h v : Nat) (rest out : List Nat)
    (e : isHexadecimal h = some v) :
    parseLoop bufferSize (h :: rest) NEXT 0 1 out
      = parseLoop bufferSize rest HEX ((v <<< 4) % 256) 1 out := by
  obtain ⟨hw, hb, _, _⟩ := isHexadecimal_some h v e
  rw [parseLoop]
  simp [switchStep, hw, hb, e]

theorem parseLoop_bad_second (bufferSize h c : Nat) (rest out : List Nat)
    (hh : (hexDigits.lookup h).isSome = true) (hl : hexDigits.lookup c = none) :
    parseLoop bufferSize (h :: c :: rest) NEXT 0 1 out = (false, out) := by
  obtain ⟨v, e⟩ := Option.isSome_iff_exists.1 hh
  rw [parseLoop_first_digit bufferSize h v _ out (by rw [isHexadecimal_lookup, e]), parseLoop]
  simp [switchStep, isHexadecimal_lookup, hl]

theorem parseLoop_half_hex (bufferSize h : Nat) (out : List Nat)
    (hh : (hexDigits.lookup h).isSome = true) :
    parseLoop bufferSize [h] NEXT 0 1 out = (false, out) := by
  obtain ⟨v, e⟩ := Option.isSome_iff_exists.1 hh
  rw [parseLoop_first_digit bufferSize h v _ out (by rw [isHexadecimal_lookup, e])]
  rfl

theorem parseLoop_open_dots (bufferSize : Nat) (ds out : List Nat)
    (hvalid : (ByteToken.dots ds).valid = true) :
    parseLoop bufferSize (0x5B :: ds) NEXT 0 1 out = (false, out) := by
  obtain ⟨hrange, hnodup⟩ := dots_valid ds hvalid
  have := parseLoop_dots bufferSize ds [] 0 1 out hrange hnodup (fun d _ => Nat.zero_testBit _)
  rw [List.append_nil] at this
  rw [parseLoop_bracket, this]
  rfl

theorem parseLoop_bad_dot (bufferSize : Nat) (ds : List Nat) (c : Nat) (rest out : List Nat)
    (hvalid : (ByteToken.dots ds).valid = true) (hc : c ≠ 0x5D)
    (hbad : c < 0x31 ∨ 0x38 < c ∨ c ∈ ds) :
    parseLoop bufferSize (0x5B :: (ds ++ c :: rest)) NEXT 0 1 out = (false, out) := by
  obtain ⟨hrange, hnodup⟩ := dots_valid ds hvalid
  rw [parseLoop_bracket,
    parseLoop_dots bufferSize ds (c :: rest) 0 1 out hrange hnodup
      (fun d _ => Nat.zero_testBit _), parseLoop]
  by_cases hout : c < 0x31 ∨ c > 0x38
  · simp [switchStep, hc, hout]
  · have hmem : c ∈ ds := by
      rcases hbad with h | h | h
      · exact absurd (Or.inl h) hout
      · exact absurd (Or.inr h) hout
      · exact h
    have hbit : (ds.foldl (fun b d => b ||| (1 <<< (d - 0x31))) 0).testBit (c - 0x31)
        = true := by
      rw [dots_fold_testBit]
      simp only [Nat.zero_testBit, Bool.false_or, decide_eq_true_eq]
      exact ⟨c, hmem, rfl⟩
    have hnz : (ds.foldl (fun b d => b ||| (1 <<< (d - 0x31))) 0) &&& (1 <<< (c - 0x31))
        ≠ 0 := by
      intro h0
      rw [and_bit_zero, hbit] at h0
      exact absurd h0 (by decide)
    simp [switchStep, hc, hout, hnz]

/-- C30: for an input made of well-formed byte tokens, each after a possibly
empty run of white space, and followed by a possibly empty run of white space,
`parseBytes` returns 1 and stores the value of each token in order, so that
`*bufferUsed` is the number of tokens, whenever that number does not exceed
the buffer size.  After such tokens the parse returns 0 when the next token
starts with a character that is not a hexadecimal digit, has a second
character that is not a hexadecimal digit, holds a dot character outside
1..8 or already given, or is cut off by the end of the input. -/
theorem parse_bytes_tokens (items : List (List Nat × ByteToken)) (trailing : List Nat)
    (bufferSize : Nat)
    (hws : ∀ it, it ∈ items → ∀ c, c ∈ it.1 → iswspace c = true)
    (htr : ∀ c, c ∈ trailing → iswspace c = true)
    (hvalid : ∀ it, it ∈ items → it.2.valid = true) :
    (items.length ≤ bufferSize →
      parseBytes (renderTokens items ++ trailing) bufferSize
        = (true, items.map (fun it => it.2.value)) ∧
      (parseBytes (renderTokens items ++ trailing) bufferSize).2.length = items.length) ∧
    (∀ c rest, iswspace c = false → c ≠ 0x5B → c ≠ 0x2A → hexDigits.lookup c = none →
      (parseBytes (renderTokens items ++ trailing ++ c :: rest) bufferSize).1 = false) ∧
    (∀ h c rest, (hexDigits.lookup h).isSome = true → hexDigits.lookup c = none →
      (parseBytes (renderTokens items ++ trailing ++ h :: c :: rest) bufferSize).1 = false) ∧
    (∀ ds c rest, (ByteToken.dots ds).valid = true → c ≠ 0x5D →
      (c < 0x31 ∨ 0x38 < c ∨ c ∈ ds) →
      (parseBytes (renderTokens items ++ trailing ++ 0x5B :: (ds ++ c :: rest)) bufferSize).1
        = false) ∧
    (∀ h, (hexDigits.lookup h).isSome = true →
      (parseBytes (renderTokens items ++ trailing ++ [h]) bufferSize).1 = false) ∧
    (∀ ds, (ByteToken.dots ds).valid = true →
      (parseBytes (renderTokens items ++ trailing ++ 0x5B :: ds) bufferSize).1 = false) := by
  have hhex : ∀ h, (hexDigits.lookup h).isSome = true → h ≠ 0x2A := by
    intro h hh
    obtain ⟨v, e⟩ := Option.isSome_iff_exists.1 hh
    exact (isHexadecimal_some h v (by rw [isHexadecimal_lookup, e])).2.2.1
  refine ⟨fun hsize => ?_, ?_, ?_, ?_, ?_, ?_⟩
  · have hparse : parseBytes (renderTokens items ++ trailing) bufferSize
        = (true, items.map (fun it => it.2.value)) := by
      have hnil : ([] : List Nat).head? ≠ some 0x2A := by simp
      have hend := parseLoop_space bufferSize trailing [] 0 1
        (items.map (fun it => it.2.value)) htr
      rw [List.append_nil] at hend
      rw [parseBytes_eq,
        parseLoop_tokens bufferSize items hws hvalid trailing []
          (by simpa using space_head trailing [] htr hnil) (Nat.zero_le _),
        if_pos (by simpa using hsize), List.nil_append, hend]
      rfl
    exact ⟨hparse, by rw [hparse]; simp⟩
  · intro c rest hw hb hs hl
    exact fail_after_tokens bufferSize items trailing (c :: rest) hws htr hvalid
      (by simpa using hs) (fun out => by rw [parseLoop_bad_first bufferSize c rest out hw hb hl])
  · intro h c rest hh hl
    exact fail_after_tokens bufferSize items trailing (h :: c :: rest) hws htr hvalid
      (by simpa using hhex h hh)
      (fun out => by rw [parseLoop_bad_second bufferSize h c rest out hh hl])
  · intro ds c rest hv hc hbad
    exact fail_after_tokens bufferSize items trailing (0x5B :: (ds ++ c :: rest)) hws htr hvalid
      (by simp) (fun out => by rw [parseLoop_bad_dot bufferSize ds c rest out hv hc hbad])
  · intro h hh
    exact fail_after_tokens bufferSize items trailing [h] hws htr hvalid
      (by simpa using hhex h hh) (fun out => by rw [parseLoop_half_hex bufferSize h out hh])
  · intro ds hv
    exact fail_after_tokens bufferSize items trailing (0x5B :: ds) hws htr hvalid
      (by simp) (fun out => by rw [parseLoop_open_dots bufferSize ds out hv])

theorem parse_bytes_tokens_witness :
    (∀ it, it ∈ [(([] : List Nat), ByteToken.hex 0x34 0x66), ([0x20], ByteToken.dots [0x31, 0x33]),
        ([], ByteToken.dots [])] → ∀ c, c ∈ it.1 → iswspace c = true) ∧
    (∀ it, it ∈ [(([] : List Nat), ByteToken.hex 0x34 0x66), ([0x20], ByteToken.dots [0x31, 0x33]),
        ([], ByteToken.dots [])] → it.2.valid = true) ∧
    parseBytes [0x34, 0x66, 0x20, 0x5B, 0x31, 0x33, 0x5D, 0x5B, 0x5D, 0x0A] 3
      = (true, [0x4F, 0x05, 0x00]) :=
  ⟨by decide, by decide,
   ((parse_bytes_tokens
      [([], ByteToken.hex 0x34 0x66), ([0x20], ByteToken.dots [0x31, 0x33]),
        ([], ByteToken.dots [])] [0x0A] 3 (by decide) (by decide) (by decide)).1
      (by decide)).1⟩

/-! ## Repeat counts -/

theorem writeCopies_eq (bufferSize byte count : Nat) (out : List Nat)
    (hout : out.length ≤ bufferSize) :
    writeCopies bufferSize byte count out
      = if out.length + count ≤ bufferSize then (true, out ++ List.replicate count byte)
        else (false, out ++ List.replicate (bufferSize - out.length) byte) := by
  induction count generalizing out with
  | zero => simp [writeCopies, hout]
  | succ n ih =>
    by_cases hfull : out.length = bufferSize
    · have hno : ¬ out.length + (n + 1) ≤ bufferSize := by omega
      simp [writeCopies, hfull]
    · have hlt : out.length < bufferSize := by omega
      have hlen : (out ++ [byte]).length = out.length + 1 := by simp
      rw [writeCopies, if_neg hfull, ih (out ++ [byte]) (by rw [hlen]; omega), hlen]
      have hk : bufferSize - out.length = (bufferSize - (out.length + 1)) + 1 := by omega
      by_cases hfit : out.length + (n + 1) ≤ bufferSize
      · rw [if_pos hfit, if_pos (by omega)]
        simp [List.replicate_succ]
      · rw [if_neg hfit, if_neg (by omega), hk]
        simp [List.replicate_succ]

theorem writeCopies_length (bufferSize byte count : Nat) (out : List Nat)
    (hout : out.length ≤ bufferSize) :
    (writeCopies bufferSize byte count out).2.length ≤ bufferSize := by
  rw [writeCopies_eq bufferSize byte count out hout]
  split
  · simp only [List.length_append, List.length_replicate]
    omega
  · simp only [List.length_append, List.length_replicate]
    omega

theorem parseLoop_star (bufferSize : Nat) (character : Nat) (rest1 out : List Nat)
    (state : ParseState) (byte0 count0 byte count : Nat)
    (hstep : switchStep character false state byte0 count0 = some (true, NEXT, byte, count)) :
    parseLoop bufferSize (character :: 0x2A :: rest1) state byte0 count0 out
      = parseLoop bufferSize rest1 COUNT byte 0 out := by
  rw [parseLoop]
  simp only [List.isEmpty_cons, hstep, reduceCtorEq, if_false]

theorem token_then_star (bufferSize : Nat) (t : ByteToken) (hvalid : t.valid = true)
    (rest out : List Nat) :
    parseLoop bufferSize (t.text ++ 0x2A :: rest) NEXT 0 1 out
      = parseLoop bufferSize rest COUNT t.value 0 out := by
  cases t with
  | hex h1 h2 =>
    obtain ⟨v1, v2, e1, e2, hv⟩ := hex_valid h1 h2 hvalid
    obtain ⟨_, _, _, hv1⟩ := isHexadecimal_some h1 v1 e1
    obtain ⟨_, _, _, hv2⟩ := isHexadecimal_some h2 v2 e2
    have htext : (ByteToken.hex h1 h2).text ++ 0x2A :: rest = h1 :: h2 :: 0x2A :: rest := rfl
    rw [htext, parseLoop_first_digit bufferSize h1 v1 _ out e1,
      parseLoop_star bufferSize h2 rest out HEX _ 1 (16 * v1 + v2) 1
        (by simp [switchStep, e2, hex_byte v1 v2 hv1 hv2]), hv]
  | dots ds =>
    obtain ⟨hrange, hnodup⟩ := dots_valid ds hvalid
    have htext : (ByteToken.dots ds).text ++ 0x2A :: rest
        = 0x5B :: (ds ++ 0x5D :: 0x2A :: rest) := by
      simp [ByteToken.text]
    rw [htext, parseLoop_bracket,
      parseLoop_dots bufferSize ds (0x5D :: 0x2A :: rest) 0 1 out hrange hnodup
        (fun d _ => Nat.zero_testBit _),
      parseLoop_star bufferSize 0x5D rest out DOTS _ 1
        (ds.foldl (fun b d => b ||| (1 <<< (d - 0x31))) 0) 1 (by simp [switchStep])]
    simp only [ByteToken.value, dot_value_fold]

theorem count_digit_step (d : Nat) (atEnd : Bool) (byte count : Nat) (hd : d ≤ 9)
    (hzero : ¬ (d = 0 ∧ count = 0)) (hbound : count * 10 + d < 2 ^ 32) :
    switchStep (0x30 + d) atEnd COUNT byte count = some (atEnd, COUNT, byte, count * 10 + d) := by
  have hw : iswspace (0x30 + d) = false := by
    simp only [iswspace, Bool.or_eq_false_iff, decide_eq_false_iff_not, Bool.and_eq_false_iff]
    omega
  have hr : ¬ (0x30 + d < 0x30 ∨ 0x30 + d - 0x30 > 9) := by omega
  have hz : ¬ (0x30 + d - 0x30 = 0 ∧ count = 0) := by omega
  have hsub : 0x30 + d - 0x30 = d := by omega
  simp only [switchStep, hw, hr, hz, if_false, Bool.false_eq_true]
  rw [hsub, Nat.mod_eq_of_lt hbound]

theorem count_fold_ge (digits : List Nat) (count : Nat) :
    count ≤ digits.foldl (fun c d => c * 10 + d) count := by
  induction digits generalizing count with
  | nil => exact Nat.le_refl _
  | cons d digits ih =>
    have := ih (count * 10 + d)
    simp only [List.foldl_cons]
    omega

theorem parseLoop_digits (bufferSize : Nat) (digits : List Nat) (tail out : List Nat)
    (byte count : Nat) (hdigits : ∀ d, d ∈ digits → d ≤ 9) (htail : tail ≠ [])
    (hzero : count ≠ 0 ∨ ∀ d, digits.head? = some d → d ≠ 0)
    (hbound : digits.foldl (fun c d => c * 10 + d) count < 2 ^ 32) :
    parseLoop bufferSize (digits.map (fun d => 0x30 + d) ++ tail) COUNT byte count out
      = parseLoop bufferSize tail COUNT byte
          (digits.foldl (fun c d => c * 10 + d) count) out := by
  induction digits generalizing count with
  | nil => rfl
  | cons d digits ih =>
    have hd := hdigits d (List.mem_cons_self _ _)
    have hge := count_fold_ge digits (count * 10 + d)
    simp only [List.foldl_cons] at hbound
    have hz : ¬ (d = 0 ∧ count = 0) := by
      rintro ⟨h1, h2⟩
      rcases hzero with h | h
      · exact h h2
      · exact h d rfl h1
    have hne : (digits.map (fun d => 0x30 + d) ++ tail).isEmpty = false := by
      cases digits with
      | nil =>
        cases tail with
        | nil => exact absurd rfl htail
        | cons c tail => rfl
      | cons e digits => rfl
    have hstep := count_digit_step d false byte count hd hz (by omega)
    simp only [List.map_cons, List.cons_append, List.foldl_cons]
    rw [parseLoop, hne, hstep]
    simp only
    refine ih (count * 10 + d) (fun e he => hdigits e (List.mem_cons_of_mem _ he)) ?_ hbound
    left
    rcases hzero with h | h
    · omega
    · have := h d rfl
      omega

theorem parseLoop_count_end (bufferSize : Nat) (character : Nat) (rest out : List Nat)
    (byte0 count0 byte count : Nat) (hcount : count ≠ 0) (hout : out.length ≤ bufferSize)
    (hstep : switchStep character rest.isEmpty COUNT byte0 count0
      = some (true, COUNT, byte, count)) :
    parseLoop bufferSize (character :: rest) COUNT byte0 count0 out
      = if out.length + count ≤ bufferSize then
          parseLoop bufferSize rest NEXT 0 1 (out ++ List.replicate count byte)
        else (false, out ++ List.replicate (bufferSize - out.length) byte) := by
  rw [parseLoop, hstep]
  simp only [if_true, hcount, if_false]
  rw [writeCopies_eq bufferSize byte count out hout]
  by_cases hfit : out.length + count ≤ bufferSize
  · simp only [if_pos hfit]
  · simp only [if_neg hfit]

theorem decimalValue_pos (d : Nat) (digits : List Nat) (hd : d ≠ 0) :
    1 ≤ decimalValue (d :: digits) := by
  have := count_fold_ge digits (0 * 10 + d)
  simp only [decimalValue, List.foldl_cons]
  omega

theorem parseLoop_count (bufferSize : Nat) (d : Nat) (digits tail out : List Nat) (byte : Nat)
    (hdigits : ∀ e, e ∈ d :: digits → e ≤ 9) (hd : d ≠ 0)
    (htail : ∀ c, tail.head? = some c → iswspace c = true)
    (hbound : decimalValue (d :: digits) < 2 ^ 32) (hout : out.length ≤ bufferSize) :
    parseLoop bufferSize ((d :: digits).map (fun e => 0x30 + e) ++ tail) COUNT byte 0 out
      = if out.length + decimalValue (d :: digits) ≤ bufferSize then
          parseLoop bufferSize tail NEXT 0 1
            (out ++ List.replicate (decimalValue (d :: digits)) byte)
        else (false, out ++ List.replicate (bufferSize - out.length) byte) := by
  have hpos := decimalValue_pos d digits hd
  cases tail with
  | cons w tail1 =>
    have hw : iswspace w = true := htail w rfl
    rw [parseLoop_digits bufferSize (d :: digits) (w :: tail1) out byte 0 hdigits
      (by simp) (Or.inr (fun e he => by
        simp only [List.head?_cons, Option.some.injEq] at he
        rw [← he]
        exact hd)) hbound,
      parseLoop_count_end bufferSize w tail1 out byte _ byte (decimalValue (d :: digits))
        (by omega) hout (by simp [switchStep, hw, decimalValue])]
    have hskip : ∀ o, parseLoop bufferSize (w :: tail1) NEXT 0 1 o
        = parseLoop bufferSize tail1 NEXT 0 1 o := by
      intro o
      exact parseLoop_space bufferSize [w] tail1 0 1 o (fun c hc => by
        simp only [List.mem_singleton] at hc
        rw [hc]
        exact hw)
    rw [hskip]
  | nil =>
    rcases List.eq_nil_or_concat (d :: digits) with hnil | ⟨init, last, hcat⟩
    · exact absurd hnil (by simp)
    · rw [List.concat_eq_append] at hcat
      have hval : decimalValue (d :: digits) = decimalValue init * 10 + last := by
        rw [hcat]
        simp [decimalValue, List.foldl_append]
      have hlast : last ≤ 9 := hdigits last (by rw [hcat]; simp)
      have hinit : ∀ e, e ∈ init → e ≤ 9 := fun e he => hdigits e (by rw [hcat]; simp [he])
      have hzero : ¬ (last = 0 ∧ decimalValue init = 0) := by
        rintro ⟨h1, h2⟩
        rw [hval, h1, h2] at hpos
        omega
      have hhead : ∀ e, init.head? = some e → e ≠ 0 := by
        intro e he
        cases init with
        | nil => simp at he
        | cons i init1 =>
          simp only [List.head?_cons, Option.some.injEq] at he
          have : d = i := by
            have := congrArg List.head? hcat
            simpa using this
          rw [← he, ← this]
          exact hd
      have hb1 : init.foldl (fun c e => c * 10 + e) 0 < 2 ^ 32 := by
        have : decimalValue init ≤ decimalValue (d :: digits) := by
          rw [hval]
          omega
        exact Nat.lt_of_le_of_lt this hbound
      rw [hval, List.append_nil, hcat, List.map_append, List.map_singleton,
        parseLoop_digits bufferSize init [0x30 + last] out byte 0 hinit (by simp)
          (Or.inr hhead) hb1]
      show parseLoop bufferSize [0x30 + last] COUNT byte (decimalValue init) out = _
      rw [parseLoop_count_end bufferSize (0x30 + last) [] out byte (decimalValue init) byte
          (decimalValue init * 10 + last) (by rw [← hval]; omega) hout
          (count_digit_step last true byte _ hlast hzero (by rw [← hval]; exact hbound))]

theorem counted_valid (it : CountedToken) (hvalid : it.valid = true) :
    (∀ c, c ∈ it.ws → iswspace c = true) ∧ it.token.valid = true ∧
    (∀ digits, it.count = some digits →
      ∃ d rest, digits = d :: rest ∧ d ≠ 0 ∧ ∀ e, e ∈ d :: rest → e ≤ 9) := by
  rcases it with ⟨ws, token, count⟩
  simp only [CountedToken.valid, Bool.and_eq_true, List.all_eq_true] at hvalid
  obtain ⟨⟨h1, h2⟩, h3⟩ := hvalid
  refine ⟨h1, h2, ?_⟩
  intro digits hd
  simp only at hd
  subst hd
  simp only [Bool.and_eq_true, List.all_eq_true, decide_eq_true_eq] at h3
  obtain ⟨h4, h5⟩ := h3
  cases digits with
  | nil => simp at h5
  | cons d rest =>
    refine ⟨d, rest, rfl, ?_, h4⟩
    simpa using h5

theorem parseLoop_item (bufferSize : Nat) (it : CountedToken) (hvalid : it.valid = true)
    (hcopies : it.copies < 2 ^ 32) (tail out : List Nat)
    (hnone : it.count = none → tail.head? ≠ some 0x2A)
    (hsome : it.count ≠ none → ∀ c, tail.head? = some c → iswspace c = true)
    (hout : out.length ≤ bufferSize) :
    parseLoop bufferSize (it.text ++ tail) NEXT 0 1 out
      = if out.length + it.copies ≤ bufferSize then
          parseLoop bufferSize tail NEXT 0 1 (out ++ it.bytes)
        else (false, out ++ it.bytes.take (bufferSize - out.length)) := by
  obtain ⟨hws, htoken, hcount⟩ := counted_valid it hvalid
  rcases it with ⟨ws, token, count⟩
  cases count with
  | none =>
    have htext : (CountedToken.mk ws token none).text ++ tail = ws ++ (token.text ++ tail) := by
      simp [CountedToken.text]
    rw [htext, parseLoop_space bufferSize ws _ 0 1 out hws,
      parseLoop_token bufferSize token htoken tail out (hnone rfl)]
    by_cases hfull : out.length = bufferSize
    · simp [CountedToken.copies, CountedToken.bytes, hfull]
    · have hfit : out.length + 1 ≤ bufferSize := by omega
      simp [CountedToken.copies, CountedToken.bytes, hfull, hfit]
  | some digits =>
    obtain ⟨d, rest, hd, hd0, hdig⟩ := hcount digits rfl
    subst hd
    have htext : (CountedToken.mk ws token (some (d :: rest))).text ++ tail
        = ws ++ (token.text ++ 0x2A :: ((d :: rest).map (fun e => 0x30 + e) ++ tail)) := by
      simp [CountedToken.text]
    have hc : (CountedToken.mk ws token (some (d :: rest))).copies
        = decimalValue (d :: rest) := rfl
    have hb : (CountedToken.mk ws token (some (d :: rest))).bytes
        = List.replicate (decimalValue (d :: rest)) token.value := rfl
    rw [hc] at hcopies
    rw [htext, parseLoop_space bufferSize ws _ 0 1 out hws,
      token_then_star bufferSize token htoken _ out,
      parseLoop_count bufferSize d rest tail out token.value hdig hd0 (hsome (by simp))
        hcopies hout, hc, hb]
    by_cases hfit : out.length + decimalValue (d :: rest) ≤ bufferSize
    · rw [if_pos hfit, if_pos hfit]
    · rw [if_neg hfit, if_neg hfit, List.take_replicate]
      have hmin : min (bufferSize - out.length) (decimalValue (d :: rest))
          = bufferSize - out.length := by omega
      rw [hmin]

theorem counted_head (it : CountedToken) (items : List CountedToken) (tail : List Nat)
    (hvalid : it.valid = true) :
    (renderCounted (it :: items) ++ tail).head? ≠ some 0x2A ∧
    (it.ws ≠ [] →
      ∀ c, (renderCounted (it :: items) ++ tail).head? = some c → iswspace c = true) := by
  obtain ⟨hws, htoken, _⟩ := counted_valid it hvalid
  have hrender : renderCounted (it :: items) ++ tail
      = it.ws ++ (it.token.text ++ ((match it.count with
          | none => []
          | some digits => 0x2A :: digits.map (fun d => 0x30 + d))
            ++ (renderCounted items ++ tail))) := by
    simp [renderCounted, CountedToken.text]
  rw [hrender]
  refine ⟨space_head it.ws _ hws (token_head it.token htoken _), ?_⟩
  intro hw c hc
  cases hws1 : it.ws with
  | nil => exact absurd hws1 hw
  | cons w ws1 =>
    rw [hws1] at hc
    simp only [List.cons_append, List.head?_cons, Option.some.injEq] at hc
    exact hc ▸ hws w (by rw [hws1]; exact List.mem_cons_self _ _)

theorem parseLoop_counted_then (bufferSize : Nat) (items : List CountedToken)
    (tail : List Nat)
    (hvalid : ∀ it, it ∈ items → it.valid = true)
    (hcopies : ∀ it, it ∈ items → it.copies < 2 ^ 32)
    (hsep : separated items = true)
    (hstar : tail.head? ≠ some 0x2A)
    (hspace : (∀ it, items.getLast? = some it → it.count = none) ∨
      ∀ c, tail.head? = some c → iswspace c = true)
    (out : List Nat) (hout : out.length ≤ bufferSize) :
    parseLoop bufferSize (renderCounted items ++ tail) NEXT 0 1 out
      = if out.length + (countedBytes items).length ≤ bufferSize then
          parseLoop bufferSize tail NEXT 0 1 (out ++ countedBytes items)
        else (false, out ++ (countedBytes items).take (bufferSize - out.length)) := by
  induction items generalizing out with
  | nil =>
    simp only [renderCounted, List.nil_append, countedBytes, List.length_nil, Nat.add_zero,
      hout, if_true, List.append_nil]
  | cons it items ih =>
    have hv := hvalid it (List.mem_cons_self _ _)
    have hvs : ∀ x, x ∈ items → x.valid = true := fun x hx => hvalid x (List.mem_cons_of_mem _ hx)
    have hcs : ∀ x, x ∈ items → x.copies < 2 ^ 32 :=
      fun x hx => hcopies x (List.mem_cons_of_mem _ hx)
    have hseps : separated items = true := by
      cases items with
      | nil => rfl
      | cons b items =>
        simp only [separated, Bool.and_eq_true] at hsep
        exact hsep.2
    have hspaces : (∀ x, items.getLast? = some x → x.count = none) ∨
        ∀ c, tail.head? = some c → iswspace c = true := by
      rcases hspace with h | h
      · cases items with
        | nil => exact Or.inl (fun x hx => by simp at hx)
        | cons b items =>
          left
          intro x hx
          exact h x (by rw [List.getLast?_cons_cons]; exact hx)
      · exact Or.inr h
    have hrender : renderCounted (it :: items) ++ tail
        = it.text ++ (renderCounted items ++ tail) := by
      simp [renderCounted]
    have hlen : it.bytes.length = it.copies := by simp [CountedToken.bytes]
    have hnone : it.count = none → (renderCounted items ++ tail).head? ≠ some 0x2A := by
      intro _
      cases items with
      | nil => exact hstar
      | cons b items =>
        exact (counted_head b items tail (hvs b (List.mem_cons_self _ _))).1
    have hsome : it.count ≠ none →
        ∀ c, (renderCounted items ++ tail).head? = some c → iswspace c = true := by
      intro hc
      cases items with
      | nil =>
        rcases hspace with h | h
        · exact absurd (h it rfl) hc
        · exact h
      | cons b items =>
        apply (counted_head b items tail (hvs b (List.mem_cons_self _ _))).2
        simp only [separated, Bool.and_eq_true, Bool.or_eq_true, Option.isNone_iff_eq_none,
          Bool.not_eq_true', List.isEmpty_eq_false] at hsep
        rcases hsep.1 with h | h
        · exact absurd h hc
        · intro hnil
          exact h (by rw [hnil])
    rw [hrender, parseLoop_item bufferSize it hv (hcopies it (List.mem_cons_self _ _)) _ out
      hnone hsome hout]
    have hbytes : countedBytes (it :: items) = it.bytes ++ countedBytes items := rfl
    rw [hbytes, List.length_append, hlen]
    by_cases hfit : out.length + it.copies ≤ bufferSize
    · have hl : (out ++ it.bytes).length = out.length + it.copies := by
        rw [List.length_append, hlen]
      have htake : List.take (bufferSize - out.length) (it.bytes ++ countedBytes items)
          = it.bytes ++ List.take (bufferSize - (out.length + it.copies)) (countedBytes items) := by
        rw [List.take_append_eq_append_take,
          List.take_of_length_le (l := it.bytes) (by rw [hlen]; omega), hlen]
        have e1 : bufferSize - out.length - it.copies = bufferSize - (out.length + it.copies) := by
          omega
        rw [e1]
      rw [if_pos hfit, ih hvs hcs hseps hspaces (out ++ it.bytes) (by rw [hl]; exact hfit), hl,
        htake, List.append_assoc, Nat.add_assoc, List.append_assoc]
    · have htake : List.take (bufferSize - out.length) (it.bytes ++ countedBytes items)
          = List.take (bufferSize - out.length) it.bytes := by
        rw [List.take_append_eq_append_take, hlen]
        have e1 : bufferSize - out.length - it.copies = 0 := by omega
        rw [e1]
        simp
      have e2 : ¬ out.length + (it.copies + (countedBytes items).length) ≤ bufferSize := by
        omega
      rw [if_neg hfit, htake, if_neg e2]

theorem parseLoop_counted (bufferSize : Nat) (items : List CountedToken)
    (trailing : List Nat)
    (hvalid : ∀ it, it ∈ items → it.valid = true)
    (hcopies : ∀ it, it ∈ items → it.copies < 2 ^ 32)
    (hsep : separated items = true)
    (htr : ∀ c, c ∈ trailing → iswspace c = true) :
    parseLoop bufferSize (renderCounted items ++ trailing) NEXT 0 1 []
      = (decide ((countedBytes items).length ≤ bufferSize),
          (countedBytes items).take bufferSize) := by
  have htrail : ∀ c, trailing.head? = some c → iswspace c = true := by
    intro c hc
    cases trailing with
    | nil => simp at hc
    | cons w tr =>
      simp only [List.head?_cons, Option.some.injEq] at hc
      exact hc ▸ htr w (List.mem_cons_self _ _)
  have hstar : trailing.head? ≠ some 0x2A := by
    intro h
    exact absurd (htrail _ h) (by decide)
  have hend : ∀ o, parseLoop bufferSize trailing NEXT 0 1 o = (true, o) := by
    intro o
    have := parseLoop_space bufferSize trailing [] 0 1 o htr
    rw [List.append_nil] at this
    rw [this]
    rfl
  rw [parseLoop_counted_then bufferSize items trailing hvalid hcopies hsep hstar
    (Or.inr htrail) [] (Nat.zero_le _)]
  by_cases hfit : (countedBytes items).length ≤ bufferSize
  · simp [hfit, hend, List.take_of_length_le]
  · simp [hfit]

theorem parseLoop_length (bufferSize : Nat) (n : Nat) :
    ∀ (input : List Nat), input.length ≤ n →
      ∀ (state : ParseState) (byte count : Nat) (out : List Nat), out.length ≤ bufferSize →
        (parseLoop bufferSize input state byte count out).2.length ≤ bufferSize := by
  induction n with
  | zero =>
    intro input hlen state byte count out hout
    have : input = [] := List.length_eq_zero.1 (Nat.le_zero.1 hlen)
    subst this
    exact hout
  | succ n ih =>
    intro input hlen state byte count out hout
    cases input with
    | nil => exact hout
    | cons character rest =>
      have hrest : rest.length ≤ n := by
        simp only [List.length_cons] at hlen
        omega
      rw [parseLoop]
      split
      · exact hout
      · exact ih rest hrest _ _ _ out hout
      · next state1 byte1 count1 hstep =>
        have hw := writeCopies_length bufferSize byte1 count1 out hout
        split
        · split
          · exact hout
          · split
            · next out1 heq =>
              rw [heq] at hw
              exact hw
            · next out1 heq =>
              rw [heq] at hw
              exact ih rest hrest _ _ _ out1 hw
        · split
          · next rest1 =>
            have hrest1 : rest1.length ≤ n := by
              simp only [List.length_cons] at hrest
              omega
            exact ih rest1 hrest1 _ _ _ out hout
          · split
            · next out1 heq =>
              rw [heq] at hw
              exact hw
            · next out1 heq =>
              rw [heq] at hw
              exact ih rest hrest _ _ _ out1 hw

theorem parseBytes_length (bytes : List Nat) (bufferSize : Nat) :
    (parseBytes bytes bufferSize).2.length ≤ bufferSize := by
  rw [parseBytes_eq]
  exact parseLoop_length bufferSize bytes.length bytes (Nat.le_refl _) _ _ _ [] (Nat.zero_le _)

theorem count_missing_end (bufferSize byte : Nat) (out : List Nat) :
    parseLoop bufferSize [] COUNT byte 0 out = (false, out) := rfl

theorem count_missing_space (bufferSize byte w : Nat) (rest out : List Nat)
    (hw : iswspace w = true) :
    parseLoop bufferSize (w :: rest) COUNT byte 0 out = (false, out) := by
  rw [parseLoop]
  simp [switchStep, hw]

theorem count_leading_zero (bufferSize byte : Nat) (rest out : List Nat) :
    parseLoop bufferSize (0x30 :: rest) COUNT byte 0 out = (false, out) := by
  rw [parseLoop]
  simp [switchStep, iswspace]

theorem fail_after_counted (bufferSize : Nat) (items : List CountedToken)
    (ws : List Nat) (t : ByteToken) (bad : List Nat)
    (hvalid : ∀ it, it ∈ items → it.valid = true)
    (hcopies : ∀ it, it ∈ items → it.copies < 2 ^ 32)
    (hsep : separated items = true)
    (hws : ∀ c, c ∈ ws → iswspace c = true) (ht : t.valid = true)
    (hgap : (∀ it, items.getLast? = some it → it.count = none) ∨ ws ≠ [])
    (hbad : ∀ out, (parseLoop bufferSize bad COUNT t.value 0 out).1 = false) :
    (parseBytes (renderCounted items ++ (ws ++ t.text ++ 0x2A :: bad)) bufferSize).1 = false := by
  have hassoc : ws ++ t.text ++ 0x2A :: bad = ws ++ (t.text ++ 0x2A :: bad) := by simp
  have hstar : (ws ++ t.text ++ 0x2A :: bad).head? ≠ some 0x2A := by
    rw [hassoc]
    exact space_head ws _ hws (token_head t ht _)
  have hspace : (∀ it, items.getLast? = some it → it.count = none) ∨
      ∀ c, (ws ++ t.text ++ 0x2A :: bad).head? = some c → iswspace c = true := by
    rcases hgap with h | h
    · exact Or.inl h
    · right
      intro c hc
      cases ws with
      | nil => exact absurd rfl h
      | cons w ws1 =>
        simp only [List.cons_append, List.head?_cons, Option.some.injEq] at hc
        exact hc ▸ hws w (List.mem_cons_self _ _)
  rw [parseBytes_eq, parseLoop_counted_then bufferSize items _ hvalid hcopies hsep hstar hspace
    [] (Nat.zero_le _)]
  split
  · rw [hassoc, parseLoop_space bufferSize ws _ 0 1 _ hws, token_then_star bufferSize t ht]
    exact hbad _
  · rfl

/-- C31 (evaluated on the code): for well-formed tokens, each optionally
followed by an asterisk and a decimal count without a leading 0 that is ended
by white space or by the end of the input, and with every count below 2^32,
`parseBytes` stores for each token as many copies of its byte as the count
says (one without a count), returns 1 exactly when their total number does not
exceed the buffer size, and otherwise returns 0 with the buffer filled to its
size.  After such tokens, a token whose asterisk is followed by the end of the
input, by white space or by the digit 0 makes it return 0.  For every input
the bytes stored never exceed the buffer size.  The count is kept in 32 bits:
`00*4294967297` with a buffer of one byte returns 1 and stores one byte. -/
theorem repeat_counts (items : List CountedToken) (trailing : List Nat) (bufferSize : Nat)
    (hvalid : ∀ it, it ∈ items → it.valid = true)
    (hsep : separated items = true)
    (htr : ∀ c, c ∈ trailing → iswspace c = true)
    (hcopies : ∀ it, it ∈ items → it.copies < 2 ^ 32) :
    parseBytes (renderCounted items ++ trailing) bufferSize
      = (decide ((countedBytes items).length ≤ bufferSize),
          (countedBytes items).take bufferSize) ∧
    ((countedBytes items).length ≤ bufferSize →
      parseBytes (renderCounted items ++ trailing) bufferSize = (true, countedBytes items)) ∧
    (∀ (ws : List Nat) (t : ByteToken), (∀ c, c ∈ ws → iswspace c = true) → t.valid = true →
      ((∀ it, items.getLast? = some it → it.count = none) ∨ ws ≠ []) →
      (parseBytes (renderCounted items ++ (ws ++ t.text ++ [0x2A])) bufferSize).1 = false ∧
      (∀ w rest, iswspace w = true →
        (parseBytes (renderCounted items ++ (ws ++ t.text ++ 0x2A :: w :: rest)) bufferSize).1
          = false) ∧
      (∀ rest,
        (parseBytes (renderCounted items ++ (ws ++ t.text ++ 0x2A :: 0x30 :: rest))
          bufferSize).1 = false)) ∧
    (∀ bytes, (parseBytes bytes bufferSize).2.length ≤ bufferSize) ∧
    parseBytes
        [0x30, 0x30, 0x2A, 0x34, 0x32, 0x39, 0x34, 0x39, 0x36, 0x37, 0x32, 0x39, 0x37] 1
      = (true, [0x00]) := by
  have hparse := parseLoop_counted bufferSize items trailing hvalid hcopies hsep htr
  refine ⟨?_, fun hfit => ?_, fun ws t hws ht hgap => ⟨?_, fun w rest hw => ?_, fun rest => ?_⟩,
    fun bytes => parseBytes_length bytes bufferSize, by decide⟩
  · rw [parseBytes_eq, hparse]
  · rw [parseBytes_eq, hparse, List.take_of_length_le hfit]
    simp [hfit]
  · exact fail_after_counted bufferSize items ws t [] hvalid hcopies hsep hws ht hgap
      (fun out => by rw [count_missing_end])
  · exact fail_after_counted bufferSize items ws t (w :: rest) hvalid hcopies hsep hws ht hgap
      (fun out => by rw [count_missing_space bufferSize _ w rest out hw])
  · exact fail_after_counted bufferSize items ws t (0x30 :: rest) hvalid hcopies hsep hws ht hgap
      (fun out => by rw [count_leading_zero])

theorem repeat_counts_witness :
    (∀ it, it ∈ [(⟨[], ByteToken.hex 0x34 0x66, some [1, 0]⟩ : CountedToken),
        ⟨[0x20], ByteToken.dots [0x31], none⟩] → it.valid = true) ∧
    separated [(⟨[], ByteToken.hex 0x34 0x66, some [1, 0]⟩ : CountedToken),
        ⟨[0x20], ByteToken.dots [0x31], none⟩] = true ∧
    (∀ it, it ∈ [(⟨[], ByteToken.hex 0x34 0x66, some [1, 0]⟩ : CountedToken),
        ⟨[0x20], ByteToken.dots [0x31], none⟩] → it.copies < 2 ^ 32) ∧
    parseBytes [0x34, 0x66, 0x2A, 0x31, 0x30, 0x20, 0x5B, 0x31, 0x5D] 11
      = (true, [0x4F, 0x4F, 0x4F, 0x4F, 0x4F, 0x4F, 0x4F, 0x4F, 0x4F, 0x4F, 0x01]) ∧
    parseBytes [0x34, 0x66, 0x2A, 0x31, 0x30, 0x20, 0x5B, 0x31, 0x5D] 10
      = (false, [0x4F, 0x4F, 0x4F, 0x4F, 0x4F, 0x4F, 0x4F, 0x4F, 0x4F, 0x4F]) :=
  ⟨by decide, by decide, by decide,
   (repeat_counts [⟨[], ByteToken.hex 0x34 0x66, some [1, 0]⟩,
      ⟨[0x20], ByteToken.dots [0x31], none⟩] [] 11 (by decide) (by decide) (by decide)
      (by decide)).1,
   (repeat_counts [⟨[], ByteToken.hex 0x34 0x66, some [1, 0]⟩,
      ⟨[0x20], ByteToken.dots [0x31], none⟩] [] 10 (by decide) (by decide) (by decide)
      (by decide)).1⟩

end HidTest
